import Mathlib

/-!
# GroveEngine: search orchestration and safe process execution

A shallow embedding of

* `tools/grove-wrap-go/internal/exec/runner.go` and `wrangler.go`
  (process runner and wrangler adapter), and
* `tools/grove-find-go/cmd/cf.go` and `domain.go`
  (fan-out commands over concurrent probes),

followed by theorems about the embedded functions.

Go strings are modelled by Lean strings (sequences of Unicode code points),
Go slices by lists, and Go `error` values by `GoError`.  Effects are made
explicit: the operating system is a parameter (`Sys`), the search package is a
parameter (`World`), and calls to the output package are collected in a trace.
-/

namespace Grove

/-! ## Go errors -/

/-- Go error values.  `leaf` is an error that carries only a message
(`errors.New`, `fmt.Errorf` without `%w`, or an error of a library);
`wrap` is an error made by `fmt.Errorf` with the `%w` verb: it carries the
whole formatted message and the wrapped cause. -/
inductive GoError where
  | leaf (msg : String)
  | wrap (msg : String) (cause : GoError)
  deriving DecidableEq, Repr

/-- The `Error()` method: the message of an error. -/
def GoError.Error : GoError → String
  | .leaf m => m
  | .wrap m _ => m

/-- The `errors.Unwrap` view: the wrapped cause, if any. -/
def GoError.Unwrap : GoError → Option GoError
  | .leaf _ => none
  | .wrap _ c => some c

/-! ## runner.go -/

/-- The struct `Result` of runner.go. -/
structure Result where
  Stdout : String
  Stderr : String
  ExitCode : Int
  deriving DecidableEq, Repr

/-- The method `OK`: `r.ExitCode == 0`. -/
def Result.OK (r : Result) : Bool :=
  r.ExitCode == 0

/-- The predicate `unicode.IsSpace` of the Go standard library: the code
points with the Unicode White_Space property. -/
def isSpace (c : Char) : Bool :=
  let n := c.toNat
  decide ((9 ≤ n ∧ n ≤ 13) ∨ n = 0x20 ∨ n = 0x85 ∨ n = 0xA0 ∨ n = 0x1680 ∨
    (0x2000 ≤ n ∧ n ≤ 0x200A) ∨ n = 0x2028 ∨ n = 0x2029 ∨ n = 0x202F ∨
    n = 0x205F ∨ n = 0x3000)

/-- The function `strings.TrimSpace` on the characters of a string: leading
white space is dropped, then trailing white space. -/
def trimSpaceChars (cs : List Char) : List Char :=
  ((cs.dropWhile isSpace).reverse.dropWhile isSpace).reverse

/-- The function `strings.TrimSpace`. -/
def TrimSpace (s : String) : String :=
  ⟨trimSpaceChars s.data⟩

/-- The function `strings.Split(s, "\n")` on the characters of a string: the
pieces between consecutive newlines; a text without newline (the empty text
included) gives one piece. -/
def splitChars : List Char → List (List Char)
  | [] => [[]]
  | c :: cs =>
    if c = '\n' then [] :: splitChars cs
    else
      match splitChars cs with
      | [] => [[c]]
      | p :: ps => (c :: p) :: ps

/-- The call `strings.Split(s, "\n")`. -/
def Split (s : String) : List String :=
  (splitChars s.data).map String.mk

/-- The method `Lines`: the loop appends every non-empty element of
`strings.Split(strings.TrimSpace(r.Stdout), "\n")` to `lines`. -/
def Result.Lines (r : Result) : List String :=
  let raw := Split (TrimSpace r.Stdout)
  raw.foldl (fun lines l => if l ≠ "" then lines ++ [l] else lines) []

/-- One second, in nanoseconds (`time.Second`). -/
def Second : Nat := 1000000000

/-- The constant `DefaultTimeout = 30 * time.Second`. -/
def DefaultTimeout : Nat := 30 * Second

/-- A `context.Context` as far as the runner uses it: its deadline, as a
duration from the call (`none` for `context.Background()`). -/
abbrev Context := Option Nat

/-- The empty context `context.Background()`. -/
def Background : Context := none

/-- The call `context.WithTimeout(parent, timeout)`: the earlier of the
deadline of the parent and the new one. -/
def WithTimeout (parent : Context) (timeout : Nat) : Context :=
  match parent with
  | none => some timeout
  | some d => some (min d timeout)

/-- What became of an external program that os/exec was asked to run. -/
inductive ProcOutcome where
  /-- The program could not be located or started, or running it failed in
  another way that is not an exit status. -/
  | failed (e : GoError) (stdout stderr : String)
  /-- The program started and exited on its own with this exit status. -/
  | exited (code : Nat) (stdout stderr : String)
  /-- The deadline of the context passed before the program completed and
  os/exec killed the process. -/
  | killed (stdout stderr : String)
  deriving DecidableEq, Repr

/-- The error returned by `cmd.Run()`: an `*exec.ExitError` with the value of
its `ExitCode()`, or any other error. -/
inductive RunError where
  | exitError (exitCode : Int)
  | other (e : GoError)
  deriving DecidableEq, Repr

/-- The observable result of `cmd.Run()`: the two buffers and the error. -/
structure CmdRun where
  stdout : String
  stderr : String
  err : Option RunError
  deriving DecidableEq, Repr

/-- Model of `(*exec.Cmd).Run` of the Go standard library (os/exec, outside
this repository).  A process that exits with status 0 gives a nil error; a
process that exits with another status gives an `*exec.ExitError` with that
code; a process killed at the deadline did not succeed, so `Wait` returns an
`*exec.ExitError` too (`signal: killed`), whose `ExitCode()` is -1; a program
that cannot be started gives another error. -/
def execRun : ProcOutcome → CmdRun
  | .failed e out err => { stdout := out, stderr := err, err := some (.other e) }
  | .exited code out err =>
    { stdout := out, stderr := err,
      err := if code = 0 then none else some (.exitError code) }
  | .killed out err => { stdout := out, stderr := err, err := some (.exitError (-1)) }

/-- The operating system, as the runner sees it. -/
structure Sys where
  /-- The lookup `exec.LookPath(name)`: the path found, or `none` on error. -/
  LookPath : String → Option String
  /-- What running `name` with `args` under a context does. -/
  spawn : Context → String → List String → ProcOutcome

/-- One process invocation: the context, the program name, the argument list. -/
structure Invocation where
  ctx : Context
  name : String
  args : List String
  deriving DecidableEq, Repr

/-- A returned value together with the process invocations made, in order. -/
structure Traced (α : Type) where
  val : α
  spawned : List Invocation

/-- The function `RunContext`. -/
def RunContext (sys : Sys) (ctx : Context) (name : String) (args : List String) :
    Traced (Result × Option GoError) :=
  let run := execRun (sys.spawn ctx name args)
  let result : Result := { Stdout := run.stdout, Stderr := run.stderr, ExitCode := 0 }
  let ret : Result × Option GoError :=
    match run.err with
    | some (.exitError code) => ({ result with ExitCode := code }, none)
    | some (.other e) =>
      (result, some (.wrap ("failed to execute " ++ name ++ ": " ++ e.Error) e))
    | none => (result, none)
  { val := ret, spawned := [{ ctx := ctx, name := name, args := args }] }

/-- The function `RunWithTimeout`. -/
def RunWithTimeout (sys : Sys) (timeout : Nat) (name : String) (args : List String) :
    Traced (Result × Option GoError) :=
  let ctx := WithTimeout Background timeout
  RunContext sys ctx name args

/-- The function `Run`. -/
def Run (sys : Sys) (name : String) (args : List String) :
    Traced (Result × Option GoError) :=
  RunWithTimeout sys DefaultTimeout name args

/-- The function `Which`. -/
def Which (sys : Sys) (name : String) : String × Bool :=
  match sys.LookPath name with
  | none => ("", false)
  | some path => (path, true)

/-! ## wrangler.go -/

/-- The function `Wrangler`. -/
def Wrangler (sys : Sys) (args : List String) : Traced (Result × Option GoError) :=
  if (Which sys "wrangler").2 then
    Run sys "wrangler" args
  else
    Run sys "npx" (["wrangler"] ++ args)

/-- The function `WranglerOutput`. -/
def WranglerOutput (sys : Sys) (args : List String) : Traced (String × Option GoError) :=
  let w := Wrangler sys args
  let ret : String × Option GoError :=
    match w.val with
    | (_, some err) => ("", some err)
    | (result, none) =>
      if !result.OK then ("", some (.leaf ("wrangler: " ++ result.Stderr)))
      else (result.Stdout, none)
  { val := ret, spawned := w.spawned }

/-- The function `IsWranglerAvailable`. -/
def IsWranglerAvailable (sys : Sys) : Traced Bool :=
  if (Which sys "wrangler").2 then
    { val := true, spawned := [] }
  else
    let r := Run sys "npx" ["wrangler", "--version"]
    { val := r.val.2.isNone && r.val.1.OK, spawned := r.spawned }

/-- A system for examples: `wrangler` is on the path and `npx` is not;
`wrangler deploy` exits with status 0, `wrangler whoami` exits with status 1,
`wrangler tail` runs until the deadline kills it, and anything else cannot be
started. -/
def sysDirect : Sys where
  LookPath := fun name =>
    if name = "wrangler" then some "/usr/bin/wrangler" else none
  spawn := fun _ name args =>
    if name = "wrangler" ∧ args = ["deploy"] then .exited 0 "deployed\n" ""
    else if name = "wrangler" ∧ args = ["whoami"] then .exited 1 "" "not logged in"
    else if name = "wrangler" ∧ args = ["tail"] then .killed "log line\n" ""
    else .failed (.leaf "exec: not found") "" ""

/-- A system for examples: `wrangler` is not on the path, and `npx wrangler
deploy` exits with status 0. -/
def sysNpxOnly : Sys where
  LookPath := fun name =>
    if name = "npx" then some "/usr/bin/npx" else none
  spawn := fun _ name args =>
    if name = "npx" ∧ args = ["wrangler", "deploy"] then .exited 0 "deployed\n" ""
    else .failed (.leaf "exec: not found") "" ""

/-! ## Strings of the Go standard library used by the commands -/

/-- A range of the lower-case mapping of the Go standard library: the code
points `lo`, `lo + stride`, and so on up to `hi` are mapped to lower case by
adding `delta`. -/
structure CaseRange where
  lo : Nat
  hi : Nat
  stride : Nat
  delta : Int
  deriving DecidableEq, Repr

/-- The lower-case mapping of the table `unicode.CaseRanges` of the Go standard
library for the code points above ASCII (the simple lower-case mappings of
the Unicode character database), by ranges. -/
def lowerRanges : List CaseRange :=
  [CaseRange.mk 0x00C0 0x00D6 1 32, CaseRange.mk 0x00D8 0x00DE 1 32,
   CaseRange.mk 0x0100 0x012E 2 1, CaseRange.mk 0x0130 0x0130 1 (-199),
   CaseRange.mk 0x0132 0x0136 2 1, CaseRange.mk 0x0139 0x0147 2 1,
   CaseRange.mk 0x014A 0x0176 2 1, CaseRange.mk 0x0178 0x0178 1 (-121),
   CaseRange.mk 0x0179 0x017D 2 1, CaseRange.mk 0x0181 0x0181 1 210,
   CaseRange.mk 0x0182 0x0184 2 1, CaseRange.mk 0x0186 0x0186 1 206,
   CaseRange.mk 0x0187 0x0187 1 1, CaseRange.mk 0x0189 0x018A 1 205,
   CaseRange.mk 0x018B 0x018B 1 1, CaseRange.mk 0x018E 0x018E 1 79,
   CaseRange.mk 0x018F 0x018F 1 202, CaseRange.mk 0x0190 0x0190 1 203,
   CaseRange.mk 0x0191 0x0191 1 1, CaseRange.mk 0x0193 0x0193 1 205,
   CaseRange.mk 0x0194 0x0194 1 207, CaseRange.mk 0x0196 0x0196 1 211,
   CaseRange.mk 0x0197 0x0197 1 209, CaseRange.mk 0x0198 0x0198 1 1,
   CaseRange.mk 0x019C 0x019C 1 211, CaseRange.mk 0x019D 0x019D 1 213,
   CaseRange.mk 0x019F 0x019F 1 214, CaseRange.mk 0x01A0 0x01A4 2 1,
   CaseRange.mk 0x01A6 0x01A6 1 218, CaseRange.mk 0x01A7 0x01A7 1 1,
   CaseRange.mk 0x01A9 0x01A9 1 218, CaseRange.mk 0x01AC 0x01AC 1 1,
   CaseRange.mk 0x01AE 0x01AE 1 218, CaseRange.mk 0x01AF 0x01AF 1 1,
   CaseRange.mk 0x01B1 0x01B2 1 217, CaseRange.mk 0x01B3 0x01B5 2 1,
   CaseRange.mk 0x01B7 0x01B7 1 219, CaseRange.mk 0x01B8 0x01B8 1 1,
   CaseRange.mk 0x01BC 0x01BC 1 1, CaseRange.mk 0x01C4 0x01C4 1 2,
   CaseRange.mk 0x01C5 0x01C5 1 1, CaseRange.mk 0x01C7 0x01C7 1 2,
   CaseRange.mk 0x01C8 0x01C8 1 1, CaseRange.mk 0x01CA 0x01CA 1 2,
   CaseRange.mk 0x01CB 0x01DB 2 1, CaseRange.mk 0x01DE 0x01EE 2 1,
   CaseRange.mk 0x01F1 0x01F1 1 2, CaseRange.mk 0x01F2 0x01F4 2 1,
   CaseRange.mk 0x01F6 0x01F6 1 (-97), CaseRange.mk 0x01F7 0x01F7 1 (-56),
   CaseRange.mk 0x01F8 0x021E 2 1, CaseRange.mk 0x0220 0x0220 1 (-130),
   CaseRange.mk 0x0222 0x0232 2 1, CaseRange.mk 0x023A 0x023A 1 10795,
   CaseRange.mk 0x023B 0x023B 1 1, CaseRange.mk 0x023D 0x023D 1 (-163),
   CaseRange.mk 0x023E 0x023E 1 10792, CaseRange.mk 0x0241 0x0241 1 1,
   CaseRange.mk 0x0243 0x0243 1 (-195), CaseRange.mk 0x0244 0x0244 1 69,
   CaseRange.mk 0x0245 0x0245 1 71, CaseRange.mk 0x0246 0x024E 2 1,
   CaseRange.mk 0x0370 0x0372 2 1, CaseRange.mk 0x0376 0x0376 1 1,
   CaseRange.mk 0x037F 0x037F 1 116, CaseRange.mk 0x0386 0x0386 1 38,
   CaseRange.mk 0x0388 0x038A 1 37, CaseRange.mk 0x038C 0x038C 1 64,
   CaseRange.mk 0x038E 0x038F 1 63, CaseRange.mk 0x0391 0x03A1 1 32,
   CaseRange.mk 0x03A3 0x03AB 1 32, CaseRange.mk 0x03CF 0x03CF 1 8,
   CaseRange.mk 0x03D8 0x03EE 2 1, CaseRange.mk 0x03F4 0x03F4 1 (-60),
   CaseRange.mk 0x03F7 0x03F7 1 1, CaseRange.mk 0x03F9 0x03F9 1 (-7),
   CaseRange.mk 0x03FA 0x03FA 1 1, CaseRange.mk 0x03FD 0x03FF 1 (-130),
   CaseRange.mk 0x0400 0x040F 1 80, CaseRange.mk 0x0410 0x042F 1 32,
   CaseRange.mk 0x0460 0x0480 2 1, CaseRange.mk 0x048A 0x04BE 2 1,
   CaseRange.mk 0x04C0 0x04C0 1 15, CaseRange.mk 0x04C1 0x04CD 2 1,
   CaseRange.mk 0x04D0 0x052E 2 1, CaseRange.mk 0x0531 0x0556 1 48,
   CaseRange.mk 0x10A0 0x10C5 1 7264, CaseRange.mk 0x10C7 0x10C7 1 7264,
   CaseRange.mk 0x10CD 0x10CD 1 7264, CaseRange.mk 0x13A0 0x13EF 1 38864,
   CaseRange.mk 0x13F0 0x13F5 1 8, CaseRange.mk 0x1C90 0x1CBA 1 (-3008),
   CaseRange.mk 0x1CBD 0x1CBF 1 (-3008), CaseRange.mk 0x1E00 0x1E94 2 1,
   CaseRange.mk 0x1E9E 0x1E9E 1 (-7615), CaseRange.mk 0x1EA0 0x1EFE 2 1,
   CaseRange.mk 0x1F08 0x1F0F 1 (-8), CaseRange.mk 0x1F18 0x1F1D 1 (-8),
   CaseRange.mk 0x1F28 0x1F2F 1 (-8), CaseRange.mk 0x1F38 0x1F3F 1 (-8),
   CaseRange.mk 0x1F48 0x1F4D 1 (-8), CaseRange.mk 0x1F59 0x1F5F 2 (-8),
   CaseRange.mk 0x1F68 0x1F6F 1 (-8), CaseRange.mk 0x1F88 0x1F8F 1 (-8),
   CaseRange.mk 0x1F98 0x1F9F 1 (-8), CaseRange.mk 0x1FA8 0x1FAF 1 (-8),
   CaseRange.mk 0x1FB8 0x1FB9 1 (-8), CaseRange.mk 0x1FBA 0x1FBB 1 (-74),
   CaseRange.mk 0x1FBC 0x1FBC 1 (-9), CaseRange.mk 0x1FC8 0x1FCB 1 (-86),
   CaseRange.mk 0x1FCC 0x1FCC 1 (-9), CaseRange.mk 0x1FD8 0x1FD9 1 (-8),
   CaseRange.mk 0x1FDA 0x1FDB 1 (-100), CaseRange.mk 0x1FE8 0x1FE9 1 (-8),
   CaseRange.mk 0x1FEA 0x1FEB 1 (-112), CaseRange.mk 0x1FEC 0x1FEC 1 (-7),
   CaseRange.mk 0x1FF8 0x1FF9 1 (-128), CaseRange.mk 0x1FFA 0x1FFB 1 (-126),
   CaseRange.mk 0x1FFC 0x1FFC 1 (-9), CaseRange.mk 0x2126 0x2126 1 (-7517),
   CaseRange.mk 0x212A 0x212A 1 (-8383), CaseRange.mk 0x212B 0x212B 1 (-8262),
   CaseRange.mk 0x2132 0x2132 1 28, CaseRange.mk 0x2160 0x216F 1 16,
   CaseRange.mk 0x2183 0x2183 1 1, CaseRange.mk 0x24B6 0x24CF 1 26,
   CaseRange.mk 0x2C00 0x2C2F 1 48, CaseRange.mk 0x2C60 0x2C60 1 1,
   CaseRange.mk 0x2C62 0x2C62 1 (-10743), CaseRange.mk 0x2C63 0x2C63 1 (-3814),
   CaseRange.mk 0x2C64 0x2C64 1 (-10727), CaseRange.mk 0x2C67 0x2C6B 2 1,
   CaseRange.mk 0x2C6D 0x2C6D 1 (-10780), CaseRange.mk 0x2C6E 0x2C6E 1 (-10749),
   CaseRange.mk 0x2C6F 0x2C6F 1 (-10783), CaseRange.mk 0x2C70 0x2C70 1 (-10782),
   CaseRange.mk 0x2C72 0x2C72 1 1, CaseRange.mk 0x2C75 0x2C75 1 1,
   CaseRange.mk 0x2C7E 0x2C7F 1 (-10815), CaseRange.mk 0x2C80 0x2CE2 2 1,
   CaseRange.mk 0x2CEB 0x2CED 2 1, CaseRange.mk 0x2CF2 0x2CF2 1 1,
   CaseRange.mk 0xA640 0xA66C 2 1, CaseRange.mk 0xA680 0xA69A 2 1,
   CaseRange.mk 0xA722 0xA72E 2 1, CaseRange.mk 0xA732 0xA76E 2 1,
   CaseRange.mk 0xA779 0xA77B 2 1, CaseRange.mk 0xA77D 0xA77D 1 (-35332),
   CaseRange.mk 0xA77E 0xA786 2 1, CaseRange.mk 0xA78B 0xA78B 1 1,
   CaseRange.mk 0xA78D 0xA78D 1 (-42280), CaseRange.mk 0xA790 0xA792 2 1,
   CaseRange.mk 0xA796 0xA7A8 2 1, CaseRange.mk 0xA7AA 0xA7AA 1 (-42308),
   CaseRange.mk 0xA7AB 0xA7AB 1 (-42319), CaseRange.mk 0xA7AC 0xA7AC 1 (-42315),
   CaseRange.mk 0xA7AD 0xA7AD 1 (-42305), CaseRange.mk 0xA7AE 0xA7AE 1 (-42308),
   CaseRange.mk 0xA7B0 0xA7B0 1 (-42258), CaseRange.mk 0xA7B1 0xA7B1 1 (-42282),
   CaseRange.mk 0xA7B2 0xA7B2 1 (-42261), CaseRange.mk 0xA7B3 0xA7B3 1 928,
   CaseRange.mk 0xA7B4 0xA7C2 2 1, CaseRange.mk 0xA7C4 0xA7C4 1 (-48),
   CaseRange.mk 0xA7C5 0xA7C5 1 (-42307), CaseRange.mk 0xA7C6 0xA7C6 1 (-35384),
   CaseRange.mk 0xA7C7 0xA7C9 2 1, CaseRange.mk 0xA7D0 0xA7D0 1 1,
   CaseRange.mk 0xA7D6 0xA7D8 2 1, CaseRange.mk 0xA7F5 0xA7F5 1 1,
   CaseRange.mk 0xFF21 0xFF3A 1 32, CaseRange.mk 0x10400 0x10427 1 40,
   CaseRange.mk 0x104B0 0x104D3 1 40, CaseRange.mk 0x10570 0x1057A 1 39,
   CaseRange.mk 0x1057C 0x1058A 1 39, CaseRange.mk 0x1058C 0x10592 1 39,
   CaseRange.mk 0x10594 0x10595 1 39, CaseRange.mk 0x10C80 0x10CB2 1 64,
   CaseRange.mk 0x118A0 0x118BF 1 32, CaseRange.mk 0x16E40 0x16E5F 1 32,
   CaseRange.mk 0x1E900 0x1E921 1 34]

/-- The function `unicode.ToLower`: below 128 the letters `A` to `Z` are
shifted to `a` to `z`; above, the code point is looked up in the table. -/
def unicodeToLower (c : Char) : Char :=
  let n := c.toNat
  if n < 128 then (if 65 ≤ n ∧ n ≤ 90 then Char.ofNat (n + 32) else c)
  else
    match lowerRanges.find?
        (fun r => decide (r.lo ≤ n ∧ n ≤ r.hi ∧ (n - r.lo) % r.stride = 0)) with
    | some r => Char.ofNat (n + r.delta).toNat
    | none => c

/-- The function `strings.ToLower`: in a text of ASCII only the letters `A` to
`Z` are lowered byte by byte; any other text is mapped code point by code
point with `unicode.ToLower`. -/
def ToLower (s : String) : String :=
  if s.data.all (fun c => decide (c.toNat < 128)) then ⟨s.data.map Char.toLower⟩
  else ⟨s.data.map unicodeToLower⟩

/-- The call `strings.ReplaceAll(s, old, new)` for a one-character `old` and
`new`, the only form the commands use. -/
def ReplaceAll (s : String) (old new : Char) : String :=
  ⟨s.data.map (fun c => if c = old then new else c)⟩

/-- The function `strings.Join`. -/
def Join (elems : List String) (sep : String) : String :=
  sep.intercalate elems

/-- The function `strings.Contains`. -/
def Contains (s substr : String) : Bool :=
  decide (substr.data <:+: s.data)

/-- The function `strings.HasSuffix`. -/
def HasSuffix (s suffix : String) : Bool :=
  decide (suffix.data <:+ s.data)

/-- The function `strings.TrimRight(s, "\n")`. -/
def TrimRightNewline (s : String) : String :=
  ⟨(s.data.reverse.dropWhile (fun c => c = '\n')).reverse⟩

/-- The function `strings.Fields` on characters: the maximal runs of
characters that are not white space; `cur` holds the current run, reversed. -/
def fieldsChars : List Char → List Char → List (List Char)
  | [], cur => if cur = [] then [] else [cur.reverse]
  | c :: cs, cur =>
    if isSpace c then
      (if cur = [] then fieldsChars cs [] else cur.reverse :: fieldsChars cs [])
    else fieldsChars cs (c :: cur)

/-- The function `strings.Fields`. -/
def Fields (s : String) : List String :=
  (fieldsChars s.data []).map String.mk

/-- The order `<=` of Go strings (bytewise, which on valid UTF-8 is the
lexicographic order of the code points). -/
def strLe (a b : String) : Prop :=
  a.data ≤ b.data

instance : DecidableRel strLe :=
  fun a b => inferInstanceAs (Decidable (a.data ≤ b.data))

/-- The function `sort.Strings`, as the sorted list it leaves. -/
def sortStrings (l : List String) : List String :=
  l.insertionSort strLe

/-! ## The packages `config`, `search` and `output` -/

/-- The settings object `config.Config`, with the two fields the commands read. -/
structure Config where
  GroveRoot : String
  JSONMode : Bool
  deriving DecidableEq, Repr

/-- The options of a search call. -/
inductive SearchOption where
  | WithGlob (glob : String)
  | WithType (t : String)
  | WithExtraArgs (args : List String)
  deriving DecidableEq, Repr

/-- One call of `search.RunRg`: the pattern and the options. -/
structure RgCall where
  pattern : String
  opts : List SearchOption
  deriving DecidableEq, Repr

/-- The functions of the package `search`, of `os` and of `path/filepath`
that the commands call.  They are not part of the embedded files and are
taken as arbitrary functions. -/
structure World where
  /-- The function `search.RunRg(pattern, opts...)`: the output and the error. -/
  RunRg : String → List SearchOption → String × Option GoError
  /-- The function `search.FindFiles(pattern, opts...)`. -/
  FindFiles : String → List SearchOption → List String × Option GoError
  /-- The function `search.FindFilesByGlob(globs)`. -/
  FindFilesByGlob : List String → List String × Option GoError
  /-- The function `search.SplitLines`. -/
  SplitLines : String → List String
  /-- The function `os.ReadFile`: the content, or `none` on error. -/
  ReadFile : String → Option String
  /-- The function `filepath.Join` of two elements. -/
  pathJoin : String → String → String
  /-- The function `filepath.Rel`: the relative path, or `none` on error. -/
  pathRel : String → String → Option String

/-- Modelled from the spec: `output.TruncateResults` of the package `output`,
which is not among the embedded files.  The spec (4.5) gives: `shown` is the
first `limit` lines in original order and the overflow count is
`max(0, len(lines) - limit)`. -/
def TruncateResults (lines : List String) (limit : Nat) : List String × Nat :=
  (lines.take limit, lines.length - limit)

/-- An argument of a `Printf` call. -/
inductive FmtArg where
  | int (n : Int)
  | str (s : String)
  deriving DecidableEq, Repr

/-- A value stored in a JSON map that is not itself a map. -/
inductive JSONLeaf where
  | str (s : String)
  | int (n : Int)
  | strings (l : List String)
  deriving DecidableEq, Repr

/-- A value of a `map[string]any` handed to `output.PrintJSON`. -/
inductive JSONValue where
  | leaf (v : JSONLeaf)
  | map (fields : List (String × JSONLeaf))
  deriving DecidableEq, Repr

/-- A Go `map[string]any`: the entries, one per key. -/
abbrev JSONMap := List (String × JSONValue)

/-- The assignment `data[key] = v` on a map: the entry of an existing key is
overwritten, a new key gets a new entry. -/
def JSONMap.set (data : JSONMap) (key : String) (v : JSONValue) : JSONMap :=
  if data.any (fun e => e.1 == key) then
    data.map (fun e => if e.1 = key then (key, v) else e)
  else data ++ [(key, v)]

/-- A call to the package `output`. -/
inductive OutCall where
  | PrintJSON (data : JSONMap)
  | PrintMajorHeader (title : String)
  | PrintSection (title : String)
  | PrintRaw (text : String)
  | Printf (format : String) (args : List FmtArg)
  | PrintNoResults (what : String)
  deriving DecidableEq, Repr

/-- What one invocation of a command did: the calls to the package `output`
in order, the returned error, and the calls of `search.RunRg` that the
command made itself, in order (the searches made inside the goroutines of a
fan-out run concurrently, in no fixed order, and are not listed). -/
structure Outcome where
  out : List OutCall
  err : Option GoError
  searches : List RgCall := []
  deriving DecidableEq, Repr

/-! ## The fan-out: goroutines writing to a pre-sized slice, joined by a WaitGroup -/

/-- The local struct `sectionResult`, declared in every fan-out command; its
zero value has an empty title, no lines and a nil error. -/
structure sectionResult where
  title : String := ""
  lines : List String := []
  err : Option GoError := none
  deriving DecidableEq, Repr

/-- An assignment `results[slot] = val`. -/
structure Write where
  slot : Nat
  val : sectionResult
  deriving DecidableEq, Repr

/-- A fan-out as written in a command: `results := make([]sectionResult, size)`,
`wg.Add(add)`, and the launched goroutines in the order of the `go`
statements.  A goroutine is given by the assignments to `results` that its
body performs on the path it takes; it ends with the deferred `wg.Done()`. -/
structure FanOut where
  size : Nat
  add : Nat
  goroutines : List (List Write)

/-- The shared state of a running fan-out. -/
structure FanState where
  /-- The slice `results`. -/
  results : List sectionResult
  /-- The counter of the WaitGroup. -/
  counter : Int
  /-- The slots assigned so far, in the order of the assignments. -/
  written : List Nat
  /-- Whether an assignment had an index out of range (a run-time panic in Go). -/
  panicked : Bool
  deriving DecidableEq, Repr

/-- The state after `make` and `wg.Add`. -/
def FanOut.init (f : FanOut) : FanState :=
  { results := List.replicate f.size {}, counter := f.add, written := [], panicked := false }

/-- One assignment `results[w.slot] = w.val`. -/
def FanState.assign (s : FanState) (w : Write) : FanState :=
  if w.slot < s.results.length then
    { s with results := s.results.set w.slot w.val, written := s.written ++ [w.slot] }
  else { s with panicked := true }

/-- One goroutine runs: its assignments, then `wg.Done()`. -/
def FanState.runBody (s : FanState) (body : List Write) : FanState :=
  let s1 := body.foldl FanState.assign s
  { s1 with counter := s1.counter - 1 }

/-- The goroutines run in the order `sched` (a list of positions in
`f.goroutines`): this is the order in which they complete. -/
def FanOut.exec (f : FanOut) (sched : List Nat) : FanState :=
  sched.foldl
    (fun s i =>
      match f.goroutines[i]? with
      | some body => s.runBody body
      | none => s)
    f.init

/-- The call `wg.Wait()` followed by reading `results`: it returns once the
counter is zero; with a counter that is not zero after all goroutines have
finished, or after a panic, the command does not get past it (`none`). -/
def FanOut.Wait (f : FanOut) (sched : List Nat) : Option (List sectionResult) :=
  let s := f.exec sched
  if s.counter = 0 ∧ s.panicked = false then some s.results else none

/-- A schedule of a fan-out with `n` goroutines: every launched goroutine
completes exactly once, in any order. -/
def validSchedule (n : Nat) (sched : List Nat) : Prop :=
  sched.Perm (List.range n)

instance (n : Nat) (sched : List Nat) : Decidable (validSchedule n sched) :=
  inferInstanceAs (Decidable (sched.Perm (List.range n)))

/-- The probe body `out, err := search.RunRg(pattern, opts...)` followed by
`sectionResult{title: title, lines: search.SplitLines(out), err: err}`. -/
def rgProbe (W : World) (title pattern : String) (opts : List SearchOption) : sectionResult :=
  let r := W.RunRg pattern opts
  { title := title, lines := W.SplitLines r.1, err := r.2 }

/-- The probe body `files, err := ...` followed by
`sectionResult{title: title, lines: files, err: err}`. -/
def filesProbe (title : String) (r : List String × Option GoError) : sectionResult :=
  { title := title, lines := r.1, err := r.2 }

/-- The error scan that follows `wg.Wait()` in every fan-out command:
`for _, r := range results { if r.err != nil { return fmt.Errorf("search failed in %s: %w", r.title, r.err) } }`.
The value is the error returned by the scan, `none` when the loop ends. -/
def errorScan : List sectionResult → Option GoError
  | [] => none
  | r :: rest =>
    match r.err with
    | some e => some (.wrap ("search failed in " ++ r.title ++ ": " ++ e.Error) e)
    | none => errorScan rest

/-! ## cf.go -/

/-- The key of a section in structured mode:
`strings.ToLower(strings.ReplaceAll(r.title, " ", "_"))`. -/
def sectionKey (title : String) : String :=
  ToLower (ReplaceAll title ' ' '_')

/-- The structured-mode block of cfOverview, cfD1Full, cfKVFull, cfR2Full and
cfDOFull: `data := map[string]any{"command": command}` followed by the loop
`data[key] = map[string]any{"count": len(r.lines), "results": r.lines}`. -/
def cfSectionsJSON (command : String) (results : List sectionResult) : JSONMap :=
  results.foldl
    (fun data r =>
      data.set (sectionKey r.title)
        (.map [("count", .int r.lines.length), ("results", .strings r.lines)]))
    [("command", .leaf (.str command))]

/-- The body of the text-mode loop of cfOverview, cfD1Full, cfKVFull, cfR2Full
and cfDOFull, for one element `r` of `results`. -/
def cfSectionText (r : sectionResult) : List OutCall :=
  [.PrintSection r.title] ++
    (if r.lines.length > 0 then
      let t := TruncateResults r.lines 25
      [.PrintRaw (Join t.1 "\n" ++ "\n")] ++
        (if t.2 > 0 then [.Printf "  ... and %d more" [.int t.2]] else [])
    else [.PrintNoResults (ToLower r.title)])

/-- The fan-out of cfOverview. -/
def cfOverviewFanOut (W : World) : FanOut where
  size := 4
  add := 4
  goroutines := [
    [⟨0, rgProbe W "D1 Databases" r"\bD1Database\b|d1_databases|binding\s*=.*D1"
      [.WithGlob "*.{toml,ts,js,svelte}"]⟩],
    [⟨1, rgProbe W "KV Namespaces" r"\bKVNamespace\b|kv_namespaces|binding\s*=.*KV"
      [.WithGlob "*.{toml,ts,js,svelte}"]⟩],
    [⟨2, rgProbe W "R2 Buckets" r"\bR2Bucket\b|r2_buckets|binding\s*=.*R2"
      [.WithGlob "*.{toml,ts,js,svelte}"]⟩],
    [⟨3, rgProbe W "Durable Objects" r"\bDurableObject\b|durable_objects|DurableObjectNamespace"
      [.WithGlob "*.{toml,ts,js,svelte}"]⟩]]

/-- The function `cfOverview`; `sched` is the order in which the goroutines
complete. -/
def cfOverview (W : World) (cfg : Config) (sched : List Nat) : Option Outcome :=
  match (cfOverviewFanOut W).Wait sched with
  | none => none
  | some results =>
    match errorScan results with
    | some e => some { out := [], err := some e }
    | none =>
      if cfg.JSONMode then
        some { out := [.PrintJSON (cfSectionsJSON "cf" results)], err := none }
      else
        some { out := [.PrintMajorHeader "Cloudflare Bindings Overview"] ++
                 (results.map cfSectionText).flatten,
               err := none }

/-- The text-mode block at the end of cfD1Filtered, cfKVFiltered and
cfR2Filtered: the lines, truncated to 30, or the placeholder. -/
def filteredText (lines : List String) (what : String) : List OutCall :=
  if lines.length > 0 then
    let t := TruncateResults lines 30
    [.PrintRaw (Join t.1 "\n" ++ "\n")] ++
      (if t.2 > 0 then [.Printf "  ... and %d more" [.int t.2]] else [])
  else [.PrintNoResults what]

/-- The composite pattern of cfD1Filtered: the format string with both `%s`
replaced by `pattern`. -/
def d1Pattern (pattern : String) : String :=
  "(" ++ pattern ++
    r").*(\bD1\b|d1_databases|\.prepare\b|\.exec\b|\.all\b|\.first\b|\.run\b|\.batch\b)|(\bD1\b|d1_databases|\.prepare\b|\.exec\b|\.all\b|\.first\b|\.run\b|\.batch\b).*("
    ++ pattern ++ ")"

/-- The end of cfD1Filtered, from `if cfg.JSONMode` on: the structured
document, or the text sections. -/
def cfD1FilteredRender (cfg : Config) (pattern : String) (lines schemaLines : List String) :
    List OutCall :=
  if cfg.JSONMode then
    [.PrintJSON [
      ("command", .leaf (.str "cf d1")),
      ("pattern", .leaf (.str pattern)),
      ("results", .leaf (.strings lines)),
      ("schema_refs", .leaf (.strings schemaLines)),
      ("count", .leaf (.int lines.length))]]
  else
    [.PrintSection ("D1 references matching: " ++ pattern)] ++
      filteredText lines "D1 references" ++
      (if schemaLines.length > 0 then
        let t := TruncateResults schemaLines 20
        [.PrintSection "Schema References", .PrintRaw (Join t.1 "\n" ++ "\n")] ++
          (if t.2 > 0 then [.Printf "  ... and %d more" [.int t.2]] else [])
      else [])

/-- The function `cfD1Filtered`. -/
def cfD1Filtered (W : World) (cfg : Config) (pattern : String) : Outcome :=
  let glob := [SearchOption.WithGlob "*.{toml,ts,js,svelte,sql}"]
  let first := W.RunRg (d1Pattern pattern) glob
  -- `result, err` after the block `if err != nil { result, err = search.RunRg(pattern, ...) ... }`
  let r : (String × Option GoError) × List RgCall :=
    match first.2 with
    | some _ => (W.RunRg pattern glob, [⟨d1Pattern pattern, glob⟩, ⟨pattern, glob⟩])
    | none => (first, [⟨d1Pattern pattern, glob⟩])
  match r.1.2 with
  | some err =>
    { out := [], err := some (.wrap ("D1 search failed: " ++ err.Error) err), searches := r.2 }
  | none =>
    let lines := W.SplitLines r.1.1
    let schemaResult := (W.RunRg pattern [.WithGlob "*.sql"]).1
    let schemaLines := W.SplitLines schemaResult
    { out := cfD1FilteredRender cfg pattern lines schemaLines, err := none,
      searches := r.2 ++ [⟨pattern, [.WithGlob "*.sql"]⟩] }

/-- The fan-out of cfD1Full. -/
def cfD1FullFanOut (W : World) : FanOut where
  size := 4
  add := 4
  goroutines := [
    [⟨0, rgProbe W "D1 Bindings" r"d1_databases|D1Database|\[\[d1" [.WithGlob "*.{toml,ts}"]⟩],
    [⟨1, rgProbe W "Query Operations"
      r"\.prepare\s*\(|\.exec\s*\(|\.all\s*\(|\.first\s*\(|\.run\s*\(|\.batch\s*\("
      [.WithGlob "*.{ts,js,svelte}"]⟩],
    [⟨2, filesProbe "SQL Files" (W.FindFilesByGlob ["*.sql"])⟩],
    [⟨3, rgProbe W "Wrangler D1 Config" r"database_name|database_id"
      [.WithGlob "wrangler*.toml"]⟩]]

/-- The function `cfD1Full`. -/
def cfD1Full (W : World) (cfg : Config) (sched : List Nat) : Option Outcome :=
  match (cfD1FullFanOut W).Wait sched with
  | none => none
  | some results =>
    match errorScan results with
    | some e => some { out := [], err := some e }
    | none =>
      if cfg.JSONMode then
        some { out := [.PrintJSON (cfSectionsJSON "cf d1" results)], err := none }
      else
        some { out := [.PrintMajorHeader "D1 Database Overview"] ++
                 (results.map cfSectionText).flatten,
               err := none }

/-- The composite pattern of cfKVFiltered. -/
def kvPattern (pattern : String) : String :=
  "(" ++ pattern ++
    r").*(\bKV\b|KVNamespace|kv_namespaces|\.get\s*\(|\.put\s*\(|\.delete\s*\(|\.list\s*\()|(\bKV\b|KVNamespace|kv_namespaces|\.get\s*\(|\.put\s*\(|\.delete\s*\(|\.list\s*\().*("
    ++ pattern ++ ")"

/-- The end of cfKVFiltered, from `if cfg.JSONMode` on. -/
def cfKVFilteredRender (cfg : Config) (pattern : String) (lines : List String) :
    List OutCall :=
  if cfg.JSONMode then
    [.PrintJSON [
      ("command", .leaf (.str "cf kv")),
      ("pattern", .leaf (.str pattern)),
      ("results", .leaf (.strings lines)),
      ("count", .leaf (.int lines.length))]]
  else
    [.PrintSection ("KV references matching: " ++ pattern)] ++
      filteredText lines "KV references"

/-- The function `cfKVFiltered`. -/
def cfKVFiltered (W : World) (cfg : Config) (pattern : String) : Outcome :=
  let glob := [SearchOption.WithGlob "*.{toml,ts,js,svelte}"]
  let first := W.RunRg (kvPattern pattern) glob
  let r : (String × Option GoError) × List RgCall :=
    match first.2 with
    | some _ => (W.RunRg pattern glob, [⟨kvPattern pattern, glob⟩, ⟨pattern, glob⟩])
    | none => (first, [⟨kvPattern pattern, glob⟩])
  match r.1.2 with
  | some err =>
    { out := [], err := some (.wrap ("KV search failed: " ++ err.Error) err), searches := r.2 }
  | none =>
    let lines := W.SplitLines r.1.1
    { out := cfKVFilteredRender cfg pattern lines, err := none, searches := r.2 }

/-- The fan-out of cfKVFull. -/
def cfKVFullFanOut (W : World) : FanOut where
  size := 3
  add := 3
  goroutines := [
    [⟨0, rgProbe W "KV Bindings" r"kv_namespaces|KVNamespace|\[\[kv" [.WithGlob "*.{toml,ts}"]⟩],
    [⟨1, rgProbe W "KV Operations"
      r"\.get\s*\(|\.put\s*\(|\.delete\s*\(|\.list\s*\(|\.getWithMetadata\s*\("
      [.WithGlob "*.{ts,js,svelte}"]⟩],
    [⟨2, rgProbe W "Wrangler KV Config" r"kv_namespaces|preview_id|namespace_id"
      [.WithGlob "wrangler*.toml"]⟩]]

/-- The function `cfKVFull`. -/
def cfKVFull (W : World) (cfg : Config) (sched : List Nat) : Option Outcome :=
  match (cfKVFullFanOut W).Wait sched with
  | none => none
  | some results =>
    match errorScan results with
    | some e => some { out := [], err := some e }
    | none =>
      if cfg.JSONMode then
        some { out := [.PrintJSON (cfSectionsJSON "cf kv" results)], err := none }
      else
        some { out := [.PrintMajorHeader "KV Namespace Overview"] ++
                 (results.map cfSectionText).flatten,
               err := none }

/-- The composite pattern of cfR2Filtered. -/
def r2Pattern (pattern : String) : String :=
  "(" ++ pattern ++
    r").*(\bR2\b|R2Bucket|r2_buckets|\.put\s*\(|\.get\s*\(|\.delete\s*\(|\.list\s*\()|(\bR2\b|R2Bucket|r2_buckets|\.put\s*\(|\.get\s*\(|\.delete\s*\(|\.list\s*\().*("
    ++ pattern ++ ")"

/-- The end of cfR2Filtered, from `if cfg.JSONMode` on. -/
def cfR2FilteredRender (cfg : Config) (pattern : String) (lines : List String) :
    List OutCall :=
  if cfg.JSONMode then
    [.PrintJSON [
      ("command", .leaf (.str "cf r2")),
      ("pattern", .leaf (.str pattern)),
      ("results", .leaf (.strings lines)),
      ("count", .leaf (.int lines.length))]]
  else
    [.PrintSection ("R2 references matching: " ++ pattern)] ++
      filteredText lines "R2 references"

/-- The function `cfR2Filtered`. -/
def cfR2Filtered (W : World) (cfg : Config) (pattern : String) : Outcome :=
  let glob := [SearchOption.WithGlob "*.{toml,ts,js,svelte}"]
  let first := W.RunRg (r2Pattern pattern) glob
  let r : (String × Option GoError) × List RgCall :=
    match first.2 with
    | some _ => (W.RunRg pattern glob, [⟨r2Pattern pattern, glob⟩, ⟨pattern, glob⟩])
    | none => (first, [⟨r2Pattern pattern, glob⟩])
  match r.1.2 with
  | some err =>
    { out := [], err := some (.wrap ("R2 search failed: " ++ err.Error) err), searches := r.2 }
  | none =>
    let lines := W.SplitLines r.1.1
    { out := cfR2FilteredRender cfg pattern lines, err := none, searches := r.2 }

/-- The fan-out of cfR2Full. -/
def cfR2FullFanOut (W : World) : FanOut where
  size := 3
  add := 3
  goroutines := [
    [⟨0, rgProbe W "R2 Bindings" r"r2_buckets|R2Bucket|\[\[r2" [.WithGlob "*.{toml,ts}"]⟩],
    [⟨1, rgProbe W "R2 Operations"
      r"\.put\s*\(|\.get\s*\(|\.delete\s*\(|\.list\s*\(|\.head\s*\(|\.createMultipartUpload\s*\("
      [.WithGlob "*.{ts,js,svelte}"]⟩],
    [⟨2, rgProbe W "Wrangler R2 Config" r"r2_buckets|bucket_name"
      [.WithGlob "wrangler*.toml"]⟩]]

/-- The function `cfR2Full`. -/
def cfR2Full (W : World) (cfg : Config) (sched : List Nat) : Option Outcome :=
  match (cfR2FullFanOut W).Wait sched with
  | none => none
  | some results =>
    match errorScan results with
    | some e => some { out := [], err := some e }
    | none =>
      if cfg.JSONMode then
        some { out := [.PrintJSON (cfSectionsJSON "cf r2" results)], err := none }
      else
        some { out := [.PrintMajorHeader "R2 Storage Overview"] ++
                 (results.map cfSectionText).flatten,
               err := none }

/-- The composite pattern of cfDOFiltered. -/
def doPattern (name : String) : String :=
  "(" ++ name ++
    r").*(\bDurableObject\b|DurableObjectNamespace|DurableObjectStub|durable_objects)|(\bDurableObject\b|DurableObjectNamespace|DurableObjectStub|durable_objects).*("
    ++ name ++ ")"

/-- The class-definition pattern of cfDOFiltered. -/
def classPattern (name : String) : String :=
  r"class\s+" ++ name ++ r".*DurableObject|export\s+class\s+" ++ name

/-- The end of cfDOFiltered, from `if cfg.JSONMode` on. -/
def cfDOFilteredRender (cfg : Config) (name : String) (lines classLines : List String) :
    List OutCall :=
  if cfg.JSONMode then
    [.PrintJSON [
      ("command", .leaf (.str "cf do")),
      ("name", .leaf (.str name)),
      ("results", .leaf (.strings lines)),
      ("class_defs", .leaf (.strings classLines)),
      ("count", .leaf (.int lines.length))]]
  else
    [.PrintSection ("Durable Object references matching: " ++ name)] ++
      (if classLines.length > 0 then
        [.PrintSection "Class Definitions", .PrintRaw (Join classLines "\n" ++ "\n")]
      else []) ++
      (if lines.length > 0 then
        let t := TruncateResults lines 30
        [.PrintSection "All References", .PrintRaw (Join t.1 "\n" ++ "\n")] ++
          (if t.2 > 0 then [.Printf "  ... and %d more" [.int t.2]] else [])
      else [.PrintNoResults "DO references"])

/-- The function `cfDOFiltered`. -/
def cfDOFiltered (W : World) (cfg : Config) (name : String) : Outcome :=
  let glob := [SearchOption.WithGlob "*.{toml,ts,js,svelte}"]
  let first := W.RunRg (doPattern name) glob
  let r : (String × Option GoError) × List RgCall :=
    match first.2 with
    | some _ => (W.RunRg name glob, [⟨doPattern name, glob⟩, ⟨name, glob⟩])
    | none => (first, [⟨doPattern name, glob⟩])
  match r.1.2 with
  | some err =>
    { out := [], err := some (.wrap ("DO search failed: " ++ err.Error) err), searches := r.2 }
  | none =>
    let lines := W.SplitLines r.1.1
    let classResult := (W.RunRg (classPattern name) [.WithGlob "*.{ts,js}"]).1
    let classLines := W.SplitLines classResult
    { out := cfDOFilteredRender cfg name lines classLines, err := none,
      searches := r.2 ++ [⟨classPattern name, [.WithGlob "*.{ts,js}"]⟩] }

/-- The fan-out of cfDOFull. -/
def cfDOFullFanOut (W : World) : FanOut where
  size := 4
  add := 4
  goroutines := [
    [⟨0, rgProbe W "DO Class Definitions"
      r"class\s+\w+.*(?:extends\s+DurableObject|implements\s+DurableObject)"
      [.WithGlob "*.{ts,js}"]⟩],
    [⟨1, filesProbe "DO Files" (W.FindFiles "durable" [.WithGlob "*.{ts,js}"])⟩],
    [⟨2, rgProbe W "Stub Usage"
      r"\.idFromName\s*\(|\.idFromString\s*\(|DurableObjectNamespace|\.get\s*\(\s*id\b"
      [.WithGlob "*.{ts,js,svelte}"]⟩],
    [⟨3, rgProbe W "Wrangler DO Config" r"durable_objects|class_name|script_name"
      [.WithGlob "wrangler*.toml"]⟩]]

/-- The inner loop of the summary of cfDOFull over `parts`:
`for i, p := range parts { if p == "class" && i+1 < len(parts) { ...parts[i+1]...; break } }`.
The value is the name recorded, if any. -/
def classNameOf : List String → Option String
  | [] => none
  | [_] => none
  | p :: q :: rest => if p = "class" then some q else classNameOf (q :: rest)

/-- The outer loop of the summary of cfDOFull: the keys of the map
`classNames` after the loop, each once, in order of first insertion. -/
def classNames (classDefs : List String) : List String :=
  classDefs.foldl
    (fun names line =>
      match classNameOf (Fields line) with
      | some n => if n ∈ names then names else names ++ [n]
      | none => names)
    []

/-- The summary block at the end of cfDOFull. -/
def doSummary (classDefs : List String) : List OutCall :=
  if classDefs.length > 0 then
    let names := classNames classDefs
    if names.length > 0 then
      let sorted := sortStrings names
      [.PrintSection "Summary", .Printf "  DO classes: %s" [.str (Join sorted ", ")]]
    else []
  else []

/-- The function `cfDOFull`. -/
def cfDOFull (W : World) (cfg : Config) (sched : List Nat) : Option Outcome :=
  match (cfDOFullFanOut W).Wait sched with
  | none => none
  | some results =>
    match errorScan results with
    | some e => some { out := [], err := some e }
    | none =>
      if cfg.JSONMode then
        some { out := [.PrintJSON (cfSectionsJSON "cf do" results)], err := none }
      else
        some { out := [.PrintMajorHeader "Durable Objects Overview"] ++
                 (results.map cfSectionText).flatten ++
                 doSummary (results.getD 0 {}).lines,
               err := none }

/-! ## domain.go: routes -/

/-- The fan-out of routesGuards. -/
def routesGuardsFanOut (W : World) : FanOut where
  size := 2
  add := 2
  goroutines := [
    [⟨0, rgProbe W "Server Load Functions with Auth"
      r"(redirect|session|auth|locals\.user|locals\.session)"
      [.WithGlob "**/+page.server.ts", .WithGlob "**/+layout.server.ts"]⟩],
    [⟨1, rgProbe W "Auth Hooks (hooks.server.ts)" r"(handle|auth|session|redirect)"
      [.WithGlob "**/hooks.server.ts"]⟩]]

/-- The loop of routesGuards over `serverFiles` that collects the slice `protected`. -/
def protectedRoutes (W : World) (cfg : Config) (serverFiles : List String) : List String :=
  serverFiles.foldl
    (fun protectedList fp =>
      if Contains fp "node_modules" then protectedList
      else
        let fullPath := W.pathJoin cfg.GroveRoot fp
        match W.ReadFile fullPath with
        | none => protectedList
        | some content =>
          if Contains content "redirect" || Contains content "session" ||
              Contains content "locals.user" then
            let rel :=
              match W.pathRel cfg.GroveRoot fullPath with
              | some rel => rel
              | none => fp
            protectedList ++ [rel]
          else protectedList)
    []

/-- The function `routesGuards`. -/
def routesGuards (W : World) (cfg : Config) (sched : List Nat) : Option Outcome :=
  let head := [OutCall.PrintSection "Route Guards (Auth/Redirect)"]
  match (routesGuardsFanOut W).Wait sched with
  | none => none
  | some results =>
    match errorScan results with
    | some e => some { out := head, err := some e }
    | none =>
      let found := W.FindFilesByGlob ["**/+page.server.ts"]
      match found.2 with
      | some err =>
        some { out := head,
               err := some (.wrap ("finding server files failed: " ++ err.Error) err) }
      | none =>
        let protectedList := protectedRoutes W cfg found.1
        let r0 := (results.getD 0 {}).lines
        let r1 := (results.getD 1 {}).lines
        if cfg.JSONMode then
          some { out := head ++ [.PrintJSON [
                   ("command", .leaf (.str "routes")),
                   ("mode", .leaf (.str "guards")),
                   ("server_auth", .leaf (.strings r0)),
                   ("auth_hooks", .leaf (.strings r1)),
                   ("protected_routes", .leaf (.strings protectedList))]],
                 err := none }
        else
          some { out := head ++
                   [.PrintSection "Server Load Functions with Auth"] ++
                   (if r0.length > 0 then
                     [.PrintRaw (Join (TruncateResults r0 30).1 "\n" ++ "\n")]
                   else [.PrintNoResults "auth guards"]) ++
                   [.PrintSection "Auth Hooks (hooks.server.ts)"] ++
                   (if r1.length > 0 then
                     [.PrintRaw (Join (TruncateResults r1 20).1 "\n" ++ "\n")]
                   else [.PrintNoResults "auth hooks"]) ++
                   [.PrintSection "Protected Routes Summary"] ++
                   (if protectedList.length > 0 then
                     let t := TruncateResults protectedList 15
                     [.Printf "  %d protected routes:" [.int protectedList.length]] ++
                       t.1.map (fun route => .Printf "    %s" [.str route]) ++
                       (if t.2 > 0 then [.Printf "    ... and %d more" [.int t.2]] else [])
                   else [.PrintNoResults "protected routes"]),
                 err := none }

/-- The body of a goroutine of routesFiltered: on an error of
`search.FindFilesByGlob` it assigns the title with the error and returns;
otherwise it assigns the files whose lower-cased name contains the
lower-cased pattern. -/
def routesFilteredBody (W : World) (pattern : String) (slot : Nat) (title glob : String) :
    List Write :=
  let r := W.FindFilesByGlob [glob]
  match r.2 with
  | some err => [⟨slot, { title := title, err := some err }⟩]
  | none =>
    let lowerPattern := ToLower pattern
    [⟨slot, { title := title,
              lines := r.1.filter (fun f => Contains (ToLower f) lowerPattern) }⟩]

/-- The fan-out of routesFiltered. -/
def routesFilteredFanOut (W : World) (pattern : String) : FanOut where
  size := 2
  add := 2
  goroutines := [
    routesFilteredBody W pattern 0 "Page Routes" "**/+page.svelte",
    routesFilteredBody W pattern 1 "API Routes" "**/+server.ts"]

/-- The function `routesFiltered`. -/
def routesFiltered (W : World) (cfg : Config) (pattern : String) (sched : List Nat) :
    Option Outcome :=
  let head := [OutCall.PrintSection ("SvelteKit routes matching: " ++ pattern)]
  match (routesFilteredFanOut W pattern).Wait sched with
  | none => none
  | some results =>
    match errorScan results with
    | some e => some { out := head, err := some e }
    | none =>
      if cfg.JSONMode then
        some { out := head ++ [.PrintJSON [
                 ("command", .leaf (.str "routes")),
                 ("pattern", .leaf (.str pattern)),
                 ("page_routes", .leaf (.strings (results.getD 0 {}).lines)),
                 ("api_routes", .leaf (.strings (results.getD 1 {}).lines))]],
               err := none }
      else
        some { out := head ++
                 (results.map (fun r =>
                   [OutCall.PrintSection r.title] ++
                     (if r.lines.length > 0 then
                       [.PrintRaw (Join (TruncateResults r.lines 30).1 "\n" ++ "\n")]
                     else [.PrintNoResults ("matching " ++ ToLower r.title)]))).flatten,
               err := none }

/-- The fan-out of routesOverview. -/
def routesOverviewFanOut (W : World) : FanOut where
  size := 4
  add := 4
  goroutines := [
    [⟨0, filesProbe "Page Routes" (W.FindFilesByGlob ["**/+page.svelte"])⟩],
    [⟨1, filesProbe "API Routes" (W.FindFilesByGlob ["**/+server.ts"])⟩],
    [⟨2, filesProbe "Layouts" (W.FindFilesByGlob ["**/+layout.svelte"])⟩],
    [⟨3, filesProbe "Error Pages" (W.FindFilesByGlob ["**/+error.svelte"])⟩]]

/-- The body of the text-mode loop of routesOverview. -/
def routesOverviewSection (r : sectionResult) : List OutCall :=
  let maxLines := if r.title = "Layouts" ∨ r.title = "Error Pages" then 20 else 30
  [.PrintSection r.title] ++
    (if r.lines.length > 0 then
      [.PrintRaw (Join (TruncateResults r.lines maxLines).1 "\n" ++ "\n")] ++
        (if r.title = "Page Routes" ∨ r.title = "API Routes" then
          [.Printf "  (%d total)" [.int r.lines.length]]
        else [])
    else [.PrintNoResults (ToLower r.title)])

/-- The function `routesOverview`. -/
def routesOverview (W : World) (cfg : Config) (sched : List Nat) : Option Outcome :=
  let head := [OutCall.PrintSection "SvelteKit Routes"]
  match (routesOverviewFanOut W).Wait sched with
  | none => none
  | some results =>
    match errorScan results with
    | some e => some { out := head, err := some e }
    | none =>
      if cfg.JSONMode then
        some { out := head ++ [.PrintJSON [
                 ("command", .leaf (.str "routes")),
                 ("page_routes", .leaf (.strings (results.getD 0 {}).lines)),
                 ("api_routes", .leaf (.strings (results.getD 1 {}).lines)),
                 ("layouts", .leaf (.strings (results.getD 2 {}).lines)),
                 ("error_pages", .leaf (.strings (results.getD 3 {}).lines))]],
               err := none }
      else
        some { out := head ++ (results.map routesOverviewSection).flatten, err := none }

/-! ## domain.go: store -/

/-- The fan-out of `store [name]` with a name. -/
def storeNamedFanOut (W : World) (name : String) : FanOut where
  size := 2
  add := 2
  goroutines := [
    [⟨0, rgProbe W "Svelte 4 Stores"
      ("(writable|readable|derived).*" ++ name ++ "|" ++ name ++ ".*(writable|readable|derived)")
      [.WithGlob "*.{ts,js,svelte}"]⟩],
    [⟨1, rgProbe W "Svelte 5 Runes"
      (r"(\$state|\$derived|\$effect|\$bindable).*" ++ name ++ "|" ++ name ++
        r".*(\$state|\$derived|\$effect|\$bindable)")
      [.WithGlob "*.{ts,js,svelte}"]⟩]]

/-- The fan-out of `store` without a name. -/
def storeOverviewFanOut (W : World) : FanOut where
  size := 3
  add := 3
  goroutines := [
    [⟨0,
      (let r := W.FindFiles "store" [.WithGlob "*.{ts,js}"]
       let files := if r.2.isNone then r.1.filter (fun f => !Contains f "_deprecated") else r.1
       { title := "Store Files", lines := files, err := r.2 })⟩],
    [⟨1, rgProbe W "Svelte 4 Stores (writable/readable/derived)"
      r"export\s+(const|let).*=\s*(writable|readable|derived)"
      [.WithType "ts", .WithType "js", .WithGlob "!_deprecated"]⟩],
    [⟨2, rgProbe W "Svelte 5 Runes ($state/$derived/$effect)"
      r"\$state\(|\$state\.snapshot|\$derived\(|\$derived\.by|\$effect\(|\$bindable\("
      [.WithGlob "*.{ts,js,svelte}", .WithGlob "!_deprecated"]⟩]]

/-- A text-mode loop `for i, r := range results` with `limits[i]` that prints
the section, the truncated lines and the overflow notice (store overview). -/
def limitedSectionsWithNotice (results : List sectionResult) (limits : List Nat) :
    List OutCall :=
  (results.enum.map (fun ir =>
    let r := ir.2
    [OutCall.PrintSection r.title] ++
      (if r.lines.length > 0 then
        let t := TruncateResults r.lines (limits.getD ir.1 0)
        [.PrintRaw (Join t.1 "\n" ++ "\n")] ++
          (if t.2 > 0 then [.Printf "  ... and %d more" [.int t.2]] else [])
      else [.PrintNoResults (ToLower r.title)]))).flatten

/-- A text-mode loop `for i, r := range results` with `limits[i]` that prints
the section and the truncated lines, the overflow count being discarded
(type, export and auth overviews). -/
def limitedSections (results : List sectionResult) (limits : List Nat) : List OutCall :=
  (results.enum.map (fun ir =>
    let r := ir.2
    [OutCall.PrintSection r.title] ++
      (if r.lines.length > 0 then
        [.PrintRaw (Join (TruncateResults r.lines (limits.getD ir.1 0)).1 "\n" ++ "\n")]
      else [.PrintNoResults (ToLower r.title)]))).flatten

/-- The function `RunE` of `storeCmd`. -/
def storeCmd (W : World) (cfg : Config) (args : List String) (sched : List Nat) :
    Option Outcome :=
  match args with
  | name :: _ =>
    let head := [OutCall.PrintSection ("Svelte stores/state matching: " ++ name)]
    match (storeNamedFanOut W name).Wait sched with
    | none => none
    | some results =>
      match errorScan results with
      | some e => some { out := head, err := some e }
      | none =>
        if cfg.JSONMode then
          some { out := head ++ [.PrintJSON [
                   ("command", .leaf (.str "store")),
                   ("name", .leaf (.str name)),
                   ("v4_stores", .leaf (.strings (results.getD 0 {}).lines)),
                   ("v5_runes", .leaf (.strings (results.getD 1 {}).lines))]],
                 err := none }
        else
          let printed := (results.map (fun r =>
            if r.lines.length > 0 then [OutCall.PrintRaw (Join r.lines "\n" ++ "\n")]
            else [])).flatten
          let anyResults := results.any (fun r => r.lines.length > 0)
          some { out := head ++ printed ++
                   (if !anyResults then [.PrintNoResults "stores/state"] else []),
                 err := none }
  | [] =>
    let head := [OutCall.PrintSection "Svelte Stores & Reactive State"]
    match (storeOverviewFanOut W).Wait sched with
    | none => none
    | some results =>
      match errorScan results with
      | some e => some { out := head, err := some e }
      | none =>
        if cfg.JSONMode then
          some { out := head ++ [.PrintJSON [
                   ("command", .leaf (.str "store")),
                   ("store_files", .leaf (.strings (results.getD 0 {}).lines)),
                   ("v4_stores", .leaf (.strings (results.getD 1 {}).lines)),
                   ("v5_runes", .leaf (.strings (results.getD 2 {}).lines))]],
                 err := none }
        else
          some { out := head ++ limitedSectionsWithNotice results [20, 30, 30], err := none }

/-! ## domain.go: type -/

/-- The fan-out of `type [name]` with a name. -/
def typeNamedFanOut (W : World) (name : String) : FanOut where
  size := 2
  add := 2
  goroutines := [
    [⟨0, rgProbe W "Definition" (r"(type|interface|enum)\s+" ++ name) [.WithType "ts"]⟩],
    [⟨1, rgProbe W ("Usage of " ++ name)
      (r":\s*" ++ name ++ r"\b|<" ++ name ++ r">|as\s+" ++ name) [.WithType "ts"]⟩]]

/-- The fan-out of `type` without a name. -/
def typeOverviewFanOut (W : World) : FanOut where
  size := 3
  add := 3
  goroutines := [
    [⟨0, rgProbe W "Type Definitions" r"^export\s+(type|interface)\s+\w+"
      [.WithGlob "!*.d.ts", .WithType "ts"]⟩],
    [⟨1, rgProbe W "Enums" r"^export\s+enum\s+\w+" [.WithType "ts"]⟩],
    [⟨2,
      (let r := W.FindFiles "types?" [.WithGlob "*.ts"]
       let files := if r.2.isNone then r.1.filter (fun f => !HasSuffix f ".d.ts") else r.1
       { title := "Type Files", lines := files, err := r.2 })⟩]]

/-- The function `RunE` of `typeCmd`. -/
def typeCmd (W : World) (cfg : Config) (args : List String) (sched : List Nat) :
    Option Outcome :=
  match args with
  | name :: _ =>
    let head := [OutCall.PrintSection ("Finding type: " ++ name)]
    match (typeNamedFanOut W name).Wait sched with
    | none => none
    | some results =>
      match errorScan results with
      | some e => some { out := head, err := some e }
      | none =>
        let r0 := results.getD 0 {}
        let r1 := results.getD 1 {}
        if cfg.JSONMode then
          some { out := head ++ [.PrintJSON [
                   ("command", .leaf (.str "type")),
                   ("name", .leaf (.str name)),
                   ("definition", .leaf (.strings r0.lines)),
                   ("usage", .leaf (.strings r1.lines))]],
                 err := none }
        else
          some { out := head ++
                   [.PrintSection r0.title] ++
                   (if r0.lines.length > 0 then [.PrintRaw (Join r0.lines "\n" ++ "\n")]
                   else [.PrintNoResults "definition"]) ++
                   [.PrintSection r1.title] ++
                   (if r1.lines.length > 0 then
                     [.PrintRaw (Join (TruncateResults r1.lines 20).1 "\n" ++ "\n")]
                   else [.PrintNoResults "usage"]),
                 err := none }
  | [] =>
    let head := [OutCall.PrintSection "TypeScript Types"]
    match (typeOverviewFanOut W).Wait sched with
    | none => none
    | some results =>
      match errorScan results with
      | some e => some { out := head, err := some e }
      | none =>
        if cfg.JSONMode then
          some { out := head ++ [.PrintJSON [
                   ("command", .leaf (.str "type")),
                   ("type_definitions", .leaf (.strings (results.getD 0 {}).lines)),
                   ("enums", .leaf (.strings (results.getD 1 {}).lines)),
                   ("type_files", .leaf (.strings (results.getD 2 {}).lines))]],
                 err := none }
        else
          some { out := head ++ limitedSections results [30, 15, 20], err := none }

/-! ## domain.go: export -/

/-- The fan-out of `export [pattern]` with a pattern. -/
def exportNamedFanOut (W : World) (pattern : String) : FanOut where
  size := 2
  add := 2
  goroutines := [
    [⟨0, rgProbe W "Exports"
      (r"export\s+(default\s+)?(const|let|function|class|type|interface|enum)\s+.*" ++ pattern)
      [.WithType "ts", .WithType "js"]⟩],
    [⟨1, rgProbe W "Re-exports" ("export\\s+\\\x7b[^\x7d]*" ++ pattern)
      [.WithType "ts", .WithType "js"]⟩]]

/-- The fan-out of `export` without a pattern. -/
def exportOverviewFanOut (W : World) : FanOut where
  size := 3
  add := 3
  goroutines := [
    [⟨0, rgProbe W "Default Exports" r"export\s+default" [.WithGlob "*.{ts,js,svelte}"]⟩],
    [⟨1, rgProbe W "Named Exports" r"^export\s+(const|let|function|class|async function)"
      [.WithType "ts", .WithType "js"]⟩],
    [⟨2, filesProbe "Barrel Exports (index.ts)" (W.FindFiles "index.ts" [])⟩]]

/-- The function `RunE` of `exportCmd`. -/
def exportCmd (W : World) (cfg : Config) (args : List String) (sched : List Nat) :
    Option Outcome :=
  match args with
  | pattern :: _ =>
    let head := [OutCall.PrintSection ("Exports matching: " ++ pattern)]
    match (exportNamedFanOut W pattern).Wait sched with
    | none => none
    | some results =>
      match errorScan results with
      | some e => some { out := head, err := some e }
      | none =>
        let r0 := results.getD 0 {}
        let r1 := results.getD 1 {}
        if cfg.JSONMode then
          some { out := head ++ [.PrintJSON [
                   ("command", .leaf (.str "export")),
                   ("pattern", .leaf (.str pattern)),
                   ("exports", .leaf (.strings r0.lines)),
                   ("re_exports", .leaf (.strings r1.lines))]],
                 err := none }
        else
          some { out := head ++
                   [.PrintSection r0.title] ++
                   (if r0.lines.length > 0 then [.PrintRaw (Join r0.lines "\n" ++ "\n")]
                   else [.PrintNoResults "exports"]) ++
                   [.PrintSection r1.title] ++
                   (if r1.lines.length > 0 then
                     [.PrintRaw (Join (TruncateResults r1.lines 15).1 "\n" ++ "\n")]
                   else [.PrintNoResults "re-exports"]),
                 err := none }
  | [] =>
    let head := [OutCall.PrintSection "Module Exports"]
    match (exportOverviewFanOut W).Wait sched with
    | none => none
    | some results =>
      match errorScan results with
      | some e => some { out := head, err := some e }
      | none =>
        if cfg.JSONMode then
          some { out := head ++ [.PrintJSON [
                   ("command", .leaf (.str "export")),
                   ("default_exports", .leaf (.strings (results.getD 0 {}).lines)),
                   ("named_exports", .leaf (.strings (results.getD 1 {}).lines)),
                   ("barrel_exports", .leaf (.strings (results.getD 2 {}).lines))]],
                 err := none }
        else
          some { out := head ++ limitedSections results [20, 25, 20], err := none }

/-! ## domain.go: auth -/

/-- The slice `authKeywords`. -/
def authKeywords : List String :=
  ["auth", "session", "token", "login", "logout", "user", "credential", "oauth", "jwt"]

/-- The inner loop of the filter of `auth [aspect]`, over the keywords still to
try:
`for _, kw := range authKeywords { if strings.Contains(lower, kw) { filtered = append(filtered, line); break } }`.
The value is the slice `filtered` after the loop. -/
def authInner (filtered : List String) (line lower : String) : List String → List String
  | [] => filtered
  | kw :: rest =>
    if Contains lower kw then filtered ++ [line]
    else authInner filtered line lower rest

/-- The filter loop of `auth [aspect]`:
`for _, line := range lines { lower := strings.ToLower(line); ... }` with the
inner loop `authInner`. -/
def authFilter (lines : List String) : List String :=
  lines.foldl (fun filtered line => authInner filtered line (ToLower line) authKeywords) []

/-- The fan-out of `auth` without an aspect. -/
def authOverviewFanOut (W : World) : FanOut where
  size := 4
  add := 4
  goroutines := [
    [⟨0, filesProbe "Auth Files"
      (W.FindFiles "auth|login|session" [.WithGlob "*.{ts,js,svelte}"])⟩],
    [⟨1, rgProbe W "Session Handling" "(session|getSession|createSession|destroySession)"
      [.WithType "ts", .WithType "js"]⟩],
    [⟨2, rgProbe W "Token Operations" "(token|jwt|accessToken|refreshToken|bearer)"
      [.WithExtraArgs ["-i"], .WithType "ts", .WithType "js"]⟩],
    [⟨3, rgProbe W "Heartwood/GroveAuth" "(heartwood|groveauth|GroveAuth)"
      [.WithExtraArgs ["-i"], .WithType "ts", .WithType "js"]⟩]]

/-- The structured-mode block of the auth overview: the key is the section
key with every `/` replaced by `_` as well, and the value is `r.lines`. -/
def authJSON (results : List sectionResult) : JSONMap :=
  results.foldl
    (fun jsonData r =>
      jsonData.set (ReplaceAll (sectionKey r.title) '/' '_') (.leaf (.strings r.lines)))
    [("command", .leaf (.str "auth"))]

/-- The function `RunE` of `authCmd`. -/
def authCmd (W : World) (cfg : Config) (args : List String) (sched : List Nat) :
    Option Outcome :=
  match args with
  | aspect :: _ =>
    let head := [OutCall.PrintSection ("Auth code related to: " ++ aspect)]
    let call : RgCall := ⟨aspect, [.WithGlob "*.{ts,js,svelte}"]⟩
    let r := W.RunRg call.pattern call.opts
    match r.2 with
    | some err =>
      some { out := head, err := some (.wrap ("search failed: " ++ err.Error) err),
             searches := [call] }
    | none =>
      let lines := W.SplitLines r.1
      let filtered := authFilter lines
      if cfg.JSONMode then
        some { out := head ++ [.PrintJSON [
                 ("command", .leaf (.str "auth")),
                 ("aspect", .leaf (.str aspect)),
                 ("count", .leaf (.int filtered.length)),
                 ("results", .leaf (.strings filtered))]],
               err := none, searches := [call] }
      else
        some { out := head ++
                 (if filtered.length > 0 then
                   [.PrintRaw (Join (TruncateResults filtered 30).1 "\n" ++ "\n")]
                 else [.PrintNoResults "auth-related matches"]),
               err := none, searches := [call] }
  | [] =>
    let head := [OutCall.PrintSection "Authentication Code"]
    match (authOverviewFanOut W).Wait sched with
    | none => none
    | some results =>
      match errorScan results with
      | some e => some { out := head, err := some e }
      | none =>
        if cfg.JSONMode then
          some { out := head ++ [.PrintJSON (authJSON results)], err := none }
        else
          some { out := head ++ limitedSections results [20, 20, 15, 15], err := none }

/-! ## domain.go: db and glass -/

/-- The function `RunE` of `dbCmd`. -/
def dbCmd (W : World) (cfg : Config) (args : List String) : Outcome :=
  match args with
  | table :: _ =>
    let head := [OutCall.PrintSection ("Database queries for: " ++ table)]
    let call : RgCall :=
      ⟨"(SELECT|INSERT|UPDATE|DELETE).*" ++ table, [.WithType "ts", .WithType "js"]⟩
    let r := W.RunRg call.pattern call.opts
    match r.2 with
    | some err =>
      { out := head, err := some (.wrap ("search failed: " ++ err.Error) err),
        searches := [call] }
    | none =>
      if cfg.JSONMode then
        let lines := W.SplitLines r.1
        { out := head ++ [.PrintJSON [
            ("command", .leaf (.str "db")),
            ("table", .leaf (.str table)),
            ("count", .leaf (.int lines.length)),
            ("results", .leaf (.strings lines))]],
          err := none, searches := [call] }
      else
        { out := head ++
            (if r.1 ≠ "" then [.PrintRaw (TrimRightNewline r.1 ++ "\n")]
            else [.PrintNoResults "queries"]),
          err := none, searches := [call] }
  | [] =>
    let head := [OutCall.PrintSection "Database Queries"]
    let call : RgCall := ⟨r"db\.(prepare|exec|batch)", [.WithType "ts", .WithType "js"]⟩
    let r := W.RunRg call.pattern call.opts
    match r.2 with
    | some err =>
      { out := head, err := some (.wrap ("search failed: " ++ err.Error) err),
        searches := [call] }
    | none =>
      if cfg.JSONMode then
        let lines := W.SplitLines r.1
        { out := head ++ [.PrintJSON [
            ("command", .leaf (.str "db")),
            ("count", .leaf (.int lines.length)),
            ("results", .leaf (.strings lines))]],
          err := none, searches := [call] }
      else
        { out := head ++
            (if r.1 ≠ "" then
              let lines := W.SplitLines r.1
              let t := TruncateResults lines 50
              [.PrintRaw (Join t.1 "\n" ++ "\n")] ++
                (if t.2 > 0 then [.Printf "  ... and %d more" [.int t.2]] else [])
            else [.PrintNoResults "database queries"]),
          err := none, searches := [call] }

/-- The function `RunE` of `glassCmd`. -/
def glassCmd (W : World) (cfg : Config) (args : List String) : Outcome :=
  match args with
  | variant :: _ =>
    let head := [OutCall.PrintSection ("Glass components with variant: " ++ variant)]
    let call : RgCall :=
      ⟨"Glass.*variant.*['\"" ++ variant ++ "]", [.WithGlob "*.{svelte,ts}"]⟩
    let r := W.RunRg call.pattern call.opts
    match r.2 with
    | some err =>
      { out := head, err := some (.wrap ("search failed: " ++ err.Error) err),
        searches := [call] }
    | none =>
      if cfg.JSONMode then
        let lines := W.SplitLines r.1
        { out := head ++ [.PrintJSON [
            ("command", .leaf (.str "glass")),
            ("variant", .leaf (.str variant)),
            ("count", .leaf (.int lines.length)),
            ("results", .leaf (.strings lines))]],
          err := none, searches := [call] }
      else
        { out := head ++
            (if r.1 ≠ "" then [.PrintRaw (TrimRightNewline r.1 ++ "\n")]
            else [.PrintNoResults "glass variants"]),
          err := none, searches := [call] }
  | [] =>
    let head := [OutCall.PrintSection "Glass Component Usage"]
    let call : RgCall := ⟨"<Glass", [.WithGlob "*.svelte"]⟩
    let r := W.RunRg call.pattern call.opts
    match r.2 with
    | some err =>
      { out := head, err := some (.wrap ("search failed: " ++ err.Error) err),
        searches := [call] }
    | none =>
      if cfg.JSONMode then
        let lines := W.SplitLines r.1
        { out := head ++ [.PrintJSON [
            ("command", .leaf (.str "glass")),
            ("count", .leaf (.int lines.length)),
            ("results", .leaf (.strings lines))]],
          err := none, searches := [call] }
      else
        { out := head ++
            (if r.1 ≠ "" then
              let lines := W.SplitLines r.1
              let t := TruncateResults lines 50
              [.PrintRaw (Join t.1 "\n" ++ "\n")] ++
                (if t.2 > 0 then [.Printf "  ... and %d more" [.int t.2]] else [])
            else [.PrintNoResults "Glass components"]),
          err := none, searches := [call] }

/-! ## Declared probes -/

/-- The goroutines of a fan-out in which goroutine `i` performs the one
assignment `results[i] = vals[i]`. -/
def singleWrites (vals : List sectionResult) : List (List Write) :=
  vals.enum.map (fun iv => [⟨iv.1, iv.2⟩])

/-- The fan-out whose goroutine `i` performs the one assignment
`results[i] = vals[i]`, with a slice and a WaitGroup count of that size. -/
def declaredFanOut (vals : List sectionResult) : FanOut where
  size := vals.length
  add := vals.length
  goroutines := singleWrites vals

/-- The values assigned by the goroutines of a fan-out, in the order of the
`go` statements: the title and outcome of each declared probe. -/
def FanOut.declared (f : FanOut) : List sectionResult :=
  (f.goroutines.map (fun body => body.map Write.val)).flatten

/-- Every fan-out of cf.go and domain.go, in source order, each with the
command function that contains it, as a function of the schedule; `arg` is
the argument of the commands that take one. -/
def fanOutCommands (W : World) (cfg : Config) (arg : String) :
    List (FanOut × (List Nat → Option Outcome)) :=
  [(cfOverviewFanOut W, cfOverview W cfg),
   (cfD1FullFanOut W, cfD1Full W cfg),
   (cfKVFullFanOut W, cfKVFull W cfg),
   (cfR2FullFanOut W, cfR2Full W cfg),
   (cfDOFullFanOut W, cfDOFull W cfg),
   (routesGuardsFanOut W, routesGuards W cfg),
   (routesFilteredFanOut W arg, routesFiltered W cfg arg),
   (routesOverviewFanOut W, routesOverview W cfg),
   (storeNamedFanOut W arg, storeCmd W cfg [arg]),
   (storeOverviewFanOut W, storeCmd W cfg []),
   (typeNamedFanOut W arg, typeCmd W cfg [arg]),
   (typeOverviewFanOut W, typeCmd W cfg []),
   (exportNamedFanOut W arg, exportCmd W cfg [arg]),
   (exportOverviewFanOut W, exportCmd W cfg []),
   (authOverviewFanOut W, authCmd W cfg [])]

/-- A filtered command of cf.go with its parts: the composite pattern and
the glob options of its first search, the label of its error message, what
one invocation does, and its rendering as a function of the result lines. -/
structure FilteredCommand where
  composite : String
  glob : List SearchOption
  label : String
  run : Outcome
  render : List String → List OutCall

/-- The four filtered commands of cf.go for the token `pattern`:
cfD1Filtered, cfKVFiltered, cfR2Filtered and cfDOFiltered. -/
def filteredCommands (W : World) (cfg : Config) (pattern : String) : List FilteredCommand :=
  [{ composite := d1Pattern pattern, glob := [.WithGlob "*.{toml,ts,js,svelte,sql}"],
     label := "D1", run := cfD1Filtered W cfg pattern,
     render := fun lines => cfD1FilteredRender cfg pattern lines
       (W.SplitLines (W.RunRg pattern [.WithGlob "*.sql"]).1) },
   { composite := kvPattern pattern, glob := [.WithGlob "*.{toml,ts,js,svelte}"],
     label := "KV", run := cfKVFiltered W cfg pattern,
     render := fun lines => cfKVFilteredRender cfg pattern lines },
   { composite := r2Pattern pattern, glob := [.WithGlob "*.{toml,ts,js,svelte}"],
     label := "R2", run := cfR2Filtered W cfg pattern,
     render := fun lines => cfR2FilteredRender cfg pattern lines },
   { composite := doPattern pattern, glob := [.WithGlob "*.{toml,ts,js,svelte}"],
     label := "DO", run := cfDOFiltered W cfg pattern,
     render := fun lines => cfDOFilteredRender cfg pattern lines
       (W.SplitLines (W.RunRg (classPattern pattern) [.WithGlob "*.{ts,js}"]).1) }]

/-- The titles of the `PrintSection` calls of a trace, in order. -/
def sectionTitles : List OutCall → List String
  | [] => []
  | .PrintSection t :: rest => t :: sectionTitles rest
  | _ :: rest => sectionTitles rest

/-- Whether `pre` is a prefix of `s`. -/
def startsWith (s pre : String) : Bool :=
  pre.data.isPrefixOf s.data

/-- A world for examples.  A search whose pattern starts with `\bKV` or with
`\bR2` fails with the message "rg: bad pattern"; a search whose pattern
starts with `\bD1` prints two lines; every other search succeeds and finds
nothing.  File searches find `a.sql` and `b.sql`, `search.SplitLines` is the
method Lines of the runner, and no file can be read. -/
def worldKVFails : World where
  RunRg := fun pattern _ =>
    if startsWith pattern "\\bKV" ∨ startsWith pattern "\\bR2" then
      ("", some (.leaf "rg: bad pattern"))
    else if startsWith pattern "\\bD1" then ("wrangler.toml:3:d1_databases\nsrc/db.ts:1:D1Database\n", none)
    else ("", none)
  FindFiles := fun _ _ => (["a.sql", "b.sql"], none)
  FindFilesByGlob := fun _ => (["a.sql", "b.sql"], none)
  SplitLines := fun out => Result.Lines { Stdout := out, Stderr := "", ExitCode := 0 }
  ReadFile := fun _ => none
  pathJoin := fun a b => a ++ "/" ++ b
  pathRel := fun _ _ => none

/-- A world for examples in which file searches fail with the message
"walk: permission denied" and every other search succeeds and finds nothing. -/
def worldFindFails : World where
  RunRg := fun _ _ => ("", none)
  FindFiles := fun _ _ => ([], some (.leaf "walk: permission denied"))
  FindFilesByGlob := fun _ => ([], some (.leaf "walk: permission denied"))
  SplitLines := fun out => Result.Lines { Stdout := out, Stderr := "", ExitCode := 0 }
  ReadFile := fun _ => none
  pathJoin := fun a b => a ++ "/" ++ b
  pathRel := fun _ _ => none

/-- A world for examples in which every search succeeds: a search for the
pattern `users` prints two lines and every other search finds nothing. -/
def worldOK : World where
  RunRg := fun pattern _ =>
    if pattern = "users" then ("src/a.ts:1:users\nsrc/b.ts:7:users\n", none) else ("", none)
  FindFiles := fun _ _ => ([], none)
  FindFilesByGlob := fun _ => ([], none)
  SplitLines := fun out => Result.Lines { Stdout := out, Stderr := "", ExitCode := 0 }
  ReadFile := fun _ => none
  pathJoin := fun a b => a ++ "/" ++ b
  pathRel := fun _ _ => none

/-- A world for examples in which the tool rejects every pattern that
contains a parenthesis and prints one line for any other pattern. -/
def worldNoParens : World where
  RunRg := fun pattern _ =>
    if '(' ∈ pattern.data then ("", some (.leaf "rg: regex parse error"))
    else ("src/a.ts:1:match\n", none)
  FindFiles := fun _ _ => ([], none)
  FindFilesByGlob := fun _ => ([], none)
  SplitLines := fun out => Result.Lines { Stdout := out, Stderr := "", ExitCode := 0 }
  ReadFile := fun _ => none
  pathJoin := fun a b => a ++ "/" ++ b
  pathRel := fun _ _ => none

/-- A world for examples in which every call of the search tool fails. -/
def worldRgDown : World where
  RunRg := fun _ _ => ("", some (.leaf "rg: not found"))
  FindFiles := fun _ _ => ([], none)
  FindFilesByGlob := fun _ => ([], none)
  SplitLines := fun out => Result.Lines { Stdout := out, Stderr := "", ExitCode := 0 }
  ReadFile := fun _ => none
  pathJoin := fun a b => a ++ "/" ++ b
  pathRel := fun _ _ => none

/-- Text mode, for examples. -/
def cfgText : Config := { GroveRoot := "/repo", JSONMode := false }

/-- Structured mode, for examples. -/
def cfgJSON : Config := { GroveRoot := "/repo", JSONMode := true }

/-- A command of cf.go that renders every section of its fan-out (cfOverview,
cfD1Full, cfKVFull, cfR2Full, cfDOFull) with its parts: the fan-out, what one
invocation does, the value of "command" in structured mode, the text of the
major header, and the calls made after the sections in text mode. -/
structure CfFull where
  fan : FanOut
  run : List Nat → Option Outcome
  command : String
  header : String
  tail : List OutCall

/-- The five commands of cf.go that render every section of their fan-out. -/
def cfFullCommands (W : World) (cfg : Config) : List CfFull :=
  [{ fan := cfOverviewFanOut W, run := cfOverview W cfg, command := "cf",
     header := "Cloudflare Bindings Overview", tail := [] },
   { fan := cfD1FullFanOut W, run := cfD1Full W cfg, command := "cf d1",
     header := "D1 Database Overview", tail := [] },
   { fan := cfKVFullFanOut W, run := cfKVFull W cfg, command := "cf kv",
     header := "KV Namespace Overview", tail := [] },
   { fan := cfR2FullFanOut W, run := cfR2Full W cfg, command := "cf r2",
     header := "R2 Storage Overview", tail := [] },
   { fan := cfDOFullFanOut W, run := cfDOFull W cfg, command := "cf do",
     header := "Durable Objects Overview",
     tail := doSummary ((cfDOFullFanOut W).declared.getD 0 {}).lines }]

/-- The value stored for a section by the structured-mode loop of the cf
commands: `map[string]any{"count": len(r.lines), "results": r.lines}`. -/
def cfSectionValue (r : sectionResult) : JSONValue :=
  .map [("count", .int r.lines.length), ("results", .strings r.lines)]

/-- The key of a section in the structured mode of the auth overview: the
section key with every `/` replaced by `_`. -/
def authKey (title : String) : String :=
  ReplaceAll (sectionKey title) '/' '_'

/-- A world for examples in which the search for D1 bindings of cfOverview
prints 42 lines, `src/a.ts:1` to `src/a.ts:42`, and every other search
succeeds and finds nothing; `search.SplitLines` is the method Lines of the
runner. -/
def world42 : World where
  RunRg := fun pattern _ =>
    if startsWith pattern "\\bD1" then
      (Join ((List.range 42).map (fun i => "src/a.ts:" ++ String.mk (Nat.toDigits 10 (i + 1))))
        "\n", none)
    else ("", none)
  FindFiles := fun _ _ => ([], none)
  FindFilesByGlob := fun _ => ([], none)
  SplitLines := fun out => Result.Lines { Stdout := out, Stderr := "", ExitCode := 0 }
  ReadFile := fun _ => none
  pathJoin := fun a b => a ++ "/" ++ b
  pathRel := fun _ _ => none

/-- A command whose structured mode derives the key of every section from
its title (the five commands of `cfFullCommands` and the auth overview), with
its parts: the fan-out, what one invocation does, the calls made before the
probes run, the value of "command", the key of a title and the value stored
for a section. -/
structure TitleKeyed where
  fan : FanOut
  run : List Nat → Option Outcome
  head : List OutCall
  command : String
  key : String → String
  value : sectionResult → JSONValue

/-- The commands whose structured mode derives its keys from the titles. -/
def titleKeyedCommands (W : World) (cfg : Config) : List TitleKeyed :=
  (cfFullCommands W cfg).map
      (fun c => { fan := c.fan, run := c.run, head := [], command := c.command,
                  key := sectionKey, value := cfSectionValue }) ++
    [{ fan := authOverviewFanOut W, run := authCmd W cfg [],
       head := [.PrintSection "Authentication Code"], command := "auth",
       key := authKey, value := fun r => .leaf (.strings r.lines) }]

/-- The pattern of the Svelte 4 Stores probe of `store [name]`: the format
string with both `%s` replaced by `name`. -/
def svelte4Pattern (name : String) : String :=
  "(writable|readable|derived).*" ++ name ++ "|" ++ name ++ ".*(writable|readable|derived)"

/-- The pattern of the Svelte 5 Runes probe of `store [name]`. -/
def svelte5Pattern (name : String) : String :=
  r"(\$state|\$derived|\$effect|\$bindable).*" ++ name ++ "|" ++ name ++
    r".*(\$state|\$derived|\$effect|\$bindable)"

/-- The world `W` in which the call of `search.RunRg` with the arguments of
`call` returns the same output and the error `e` (`none` for no error), every
other call being as in `W`. -/
def World.withError (W : World) (call : RgCall) (e : Option GoError) : World :=
  { W with
    RunRg := fun pattern opts =>
      if pattern = call.pattern ∧ opts = call.opts then ((W.RunRg pattern opts).1, e)
      else W.RunRg pattern opts }

/-- A world for examples in which the searches restricted to `*.sql` and to
`*.{ts,js}` fail with the message "rg: exit status 2" and print nothing, and
every other search succeeds and finds nothing. -/
def worldAuxFails : World where
  RunRg := fun _ opts =>
    if opts = [.WithGlob "*.sql"] ∨ opts = [.WithGlob "*.{ts,js}"] then
      ("", some (.leaf "rg: exit status 2"))
    else ("", none)
  FindFiles := fun _ _ => ([], none)
  FindFilesByGlob := fun _ => ([], none)
  SplitLines := fun out => Result.Lines { Stdout := out, Stderr := "", ExitCode := 0 }
  ReadFile := fun _ => none
  pathJoin := fun a b => a ++ "/" ++ b
  pathRel := fun _ _ => none

/-- A fan-out command of domain.go whose structured mode writes the keys of
its sections in the map literal (routesFiltered, routesOverview, and both
forms of store, type and export), with its parts: the fan-out, what one
invocation does, the calls made before the probes run, the entries of the
map before the sections, and the keys of the sections in declared order. -/
structure FixedKeyed where
  fan : FanOut
  run : List Nat → Option Outcome
  head : List OutCall
  fixed : List (String × JSONValue)
  keys : List String

/-- The fan-out commands of domain.go with fixed section keys; `arg` is the
argument of the commands that take one. -/
def fixedKeyCommands (W : World) (cfg : Config) (arg : String) : List FixedKeyed :=
  [{ fan := routesFilteredFanOut W arg, run := routesFiltered W cfg arg,
     head := [.PrintSection ("SvelteKit routes matching: " ++ arg)],
     fixed := [("command", .leaf (.str "routes")), ("pattern", .leaf (.str arg))],
     keys := ["page_routes", "api_routes"] },
   { fan := routesOverviewFanOut W, run := routesOverview W cfg,
     head := [.PrintSection "SvelteKit Routes"],
     fixed := [("command", .leaf (.str "routes"))],
     keys := ["page_routes", "api_routes", "layouts", "error_pages"] },
   { fan := storeNamedFanOut W arg, run := storeCmd W cfg [arg],
     head := [.PrintSection ("Svelte stores/state matching: " ++ arg)],
     fixed := [("command", .leaf (.str "store")), ("name", .leaf (.str arg))],
     keys := ["v4_stores", "v5_runes"] },
   { fan := storeOverviewFanOut W, run := storeCmd W cfg [],
     head := [.PrintSection "Svelte Stores & Reactive State"],
     fixed := [("command", .leaf (.str "store"))],
     keys := ["store_files", "v4_stores", "v5_runes"] },
   { fan := typeNamedFanOut W arg, run := typeCmd W cfg [arg],
     head := [.PrintSection ("Finding type: " ++ arg)],
     fixed := [("command", .leaf (.str "type")), ("name", .leaf (.str arg))],
     keys := ["definition", "usage"] },
   { fan := typeOverviewFanOut W, run := typeCmd W cfg [],
     head := [.PrintSection "TypeScript Types"],
     fixed := [("command", .leaf (.str "type"))],
     keys := ["type_definitions", "enums", "type_files"] },
   { fan := exportNamedFanOut W arg, run := exportCmd W cfg [arg],
     head := [.PrintSection ("Exports matching: " ++ arg)],
     fixed := [("command", .leaf (.str "export")), ("pattern", .leaf (.str arg))],
     keys := ["exports", "re_exports"] },
   { fan := exportOverviewFanOut W, run := exportCmd W cfg [],
     head := [.PrintSection "Module Exports"],
     fixed := [("command", .leaf (.str "export"))],
     keys := ["default_exports", "named_exports", "barrel_exports"] }]

/-- The structured document of a command with fixed keys: the fixed entries,
then for each section its key with the list of its lines. -/
def fixedKeyDocument (fixed : List (String × JSONValue)) (keys : List String)
    (results : List sectionResult) : JSONMap :=
  fixed ++ (keys.zip results).map (fun kr => (kr.1, .leaf (.strings kr.2.lines)))

/-- A world for examples in which every search prints the one line
`src/stores/user.ts:3:export const user = writable(null)` and every file
search finds `src/stores/user.ts`. -/
def worldOneLine : World where
  RunRg := fun _ _ => ("src/stores/user.ts:3:export const user = writable(null)\n", none)
  FindFiles := fun _ _ => (["src/stores/user.ts"], none)
  FindFilesByGlob := fun _ => (["src/stores/user.ts"], none)
  SplitLines := fun out => Result.Lines { Stdout := out, Stderr := "", ExitCode := 0 }
  ReadFile := fun _ => none
  pathJoin := fun a b => a ++ "/" ++ b
  pathRel := fun _ _ => none

/-- The number of `PrintJSON` calls of a trace. -/
def countJSON : List OutCall → Nat
  | [] => 0
  | .PrintJSON _ :: rest => countJSON rest + 1
  | _ :: rest => countJSON rest

/-- A command function with its parts: the source file, the number of
goroutines of its fan-out (0 when it has none), the calls to the output
package made before its first search, and what one invocation does. -/
structure Command where
  file : String
  goroutines : Nat
  head : List OutCall
  run : List Nat → Option Outcome

/-- Every command function of cf.go and domain.go, in source order; `arg` is
the argument of the commands that take one. -/
def allCommands (W : World) (cfg : Config) (arg : String) : List Command :=
  [⟨"cf.go", 4, [], cfOverview W cfg⟩,
   ⟨"cf.go", 0, [], fun _ => some (cfD1Filtered W cfg arg)⟩,
   ⟨"cf.go", 4, [], cfD1Full W cfg⟩,
   ⟨"cf.go", 0, [], fun _ => some (cfKVFiltered W cfg arg)⟩,
   ⟨"cf.go", 3, [], cfKVFull W cfg⟩,
   ⟨"cf.go", 0, [], fun _ => some (cfR2Filtered W cfg arg)⟩,
   ⟨"cf.go", 3, [], cfR2Full W cfg⟩,
   ⟨"cf.go", 0, [], fun _ => some (cfDOFiltered W cfg arg)⟩,
   ⟨"cf.go", 4, [], cfDOFull W cfg⟩,
   ⟨"domain.go", 2, [.PrintSection "Route Guards (Auth/Redirect)"], routesGuards W cfg⟩,
   ⟨"domain.go", 2, [.PrintSection ("SvelteKit routes matching: " ++ arg)],
     routesFiltered W cfg arg⟩,
   ⟨"domain.go", 4, [.PrintSection "SvelteKit Routes"], routesOverview W cfg⟩,
   ⟨"domain.go", 0, [.PrintSection ("Database queries for: " ++ arg)],
     fun _ => some (dbCmd W cfg [arg])⟩,
   ⟨"domain.go", 0, [.PrintSection "Database Queries"], fun _ => some (dbCmd W cfg [])⟩,
   ⟨"domain.go", 0, [.PrintSection ("Glass components with variant: " ++ arg)],
     fun _ => some (glassCmd W cfg [arg])⟩,
   ⟨"domain.go", 0, [.PrintSection "Glass Component Usage"],
     fun _ => some (glassCmd W cfg [])⟩,
   ⟨"domain.go", 2, [.PrintSection ("Svelte stores/state matching: " ++ arg)],
     storeCmd W cfg [arg]⟩,
   ⟨"domain.go", 3, [.PrintSection "Svelte Stores & Reactive State"], storeCmd W cfg []⟩,
   ⟨"domain.go", 2, [.PrintSection ("Finding type: " ++ arg)], typeCmd W cfg [arg]⟩,
   ⟨"domain.go", 3, [.PrintSection "TypeScript Types"], typeCmd W cfg []⟩,
   ⟨"domain.go", 2, [.PrintSection ("Exports matching: " ++ arg)], exportCmd W cfg [arg]⟩,
   ⟨"domain.go", 3, [.PrintSection "Module Exports"], exportCmd W cfg []⟩,
   ⟨"domain.go", 0, [.PrintSection ("Auth code related to: " ++ arg)], authCmd W cfg [arg]⟩,
   ⟨"domain.go", 4, [.PrintSection "Authentication Code"], authCmd W cfg []⟩]

/-- The form of the outcome of a command whose calls before the first search
are `head`: with an error, exactly these calls; without an error, in
structured mode these calls followed by one `PrintJSON`, and in text mode
these calls followed by calls that are not `PrintJSON`. -/
def Shaped (cfg : Config) (head : List OutCall) (o : Outcome) : Prop :=
  (o.err ≠ none → o.out = head) ∧
  (o.err = none → cfg.JSONMode = true → ∃ d, o.out = head ++ [.PrintJSON d]) ∧
  (o.err = none → cfg.JSONMode = false → ∃ t, o.out = head ++ t ∧ countJSON t = 0)

/-! ## Overflow notices in a trace -/

/-- One alternative of a composite pattern, following the specification: the
group `first`, any text, the group `second`. -/
def alternative (first second : String) : String :=
  "(" ++ first ++ ").*(" ++ second ++ ")"

/-- The composite pattern of the specification for the token `t` and the
keyword alternation `K`: token before keyword, or keyword before token. -/
def composite (t K : String) : String :=
  alternative t K ++ "|" ++ alternative K t

/-- A world for examples in which the search for the pattern `auth` prints six
lines: one with `TOKEN` in capitals, one without any keyword, one with the
Kelvin sign U+212A in `to\u212Aen`, one with the dotted capital I U+0130 in
`LOG\u0130N`, one with `Session` and `user`, and one with the capital K with
cedilla U+0136 in `TO\u0136EN`; every other search finds nothing. -/
def worldAuth : World where
  RunRg := fun pattern _ =>
    if pattern = "auth" then
      ("src/a.ts:1:const TOKEN = 1\n" ++
        "src/b.ts:2:plain text\n" ++
        "src/c.ts:3:to\u212Aen\n" ++
        "src/d.ts:4:LOG\u0130N\n" ++
        "src/e.ts:5:Session of the user\n" ++
        "src/f.ts:6:TO\u0136EN\n", none)
    else ("", none)
  FindFiles := fun _ _ => ([], none)
  FindFilesByGlob := fun _ => ([], none)
  SplitLines := fun out => Result.Lines { Stdout := out, Stderr := "", ExitCode := 0 }
  ReadFile := fun _ => none
  pathJoin := fun a b => a ++ "/" ++ b
  pathRel := fun _ _ => none

/-- A world for examples in which the search for class definitions of
cfDOFull prints four lines, three of them with a class name (`Zeta` twice,
`Alpha` once), and every other search succeeds and finds nothing. -/
def worldDO : World where
  RunRg := fun pattern _ =>
    if startsWith pattern "class\\s" then
      ("src/do/z.ts:3:export class Zeta extends DurableObject\n" ++
        "src/do/a.ts:1:export class Alpha extends DurableObject\n" ++
        "src/do/y.ts:9:class Zeta implements DurableObject\n" ++
        "src/do/n.ts:2:// implements DurableObject as a class\n", none)
    else ("", none)
  FindFiles := fun _ _ => ([], none)
  FindFilesByGlob := fun _ => ([], none)
  SplitLines := fun out => Result.Lines { Stdout := out, Stderr := "", ExitCode := 0 }
  ReadFile := fun _ => none
  pathJoin := fun a b => a ++ "/" ++ b
  pathRel := fun _ _ => none

/-! ## The method `Lines` on characters -/

/-- The call `strings.Join(elems, "\n")` on the characters of the elements. -/
def joinChars : List (List Char) → List Char
  | [] => []
  | [p] => p
  | p :: q :: rest => p ++ '\n' :: joinChars (q :: rest)

/-- The method `Lines` on the characters of Stdout: the non-empty pieces of the
trimmed text between newlines. -/
def linesChars (cs : List Char) : List (List Char) :=
  (splitChars (trimSpaceChars cs)).filter (fun p => decide (p ≠ []))

/-! # Theorems -/

/-! ## The fan-out -/

theorem goroutine_singleWrites (vals : List sectionResult) (i : Nat) (h : i < vals.length) :
    (singleWrites vals)[i]? = some [⟨i, vals[i]⟩] := by
  simp [singleWrites, List.getElem?_enum, List.getElem?_eq_getElem h]

theorem length_singleWrites (vals : List sectionResult) :
    (singleWrites vals).length = vals.length := by
  simp [singleWrites]

/-- The state reached from `s` when the goroutines listed in `sched` run. -/
theorem exec_from (vals : List sectionResult) (sched : List Nat)
    (hs : ∀ i ∈ sched, i < vals.length) (s : FanState)
    (hlen : s.results.length = vals.length) (hp : s.panicked = false) :
    let s1 := sched.foldl
      (fun s i =>
        match (singleWrites vals)[i]? with
        | some body => s.runBody body
        | none => s) s
    s1.results.length = vals.length ∧
    (∀ i (h : i < vals.length) (h1 : i < s1.results.length),
      s1.results[i] = if i ∈ sched then vals[i] else s.results[i]) ∧
    s1.counter = s.counter - sched.length ∧
    s1.written = s.written ++ sched ∧
    s1.panicked = false := by
  induction sched generalizing s with
  | nil => simp [hlen, hp]
  | cons j rest ih =>
    have hj : j < vals.length := hs j (List.mem_cons_self _ _)
    have hrest : ∀ i ∈ rest, i < vals.length := fun i hi => hs i (List.mem_cons_of_mem _ hi)
    have hstep : (match (singleWrites vals)[j]? with
        | some body => s.runBody body
        | none => s) =
        { results := s.results.set j vals[j], counter := s.counter - 1,
          written := s.written ++ [j], panicked := false } := by
      rw [goroutine_singleWrites vals j hj]
      simp [FanState.runBody, FanState.assign, hlen, hj, hp]
    obtain ⟨h1, h2, h3, h4, h5⟩ := ih hrest
      { results := s.results.set j vals[j], counter := s.counter - 1,
        written := s.written ++ [j], panicked := false }
      (by simp [hlen]) rfl
    simp only [List.foldl_cons, hstep]
    refine ⟨h1, ?_, ?_, ?_, h5⟩
    · intro i hi hi1
      rw [h2 i hi hi1]
      by_cases hmem : i ∈ rest
      · simp [hmem]
      · by_cases hij : i = j
        · subst hij
          simp [hmem]
        · have hji : ¬ j = i := fun h => hij h.symm
          simp [hmem, hij, List.getElem_set, hji]
    · rw [h3]
      simp only [List.length_cons]
      push_cast
      ring
    · rw [h4]
      simp

/-- The fan-out with one assignment per goroutine, run under any valid
schedule: the slice holds the declared values in declared order, the counter
is zero, the slots were written in the order of the schedule, no panic. -/
theorem exec_declaredFanOut (vals : List sectionResult) (sched : List Nat)
    (h : validSchedule vals.length sched) :
    (declaredFanOut vals).exec sched =
      { results := vals, counter := 0, written := sched, panicked := false } := by
  have hmem : ∀ i, i ∈ sched ↔ i < vals.length := fun i => by
    rw [List.Perm.mem_iff h, List.mem_range]
  have hl : sched.length = vals.length := by
    rw [List.Perm.length_eq h, List.length_range]
  obtain ⟨h1, h2, h3, h4, h5⟩ := exec_from vals sched (fun i hi => (hmem i).1 hi)
    (declaredFanOut vals).init (by simp [FanOut.init, declaredFanOut]) rfl
  have hres : (FanOut.exec (declaredFanOut vals) sched).results = vals := by
    apply List.ext_getElem h1
    intro i hi1 hi2
    have := h2 i hi2 hi1
    simp only [(hmem i).2 hi2, if_true] at this
    exact this
  have hexec : FanOut.exec (declaredFanOut vals) sched =
      { results := (FanOut.exec (declaredFanOut vals) sched).results,
        counter := (FanOut.exec (declaredFanOut vals) sched).counter,
        written := (FanOut.exec (declaredFanOut vals) sched).written,
        panicked := (FanOut.exec (declaredFanOut vals) sched).panicked } := rfl
  rw [hexec, hres]
  have hc : (FanOut.exec (declaredFanOut vals) sched).counter = 0 := by
    have := h3
    simp only [FanOut.init, declaredFanOut, hl] at this
    simpa [FanOut.exec, declaredFanOut] using this
  have hw : (FanOut.exec (declaredFanOut vals) sched).written = sched := by
    have := h4
    simpa [FanOut.exec, declaredFanOut, FanOut.init] using this
  have hpn : (FanOut.exec (declaredFanOut vals) sched).panicked = false := h5
  rw [hc, hw, hpn]

/-- The join of the fan-out with one assignment per goroutine returns the
declared values in declared order, whatever the valid schedule. -/
theorem wait_declaredFanOut (vals : List sectionResult) (sched : List Nat)
    (h : validSchedule vals.length sched) :
    (declaredFanOut vals).Wait sched = some vals := by
  simp [FanOut.Wait, exec_declaredFanOut vals sched h]

/-! ## The process runner -/

/-- C4: RunContext returns a nil error and a Result that carries the exit
status of the process whenever the process started and exited, for status
zero and for any other status alike, with Stdout and Stderr the captured
streams.  It returns an error exactly when running the command failed with
something that is not an exit status, and that error is
"failed to execute NAME: " followed by the text of the cause, which it wraps. -/
theorem RunContext_reports_exit_status (sys : Sys) (ctx : Context) (name : String)
    (args : List String) :
    (∀ code out err, sys.spawn ctx name args = .exited code out err →
      (RunContext sys ctx name args).val =
        ({ Stdout := out, Stderr := err, ExitCode := code }, none)) ∧
    ((RunContext sys ctx name args).val.1.Stdout = (execRun (sys.spawn ctx name args)).stdout ∧
      (RunContext sys ctx name args).val.1.Stderr = (execRun (sys.spawn ctx name args)).stderr) ∧
    ((RunContext sys ctx name args).val.2 ≠ none ↔
      ∃ e, (execRun (sys.spawn ctx name args)).err = some (.other e)) ∧
    ((RunContext sys ctx name args).val.2 ≠ none ↔
      ∃ e out err, sys.spawn ctx name args = .failed e out err) ∧
    (∀ e out err, sys.spawn ctx name args = .failed e out err →
      (RunContext sys ctx name args).val.2 =
          some (.wrap ("failed to execute " ++ name ++ ": " ++ e.Error) e)) := by
  refine ⟨?_, ⟨?_, ?_⟩, ?_, ?_, ?_⟩
  · intro code out err h
    by_cases hc : code = 0
    · simp [RunContext, execRun, h, hc]
    · simp [RunContext, execRun, h, hc]
  · simp only [RunContext]
    cases (execRun (sys.spawn ctx name args)).err with
    | none => rfl
    | some re => cases re <;> rfl
  · simp only [RunContext]
    cases (execRun (sys.spawn ctx name args)).err with
    | none => rfl
    | some re => cases re <;> rfl
  · simp only [RunContext]
    cases (execRun (sys.spawn ctx name args)).err with
    | none => simp
    | some re => cases re <;> simp
  · cases h : sys.spawn ctx name args with
    | failed e out err => simp [RunContext, execRun, h]
    | exited code out err =>
      by_cases hc : code = 0
      · simp [RunContext, execRun, h, hc]
      · simp [RunContext, execRun, h, hc]
    | killed out err => simp [RunContext, execRun, h]
  · intro e out err h
    simp [RunContext, execRun, h]

/-- C4, at concrete inputs: `wrangler whoami` exits with status 1 and
RunContext returns that status with a nil error; a program that cannot be
started gives the error "failed to execute nosuch: exec: not found". -/
theorem RunContext_reports_exit_status_witness :
    (RunContext sysDirect Background "wrangler" ["whoami"]).val =
        ({ Stdout := "", Stderr := "not logged in", ExitCode := 1 }, none) ∧
      (RunContext sysDirect Background "nosuch" []).val.2 =
        some (.wrap "failed to execute nosuch: exec: not found" (.leaf "exec: not found")) :=
  ⟨(RunContext_reports_exit_status sysDirect Background "wrangler" ["whoami"]).1
      1 "" "not logged in" (by decide),
   (RunContext_reports_exit_status sysDirect Background "nosuch" []).2.2.2.2
      (.leaf "exec: not found") "" "" (by decide)⟩

/-- C5, as the claim states it, fails: `wrangler tail` does not complete
within the default timeout and is killed at the deadline, and Run returns a
Result (exit code -1) with a nil error. -/
theorem Run_timeout_returns_nil_error :
    sysDirect.spawn (some DefaultTimeout) "wrangler" ["tail"] = .killed "log line\n" "" ∧
      (Run sysDirect "wrangler" ["tail"]).val =
        ({ Stdout := "log line\n", Stderr := "", ExitCode := -1 }, none) := by
  decide

/-- C5, amended: Run is RunWithTimeout with the default timeout of 30 seconds,
every call through RunWithTimeout runs its one process under a context whose
deadline is the timeout, and when the process is killed at the deadline the
call returns a nil error with a Result whose exit code is -1, so that the
timeout shows only in a Result that is not OK. -/
theorem Run_timeout_in_effect (sys : Sys) (timeout : Nat) (name : String)
    (args : List String) :
    Run sys name args = RunWithTimeout sys DefaultTimeout name args ∧
    DefaultTimeout = 30 * 1000000000 ∧
    (RunWithTimeout sys timeout name args).spawned =
      [{ ctx := some timeout, name := name, args := args }] ∧
    (∀ out err, sys.spawn (some timeout) name args = .killed out err →
      (RunWithTimeout sys timeout name args).val =
          ({ Stdout := out, Stderr := err, ExitCode := -1 }, none) ∧
        (RunWithTimeout sys timeout name args).val.1.OK = false) := by
  refine ⟨rfl, rfl, rfl, ?_⟩
  intro out err h
  simp [RunWithTimeout, RunContext, WithTimeout, Background, execRun, h, Result.OK]

/-- C5, amended, at a concrete input: `wrangler tail` under a timeout of five
seconds. -/
theorem Run_timeout_in_effect_witness :
    (RunWithTimeout sysDirect (5 * Second) "wrangler" ["tail"]).val =
        ({ Stdout := "log line\n", Stderr := "", ExitCode := -1 }, none) ∧
      (RunWithTimeout sysDirect (5 * Second) "wrangler" ["tail"]).val.1.OK = false :=
  (Run_timeout_in_effect sysDirect (5 * Second) "wrangler" ["tail"]).2.2.2
    "log line\n" "" (by decide)

/-- A loop that appends the elements satisfying a test is a filter. -/
theorem foldl_append_if {α : Type} (p : α → Prop) [DecidablePred p] (l acc : List α) :
    l.foldl (fun out x => if p x then out ++ [x] else out) acc =
      acc ++ l.filter (fun x => decide (p x)) := by
  induction l generalizing acc with
  | nil => simp
  | cons x rest ih =>
    by_cases hx : p x
    · simp [List.foldl_cons, hx, ih]
    · simp [List.foldl_cons, hx, ih]

/-- C6, as the claim states it, fails: on the standard output
"  src/a.ts\nsrc/b.ts  " the pieces of Stdout between newlines are
"  src/a.ts" and "src/b.ts  ", but Lines gives "src/a.ts" and "src/b.ts": the
white space around the whole output is trimmed before the split. -/
theorem Lines_differs_from_split_of_Stdout :
    (Split "  src/a.ts\nsrc/b.ts  ").filter (fun l => decide (l ≠ "")) =
        ["  src/a.ts", "src/b.ts  "] ∧
      Result.Lines { Stdout := "  src/a.ts\nsrc/b.ts  ", Stderr := "", ExitCode := 0 } =
        ["src/a.ts", "src/b.ts"] := by
  decide

/-- C6, amended: Lines returns the trimmed stdout split into non-empty lines:
exactly the pieces obtained by splitting TrimSpace(Stdout) at the newline
with the empty pieces dropped, unchanged and in their original order
(duplicates preserved); when Stdout has no white space at either end these
are the pieces of Stdout itself. -/
theorem Lines_eq_filter_split_trim (r : Result) :
    r.Lines = (Split (TrimSpace r.Stdout)).filter (fun l => decide (l ≠ "")) ∧
    (TrimSpace r.Stdout = r.Stdout →
      r.Lines = (Split r.Stdout).filter (fun l => decide (l ≠ ""))) := by
  have h : r.Lines = (Split (TrimSpace r.Stdout)).filter (fun l => decide (l ≠ "")) := by
    simp only [Result.Lines]
    rw [foldl_append_if (fun l : String => l ≠ "")]
    simp
  refine ⟨h, ?_⟩
  intro ht
  rw [h, ht]

/-- C6, amended, at a concrete input: an output without white space at its
ends, with an empty line and a duplicate line. -/
theorem Lines_eq_filter_split_trim_witness :
    TrimSpace "a.ts\n\nb.ts\na.ts" = "a.ts\n\nb.ts\na.ts" ∧
      Result.Lines { Stdout := "a.ts\n\nb.ts\na.ts", Stderr := "", ExitCode := 0 } =
        ["a.ts", "b.ts", "a.ts"] :=
  ⟨by decide,
   ((Lines_eq_filter_split_trim
      { Stdout := "a.ts\n\nb.ts\na.ts", Stderr := "", ExitCode := 0 }).2 (by decide)).trans
    (by decide)⟩

/-! ## The wrangler adapter -/

/-- C7: Wrangler runs exactly one process and returns its outcome: the
program "wrangler" with the argument list of the caller when
Which("wrangler") succeeds, and the program "npx" with "wrangler" followed by
the arguments of the caller only when Which("wrangler") fails; the arguments
are passed as a list, unchanged and in order, and the npx form is not run
when the direct binary is resolvable. -/
theorem Wrangler_prefers_direct_binary (sys : Sys) (args : List String) :
    ((Wrangler sys args).spawned.length = 1) ∧
    ((Which sys "wrangler").2 = true →
      Wrangler sys args = Run sys "wrangler" args ∧
      (Wrangler sys args).spawned =
        [{ ctx := some DefaultTimeout, name := "wrangler", args := args }] ∧
      (Wrangler sys args).val = (RunContext sys (some DefaultTimeout) "wrangler" args).val) ∧
    ((Which sys "wrangler").2 = false →
      Wrangler sys args = Run sys "npx" ("wrangler" :: args) ∧
      (Wrangler sys args).spawned =
        [{ ctx := some DefaultTimeout, name := "npx", args := "wrangler" :: args }] ∧
      (Wrangler sys args).val =
        (RunContext sys (some DefaultTimeout) "npx" ("wrangler" :: args)).val) ∧
    ((∃ inv ∈ (Wrangler sys args).spawned, inv.name = "npx") ↔
      (Which sys "wrangler").2 = false) ∧
    ((Which sys "wrangler").2 = true ↔ ∃ path, sys.LookPath "wrangler" = some path) := by
  have hw : (Which sys "wrangler").2 = true ↔ ∃ path, sys.LookPath "wrangler" = some path := by
    simp only [Which]
    cases sys.LookPath "wrangler" <;> simp
  by_cases h : (Which sys "wrangler").2 = true
  · refine ⟨?_, ?_, ?_, ?_, hw⟩
    · simp [Wrangler, h, Run, RunWithTimeout, RunContext]
    · intro _
      simp [Wrangler, h, Run, RunWithTimeout, RunContext, WithTimeout, Background]
    · intro h2
      rw [h] at h2
      exact absurd h2 (by decide)
    · simp [Wrangler, h, Run, RunWithTimeout, RunContext]
  · have hf : (Which sys "wrangler").2 = false := by simpa using h
    refine ⟨?_, ?_, ?_, ?_, hw⟩
    · simp [Wrangler, hf, Run, RunWithTimeout, RunContext]
    · intro h2
      exact absurd h2 h
    · intro _
      simp [Wrangler, hf, Run, RunWithTimeout, RunContext, WithTimeout, Background]
    · simp [Wrangler, hf, Run, RunWithTimeout, RunContext]

/-- C7, at concrete inputs: with `wrangler` on the path the one process is
`wrangler deploy`; with only `npx` on the path it is `npx wrangler deploy`,
and the call succeeds through the fallback. -/
theorem Wrangler_prefers_direct_binary_witness :
    (Wrangler sysDirect ["deploy"]).spawned =
        [{ ctx := some DefaultTimeout, name := "wrangler", args := ["deploy"] }] ∧
      (Wrangler sysNpxOnly ["deploy"]).spawned =
        [{ ctx := some DefaultTimeout, name := "npx", args := ["wrangler", "deploy"] }] ∧
      (Wrangler sysNpxOnly ["deploy"]).val =
        ({ Stdout := "deployed\n", Stderr := "", ExitCode := 0 }, none) :=
  ⟨((Wrangler_prefers_direct_binary sysDirect ["deploy"]).2.1 (by decide)).2.1,
   ((Wrangler_prefers_direct_binary sysNpxOnly ["deploy"]).2.2.1 (by decide)).2.1,
   (((Wrangler_prefers_direct_binary sysNpxOnly ["deploy"]).2.2.1 (by decide)).2.2).trans
     (by decide)⟩

/-- C8, as the claim states it, fails: with `wrangler` on the path, the first
and only invocation of Wrangler is the direct binary, not the npx form. -/
theorem Wrangler_does_not_try_npx_first :
    (Which sysDirect "wrangler").2 = true ∧
      (Wrangler sysDirect ["deploy"]).spawned.head? =
        some { ctx := some DefaultTimeout, name := "wrangler", args := ["deploy"] } ∧
      (Wrangler sysDirect ["deploy"]).spawned.head? ≠
        some { ctx := some DefaultTimeout, name := "npx", args := ["wrangler", "deploy"] } := by
  decide

/-- C8, amended: Wrangler tries the direct `wrangler` binary first and falls
back to `npx wrangler`: for every argument list, the first invocation is the
direct binary whenever Which("wrangler") succeeds, and it is the npx form
only when Which("wrangler") fails. -/
theorem Wrangler_tries_direct_first (sys : Sys) (args : List String) :
    ((Which sys "wrangler").2 = true →
      (Wrangler sys args).spawned.head? =
        some { ctx := some DefaultTimeout, name := "wrangler", args := args }) ∧
    ((Wrangler sys args).spawned.head? =
        some { ctx := some DefaultTimeout, name := "npx", args := "wrangler" :: args } →
      (Which sys "wrangler").2 = false) ∧
    ((Which sys "wrangler").2 = false →
      (Wrangler sys args).spawned.head? =
        some { ctx := some DefaultTimeout, name := "npx", args := "wrangler" :: args }) := by
  by_cases h : (Which sys "wrangler").2 = true
  · refine ⟨?_, ?_, ?_⟩
    · intro _
      simp [Wrangler, h, Run, RunWithTimeout, RunContext, WithTimeout, Background]
    · intro h2
      simp [Wrangler, h, Run, RunWithTimeout, RunContext, WithTimeout, Background] at h2
    · intro h2
      rw [h] at h2
      exact absurd h2 (by decide)
  · have hf : (Which sys "wrangler").2 = false := by simpa using h
    refine ⟨fun h2 => absurd h2 h, fun _ => hf, ?_⟩
    intro _
    simp [Wrangler, hf, Run, RunWithTimeout, RunContext, WithTimeout, Background]

/-- C8, amended, at concrete inputs: the direct binary when it is on the
path, the npx form when it is not. -/
theorem Wrangler_tries_direct_first_witness :
    (Wrangler sysDirect ["whoami"]).spawned.head? =
        some { ctx := some DefaultTimeout, name := "wrangler", args := ["whoami"] } ∧
      (Wrangler sysNpxOnly ["whoami"]).spawned.head? =
        some { ctx := some DefaultTimeout, name := "npx", args := ["wrangler", "whoami"] } :=
  ⟨(Wrangler_tries_direct_first sysDirect ["whoami"]).1 (by decide),
   (Wrangler_tries_direct_first sysNpxOnly ["whoami"]).2.2 (by decide)⟩

/-- What WranglerOutput returns for a given return value of Wrangler. -/
theorem WranglerOutput_val (sys : Sys) (args : List String) :
    (WranglerOutput sys args).val =
      match (Wrangler sys args).val with
      | (_, some err) => ("", some err)
      | (result, none) =>
        if result.ExitCode = 0 then (result.Stdout, none)
        else ("", some (.leaf ("wrangler: " ++ result.Stderr))) := by
  simp only [WranglerOutput, Result.OK]
  rcases (Wrangler sys args).val with ⟨result, _ | err⟩
  · by_cases h : result.ExitCode = 0 <;> simp [h]
  · rfl

/-- What RunContext returns for each outcome of the process. -/
theorem RunContext_val (sys : Sys) (ctx : Context) (name : String) (args : List String) :
    (RunContext sys ctx name args).val =
      match sys.spawn ctx name args with
      | .failed e out err =>
        ({ Stdout := out, Stderr := err, ExitCode := 0 },
          some (.wrap ("failed to execute " ++ name ++ ": " ++ e.Error) e))
      | .exited code out err => ({ Stdout := out, Stderr := err, ExitCode := code }, none)
      | .killed out err => ({ Stdout := out, Stderr := err, ExitCode := -1 }, none) := by
  cases h : sys.spawn ctx name args with
  | failed e out err => simp [RunContext, execRun, h]
  | exited code out err =>
    by_cases hc : code = 0
    · simp [RunContext, execRun, h, hc]
    · simp [RunContext, execRun, h, hc]
  | killed out err => simp [RunContext, execRun, h]

/-- C9: WranglerOutput returns (Stdout, nil) if and only if the process it
ran started and exited with code 0 (OK holds iff ExitCode == 0); when the
process ends with another code it returns the empty string and an error
whose message is "wrangler: " followed by the captured Stderr; when Wrangler
returns an error, that error is returned unchanged with empty output. -/
theorem WranglerOutput_ok_iff_exit_zero (sys : Sys) (args : List String) :
    (∀ r : Result, r.OK = true ↔ r.ExitCode = 0) ∧
    (∀ result err, (Wrangler sys args).val = (result, some err) →
      (WranglerOutput sys args).val = ("", some err)) ∧
    (∀ result, (Wrangler sys args).val = (result, none) → result.ExitCode ≠ 0 →
      (WranglerOutput sys args).val = ("", some (.leaf ("wrangler: " ++ result.Stderr))) ∧
      ((GoError.leaf ("wrangler: " ++ result.Stderr)).Error = "wrangler: " ++ result.Stderr)) ∧
    (∀ result, (Wrangler sys args).val = (result, none) → result.ExitCode = 0 →
      (WranglerOutput sys args).val = (result.Stdout, none)) ∧
    ((WranglerOutput sys args).val.2 = none ↔
      ∃ result, (Wrangler sys args).val = (result, none) ∧ result.ExitCode = 0) ∧
    (∀ inv ∈ (Wrangler sys args).spawned,
      ((WranglerOutput sys args).val.2 = none ↔
        ∃ out err, sys.spawn inv.ctx inv.name inv.args = .exited 0 out err) ∧
      (∀ out err, sys.spawn inv.ctx inv.name inv.args = .exited 0 out err →
        (WranglerOutput sys args).val = (out, none))) := by
  refine ⟨?_, ?_, ?_, ?_, ?_, ?_⟩
  · intro r
    simp [Result.OK]
  · intro result err h
    rw [WranglerOutput_val, h]
  · intro result h hne
    rw [WranglerOutput_val, h]
    simp [hne, GoError.Error]
  · intro result h h0
    rw [WranglerOutput_val, h]
    simp [h0]
  · rw [WranglerOutput_val]
    rcases (Wrangler sys args).val with ⟨result, _ | err⟩
    · by_cases h0 : result.ExitCode = 0 <;> simp [h0]
    · simp
  · intro inv hinv
    have key : ∀ name args1, inv = { ctx := some DefaultTimeout, name := name, args := args1 } →
        (Wrangler sys args).val = (RunContext sys (some DefaultTimeout) name args1).val →
        ((WranglerOutput sys args).val.2 = none ↔
          ∃ out err, sys.spawn inv.ctx inv.name inv.args = .exited 0 out err) ∧
        (∀ out err, sys.spawn inv.ctx inv.name inv.args = .exited 0 out err →
          (WranglerOutput sys args).val = (out, none)) := by
      intro name args1 hi hv
      subst hi
      rw [WranglerOutput_val, hv, RunContext_val]
      cases h : sys.spawn (some DefaultTimeout) name args1 with
      | failed e out err => simp
      | exited code out err =>
        by_cases hc : code = 0
        · subst hc
          simp
        · have hc2 : ¬ ((code : Int) = 0) := by exact_mod_cast hc
          simp [hc, hc2]
      | killed out err => simp
    by_cases hw : (Which sys "wrangler").2 = true
    · have hs : (Wrangler sys args).spawned =
          [{ ctx := some DefaultTimeout, name := "wrangler", args := args }] := by
        simp [Wrangler, hw, Run, RunWithTimeout, RunContext, WithTimeout, Background]
      rw [hs] at hinv
      exact key "wrangler" args (by simpa using hinv)
        (by simp [Wrangler, hw, Run, RunWithTimeout, WithTimeout, Background])
    · have hf : (Which sys "wrangler").2 = false := by simpa using hw
      have hs : (Wrangler sys args).spawned =
          [{ ctx := some DefaultTimeout, name := "npx", args := "wrangler" :: args }] := by
        simp [Wrangler, hf, Run, RunWithTimeout, RunContext, WithTimeout, Background]
      rw [hs] at hinv
      exact key "npx" ("wrangler" :: args) (by simpa using hinv)
        (by simp [Wrangler, hf, Run, RunWithTimeout, WithTimeout, Background])

/-- C9, at concrete inputs: `wrangler deploy` exits with code 0 and its
output is returned; `wrangler whoami` exits with code 1 and the error is
"wrangler: not logged in"; without wrangler and with an npx that cannot run
it, the error of the runner is returned. -/
theorem WranglerOutput_ok_iff_exit_zero_witness :
    (WranglerOutput sysDirect ["deploy"]).val = ("deployed\n", none) ∧
      (WranglerOutput sysDirect ["whoami"]).val =
        ("", some (.leaf "wrangler: not logged in")) ∧
      (WranglerOutput sysNpxOnly ["whoami"]).val =
        ("", some (.wrap "failed to execute npx: exec: not found" (.leaf "exec: not found"))) :=
  ⟨(WranglerOutput_ok_iff_exit_zero sysDirect ["deploy"]).2.2.2.1
      { Stdout := "deployed\n", Stderr := "", ExitCode := 0 } (by decide) (by decide),
   ((WranglerOutput_ok_iff_exit_zero sysDirect ["whoami"]).2.2.1
      { Stdout := "", Stderr := "not logged in", ExitCode := 1 } (by decide) (by decide)).1,
   (WranglerOutput_ok_iff_exit_zero sysNpxOnly ["whoami"]).2.1
      { Stdout := "", Stderr := "", ExitCode := 0 }
      (.wrap "failed to execute npx: exec: not found" (.leaf "exec: not found")) (by decide)⟩

/-! ## The fan-out commands -/

theorem declared_singleWrites_from (vals : List sectionResult) (n : Nat) :
    (((vals.enumFrom n).map (fun iv => ([⟨iv.1, iv.2⟩] : List Write))).map
      (fun body => body.map Write.val)).flatten = vals := by
  induction vals generalizing n with
  | nil => rfl
  | cons v rest ih =>
    simp only [List.enumFrom_cons, List.map_cons, List.flatten_cons, List.map_nil]
    rw [ih (n + 1)]
    rfl

/-- The declared values of the fan-out with one assignment per goroutine. -/
theorem declared_declaredFanOut (vals : List sectionResult) :
    (declaredFanOut vals).declared = vals := by
  simp only [FanOut.declared, declaredFanOut, singleWrites, List.enum]
  exact declared_singleWrites_from vals 0

/-- The body of a goroutine of routesFiltered performs one assignment, to its
slot, on the error path and on the normal path. -/
theorem routesFilteredBody_single (W : World) (pattern : String) (slot : Nat)
    (title glob : String) :
    ∃ v, routesFilteredBody W pattern slot title glob = [⟨slot, v⟩] ∧ v.title = title ∧
      v.err = (W.FindFilesByGlob [glob]).2 := by
  simp only [routesFilteredBody]
  cases h : (W.FindFilesByGlob [glob]).2 with
  | none => exact ⟨_, rfl, rfl, rfl⟩
  | some e => exact ⟨_, rfl, rfl, rfl⟩

/-- Every fan-out of cf.go and domain.go has the shape of `declaredFanOut`:
goroutine `i` performs the one assignment `results[i] = v`, and the size of
the slice and the count of the WaitGroup are the number of goroutines. -/
theorem fanOut_shape (W : World) (cfg : Config) (arg : String)
    (fc : FanOut × (List Nat → Option Outcome)) (hfc : fc ∈ fanOutCommands W cfg arg) :
    fc.1 = declaredFanOut fc.1.declared := by
  simp only [fanOutCommands, List.mem_cons, List.mem_singleton, List.not_mem_nil,
    or_false] at hfc
  rcases hfc with h | h | h | h | h | h | h | h | h | h | h | h | h | h | h
  all_goals subst h
  case inr.inr.inr.inr.inr.inr.inl =>
    obtain ⟨v0, h0, -, -⟩ := routesFilteredBody_single W arg 0 "Page Routes" "**/+page.svelte"
    obtain ⟨v1, h1, -, -⟩ := routesFilteredBody_single W arg 1 "API Routes" "**/+server.ts"
    simp only [routesFilteredFanOut, h0, h1]
    rfl
  all_goals rfl

/-- Every command with a fan-out reads the schedule only through the join. -/
theorem command_of_wait (W : World) (cfg : Config) (arg : String)
    (fc : FanOut × (List Nat → Option Outcome)) (hfc : fc ∈ fanOutCommands W cfg arg)
    (s1 s2 : List Nat) (h : fc.1.Wait s1 = fc.1.Wait s2) : fc.2 s1 = fc.2 s2 := by
  simp only [fanOutCommands, List.mem_cons, List.mem_singleton, List.not_mem_nil,
    or_false] at hfc
  rcases hfc with h1 | h1 | h1 | h1 | h1 | h1 | h1 | h1 | h1 | h1 | h1 | h1 | h1 | h1 | h1
  all_goals subst h1
  all_goals simp only [] at h
  · simp only [cfOverview, h]
  · simp only [cfD1Full, h]
  · simp only [cfKVFull, h]
  · simp only [cfR2Full, h]
  · simp only [cfDOFull, h]
  · simp only [routesGuards, h]
  · simp only [routesFiltered, h]
  · simp only [routesOverview, h]
  · simp only [storeCmd, h]
  · simp only [storeCmd, h]
  · simp only [typeCmd, h]
  · simp only [typeCmd, h]
  · simp only [exportCmd, h]
  · simp only [exportCmd, h]
  · simp only [authCmd, h]

/-- Every command with a fan-out returns the error found by the error scan
over the joined results, when there is one; the only calls to the output
package made by then are section headers. -/
theorem command_returns_scan_error (W : World) (cfg : Config) (arg : String)
    (fc : FanOut × (List Nat → Option Outcome)) (hfc : fc ∈ fanOutCommands W cfg arg)
    (sched : List Nat) (results : List sectionResult) (e : GoError)
    (hw : fc.1.Wait sched = some results) (he : errorScan results = some e) :
    (fc.2 sched).map Outcome.err = some (some e) := by
  simp only [fanOutCommands, List.mem_cons, List.mem_singleton, List.not_mem_nil,
    or_false] at hfc
  rcases hfc with h1 | h1 | h1 | h1 | h1 | h1 | h1 | h1 | h1 | h1 | h1 | h1 | h1 | h1 | h1
  all_goals subst h1
  all_goals simp only [] at hw
  · simp only [cfOverview, hw, he, Option.map]
  · simp only [cfD1Full, hw, he, Option.map]
  · simp only [cfKVFull, hw, he, Option.map]
  · simp only [cfR2Full, hw, he, Option.map]
  · simp only [cfDOFull, hw, he, Option.map]
  · simp only [routesGuards, hw, he, Option.map]
  · simp only [routesFiltered, hw, he, Option.map]
  · simp only [routesOverview, hw, he, Option.map]
  · simp only [storeCmd, hw, he, Option.map]
  · simp only [storeCmd, hw, he, Option.map]
  · simp only [typeCmd, hw, he, Option.map]
  · simp only [typeCmd, hw, he, Option.map]
  · simp only [exportCmd, hw, he, Option.map]
  · simp only [exportCmd, hw, he, Option.map]
  · simp only [authCmd, hw, he, Option.map]

/-- Every command with a fan-out returns once the join has returned. -/
theorem command_returns (W : World) (cfg : Config) (arg : String)
    (fc : FanOut × (List Nat → Option Outcome)) (hfc : fc ∈ fanOutCommands W cfg arg)
    (sched : List Nat) (results : List sectionResult)
    (hw : fc.1.Wait sched = some results) : (fc.2 sched).isSome = true := by
  simp only [fanOutCommands, List.mem_cons, List.mem_singleton, List.not_mem_nil,
    or_false] at hfc
  rcases hfc with h1 | h1 | h1 | h1 | h1 | h1 | h1 | h1 | h1 | h1 | h1 | h1 | h1 | h1 | h1
  all_goals subst h1
  all_goals simp only [] at hw
  · simp only [cfOverview, hw]
    repeat' split
    all_goals rfl
  · simp only [cfD1Full, hw]
    repeat' split
    all_goals rfl
  · simp only [cfKVFull, hw]
    repeat' split
    all_goals rfl
  · simp only [cfR2Full, hw]
    repeat' split
    all_goals rfl
  · simp only [cfDOFull, hw]
    repeat' split
    all_goals rfl
  · simp only [routesGuards, hw]
    repeat' split
    all_goals rfl
  · simp only [routesFiltered, hw]
    repeat' split
    all_goals rfl
  · simp only [routesOverview, hw]
    repeat' split
    all_goals rfl
  · simp only [storeCmd, hw]
    repeat' split
    all_goals rfl
  · simp only [storeCmd, hw]
    repeat' split
    all_goals rfl
  · simp only [typeCmd, hw]
    repeat' split
    all_goals rfl
  · simp only [typeCmd, hw]
    repeat' split
    all_goals rfl
  · simp only [exportCmd, hw]
    repeat' split
    all_goals rfl
  · simp only [exportCmd, hw]
    repeat' split
    all_goals rfl
  · simp only [authCmd, hw]
    repeat' split
    all_goals rfl

/-- The join of every fan-out of cf.go and domain.go returns the declared
values in declared order under every valid schedule, and the state at the
join is the one of `exec_declaredFanOut`. -/
theorem exec_of_mem (W : World) (cfg : Config) (arg : String)
    (fc : FanOut × (List Nat → Option Outcome)) (hfc : fc ∈ fanOutCommands W cfg arg)
    (sched : List Nat) (hs : validSchedule fc.1.goroutines.length sched) :
    fc.1.exec sched =
        { results := fc.1.declared, counter := 0, written := sched, panicked := false } ∧
      fc.1.Wait sched = some fc.1.declared ∧
      fc.1.declared.length = fc.1.goroutines.length := by
  have hshape := fanOut_shape W cfg arg fc hfc
  have hlen : fc.1.declared.length = fc.1.goroutines.length := by
    have h1 : fc.1.goroutines = singleWrites fc.1.declared := by
      conv_lhs => rw [hshape]
      rfl
    rw [h1, length_singleWrites]
  have hs2 : validSchedule fc.1.declared.length sched := by
    rw [hlen]
    exact hs
  refine ⟨?_, ?_, hlen⟩
  · have h := exec_declaredFanOut fc.1.declared sched hs2
    rw [← hshape] at h
    exact h
  · have h := wait_declaredFanOut fc.1.declared sched hs2
    rw [← hshape] at h
    exact h

/-- In every fan-out of cf.go and domain.go, goroutine `i` performs exactly one
assignment, to slot `i`, of the `i`-th declared value. -/
theorem goroutine_of_mem (W : World) (cfg : Config) (arg : String)
    (fc : FanOut × (List Nat → Option Outcome)) (hfc : fc ∈ fanOutCommands W cfg arg)
    (i : Nat) (body : List Write) (hb : fc.1.goroutines[i]? = some body) :
    i < fc.1.declared.length ∧ ∃ v, body = [⟨i, v⟩] ∧ fc.1.declared[i]? = some v := by
  have hshape := fanOut_shape W cfg arg fc hfc
  have hgo : fc.1.goroutines = singleWrites fc.1.declared := by
    conv_lhs => rw [hshape]
    rfl
  rw [hgo] at hb
  have hi : i < fc.1.declared.length := by
    by_contra hcon
    have : (singleWrites fc.1.declared)[i]? = none := by
      apply List.getElem?_eq_none
      rw [length_singleWrites]
      omega
    rw [this] at hb
    exact absurd hb (by simp)
  rw [goroutine_singleWrites _ i hi] at hb
  exact ⟨hi, fc.1.declared[i], (Option.some.inj hb).symm, List.getElem?_eq_getElem hi⟩

theorem sectionTitles_append (a b : List OutCall) :
    sectionTitles (a ++ b) = sectionTitles a ++ sectionTitles b := by
  induction a with
  | nil => rfl
  | cons c rest ih => cases c <;> simp [sectionTitles, ih]

theorem sectionTitles_cfSectionText (r : sectionResult) :
    sectionTitles (cfSectionText r) = [r.title] := by
  simp only [cfSectionText]
  by_cases h1 : r.lines.length > 0
  · by_cases h2 : (TruncateResults r.lines 25).2 > 0
    · simp [h1, h2, sectionTitles]
    · simp [h1, h2, sectionTitles]
  · simp [h1, sectionTitles]

theorem sectionTitles_cfSections (results : List sectionResult) :
    sectionTitles (results.map cfSectionText).flatten = results.map (fun r => r.title) := by
  induction results with
  | nil => rfl
  | cons r rest ih =>
    simp only [List.map_cons, List.flatten_cons, sectionTitles_append,
      sectionTitles_cfSectionText, ih]
    rfl

/-- The error scan returns the wrapped error of the first element that has one. -/
theorem errorScan_first (rs : List sectionResult) (i : Nat) (r : sectionResult) (e : GoError)
    (hr : rs[i]? = some r) (he : r.err = some e)
    (hfirst : ∀ j, j < i → ∀ q, rs[j]? = some q → q.err = none) :
    errorScan rs = some (.wrap ("search failed in " ++ r.title ++ ": " ++ e.Error) e) := by
  induction rs generalizing i with
  | nil => simp at hr
  | cons q rest ih =>
    cases i with
    | zero =>
      simp only [List.getElem?_cons_zero, Option.some.injEq] at hr
      subst hr
      simp [errorScan, he]
    | succ k =>
      have hq : q.err = none := hfirst 0 (Nat.succ_pos k) q (by simp)
      simp only [errorScan, hq]
      apply ih k
      · simpa using hr
      · intro j hj p hp
        exact hfirst (j + 1) (Nat.succ_lt_succ hj) p (by simpa using hp)

/-- The error scan returns no error when no element has one. -/
theorem errorScan_none (rs : List sectionResult) (h : ∀ r ∈ rs, r.err = none) :
    errorScan rs = none := by
  induction rs with
  | nil => rfl
  | cons q rest ih =>
    have hq : q.err = none := h q (List.mem_cons_self _ _)
    simp only [errorScan, hq]
    exact ih (fun r hr => h r (List.mem_cons_of_mem _ hr))

/-- C1: in cfOverview and in every other fan-out of the same shape (those of
routesOverview and of the other commands of cf.go and domain.go), the results
read after the join do not depend on the order in which the probe tasks
complete: for every order in which the tasks write their slots, the slice
holds the title and outcome of the declared probes in declared order, and the
command does what it does when the tasks complete in declared order; the
sections of cfOverview are in the order D1 Databases, KV Namespaces,
R2 Buckets, Durable Objects, in the joined results and in the rendering. -/
theorem results_in_declared_order (W : World) (cfg : Config) (arg : String)
    (fc : FanOut × (List Nat → Option Outcome)) (hfc : fc ∈ fanOutCommands W cfg arg)
    (sched : List Nat) (hs : validSchedule fc.1.goroutines.length sched) :
    fc.1.Wait sched = some fc.1.declared ∧
    (∀ (i : Nat) (body : List Write), fc.1.goroutines[i]? = some body →
      ∃ v : sectionResult, body = [⟨i, v⟩] ∧
        ∀ results : List sectionResult, fc.1.Wait sched = some results →
          results[i]? = some v) ∧
    (fc.2 sched).isSome = true ∧
    fc.2 sched = fc.2 (List.range fc.1.goroutines.length) ∧
    (∀ sched4, validSchedule 4 sched4 →
      ((cfOverviewFanOut W).Wait sched4).map (fun results => results.map (fun r => r.title)) =
          some ["D1 Databases", "KV Namespaces", "R2 Buckets", "Durable Objects"] ∧
      cfOverview W cfg sched4 = cfOverview W cfg [0, 1, 2, 3] ∧
      (∀ o, cfOverview W cfg sched4 = some o → o.err = none → cfg.JSONMode = false →
        sectionTitles o.out =
          ["D1 Databases", "KV Namespaces", "R2 Buckets", "Durable Objects"]) ∧
      ((routesOverviewFanOut W).Wait sched4).map (fun results => results.map (fun r => r.title)) =
          some ["Page Routes", "API Routes", "Layouts", "Error Pages"] ∧
      routesOverview W cfg sched4 = routesOverview W cfg [0, 1, 2, 3]) := by
  have hmem0 : (cfOverviewFanOut W, cfOverview W cfg) ∈ fanOutCommands W cfg arg := by
    simp [fanOutCommands]
  have hmem7 : (routesOverviewFanOut W, routesOverview W cfg) ∈ fanOutCommands W cfg arg := by
    simp [fanOutCommands]
  have hid : ∀ n, validSchedule n (List.range n) := fun n => List.Perm.refl _
  refine ⟨(exec_of_mem W cfg arg fc hfc sched hs).2.1, ?_, ?_, ?_, ?_⟩
  · intro i body hb
    obtain ⟨-, v, hv, hd⟩ := goroutine_of_mem W cfg arg fc hfc i body hb
    refine ⟨v, hv, ?_⟩
    intro results hres
    rw [(exec_of_mem W cfg arg fc hfc sched hs).2.1] at hres
    rw [← Option.some.inj hres]
    exact hd
  · exact command_returns W cfg arg fc hfc sched _ (exec_of_mem W cfg arg fc hfc sched hs).2.1
  · apply command_of_wait W cfg arg fc hfc
    rw [(exec_of_mem W cfg arg fc hfc sched hs).2.1,
      (exec_of_mem W cfg arg fc hfc _ (hid _)).2.1]
  · intro sched4 h4
    have hw := (exec_of_mem W cfg arg _ hmem0 sched4 h4).2.1
    have hw0 := (exec_of_mem W cfg arg _ hmem0 [0, 1, 2, 3] (hid 4)).2.1
    have hr := (exec_of_mem W cfg arg _ hmem7 sched4 h4).2.1
    have hr0 := (exec_of_mem W cfg arg _ hmem7 [0, 1, 2, 3] (hid 4)).2.1
    simp only [] at hw hw0 hr hr0
    refine ⟨?_, ?_, ?_, ?_, ?_⟩
    · rw [hw]
      rfl
    · exact command_of_wait W cfg arg (cfOverviewFanOut W, cfOverview W cfg) hmem0
        sched4 [0, 1, 2, 3] (hw.trans hw0.symm)
    · intro o ho herr hmode
      simp only [cfOverview, hw, hmode] at ho
      cases hscan : errorScan (cfOverviewFanOut W).declared with
      | some e =>
        simp only [hscan, Option.some.injEq] at ho
        subst ho
        simp at herr
      | none =>
        simp only [hscan, Bool.false_eq_true, if_false, Option.some.injEq] at ho
        subst ho
        simp only [sectionTitles_append, sectionTitles_cfSections]
        rfl
    · rw [hr]
      rfl
    · exact command_of_wait W cfg arg (routesOverviewFanOut W, routesOverview W cfg) hmem7
        sched4 [0, 1, 2, 3] (hr.trans hr0.symm)

/-- C1, at a concrete input: the four probes of cfOverview complete in the
order KV, DO, R2, D1, and the results and the rendering are those of the
declared order. -/
theorem results_in_declared_order_witness :
    validSchedule 4 [1, 3, 2, 0] ∧
      (cfOverviewFanOut worldOK).Wait [1, 3, 2, 0] = some (cfOverviewFanOut worldOK).declared ∧
      cfOverview worldOK cfgText [1, 3, 2, 0] = cfOverview worldOK cfgText (List.range 4) :=
  ⟨by decide,
   (results_in_declared_order worldOK cfgText ""
      (cfOverviewFanOut worldOK, cfOverview worldOK cfgText) (by simp [fanOutCommands])
      [1, 3, 2, 0] (by decide)).1,
   (results_in_declared_order worldOK cfgText ""
      (cfOverviewFanOut worldOK, cfOverview worldOK cfgText) (by simp [fanOutCommands])
      [1, 3, 2, 0] (by decide)).2.2.2.1⟩

/-- When some element has an error there is a first one. -/
theorem exists_first_error (rs : List sectionResult) (h : ∃ r ∈ rs, r.err ≠ none) :
    ∃ (i : Nat) (r : sectionResult) (e : GoError), rs[i]? = some r ∧ r.err = some e ∧
      (∀ j, j < i → ∀ q : sectionResult, rs[j]? = some q → q.err = none) := by
  induction rs with
  | nil =>
    obtain ⟨r, hr, -⟩ := h
    simp at hr
  | cons q rest ih =>
    cases hq : q.err with
    | some e =>
      exact ⟨0, q, e, by simp, hq, fun j hj => absurd hj (Nat.not_lt_zero j)⟩
    | none =>
      obtain ⟨r, hr, hne⟩ := h
      have hrest : ∃ r ∈ rest, r.err ≠ none := by
        rcases List.mem_cons.1 hr with h1 | h1
        · subst h1
          exact absurd hq hne
        · exact ⟨r, h1, hne⟩
      obtain ⟨i, r1, e, h1, h2, h3⟩ := ih hrest
      refine ⟨i + 1, r1, e, by simpa using h1, h2, ?_⟩
      intro j hj p hp
      cases j with
      | zero =>
        simp only [List.getElem?_cons_zero, Option.some.injEq] at hp
        subst hp
        exact hq
      | succ k => exact h3 k (Nat.lt_of_succ_lt_succ hj) p (by simpa using hp)

/-- C2: for every fan-out command of cf.go and domain.go, every outcome of
its probes and every completion order: if the probe at declared index i has
an error and no probe before it has one, the command returns the error whose
message is "search failed in " + title_i + ": " + message(err_i) and which
wraps err_i; if at least one probe has an error there is such a first index;
if no probe has an error, the error scan over the joined results returns no
error. -/
theorem first_failed_probe_reported (W : World) (cfg : Config) (arg : String)
    (fc : FanOut × (List Nat → Option Outcome)) (hfc : fc ∈ fanOutCommands W cfg arg)
    (sched : List Nat) (hs : validSchedule fc.1.goroutines.length sched) :
    (∀ (i : Nat) (r : sectionResult) (e : GoError), fc.1.declared[i]? = some r → r.err = some e →
      (∀ j, j < i → ∀ q : sectionResult, fc.1.declared[j]? = some q → q.err = none) →
      (fc.2 sched).map Outcome.err =
          some (some (.wrap ("search failed in " ++ r.title ++ ": " ++ e.Error) e)) ∧
        (GoError.wrap ("search failed in " ++ r.title ++ ": " ++ e.Error) e).Error =
          "search failed in " ++ r.title ++ ": " ++ e.Error) ∧
    ((∃ r ∈ fc.1.declared, r.err ≠ none) →
      ∃ (i : Nat) (r : sectionResult) (e : GoError), fc.1.declared[i]? = some r ∧ r.err = some e ∧
        (∀ j, j < i → ∀ q : sectionResult, fc.1.declared[j]? = some q → q.err = none) ∧
        (fc.2 sched).map Outcome.err =
          some (some (.wrap ("search failed in " ++ r.title ++ ": " ++ e.Error) e))) ∧
    ((∀ r ∈ fc.1.declared, r.err = none) →
      ∃ results, fc.1.Wait sched = some results ∧ errorScan results = none) := by
  have hw := (exec_of_mem W cfg arg fc hfc sched hs).2.1
  have key : ∀ (i : Nat) (r : sectionResult) (e : GoError), fc.1.declared[i]? = some r → r.err = some e →
      (∀ j, j < i → ∀ q : sectionResult, fc.1.declared[j]? = some q → q.err = none) →
      (fc.2 sched).map Outcome.err =
        some (some (.wrap ("search failed in " ++ r.title ++ ": " ++ e.Error) e)) := by
    intro i r e hr he hfirst
    exact command_returns_scan_error W cfg arg fc hfc sched _ _ hw
      (errorScan_first _ i r e hr he hfirst)
  refine ⟨?_, ?_, ?_⟩
  · intro i r e hr he hfirst
    exact ⟨key i r e hr he hfirst, rfl⟩
  · intro h
    obtain ⟨i, r, e, h1, h2, h3⟩ := exists_first_error _ h
    exact ⟨i, r, e, h1, h2, h3, key i r e h1 h2 h3⟩
  · intro h
    exact ⟨_, hw, errorScan_none _ h⟩

/-- C2, at a concrete input: in cfOverview the KV probe (index 1) and the R2
probe (index 2) both fail with "rg: bad pattern" and the D1 probe succeeds;
the command returns the error of the KV probe, with its title and the text
of the cause. -/
theorem first_failed_probe_reported_witness :
    (cfOverview worldKVFails cfgText [2, 0, 3, 1]).map Outcome.err =
      some (some (.wrap "search failed in KV Namespaces: rg: bad pattern"
        (.leaf "rg: bad pattern"))) :=
  ((first_failed_probe_reported worldKVFails cfgText ""
      (cfOverviewFanOut worldKVFails, cfOverview worldKVFails cfgText)
      (by simp [fanOutCommands]) [2, 0, 3, 1] (by decide)).1
    1 ((cfOverviewFanOut worldKVFails).declared.getD 1 {}) (.leaf "rg: bad pattern")
    (by decide) (by decide)
    (by
      intro j hj q hq
      have hj0 : j = 0 := by omega
      subst hj0
      have hq0 : q = (cfOverviewFanOut worldKVFails).declared.getD 0 {} := by
        have h0 : (cfOverviewFanOut worldKVFails, cfOverview worldKVFails cfgText).1.declared[0]? =
            some ((cfOverviewFanOut worldKVFails).declared.getD 0 {}) := by decide
        rw [h0] at hq
        exact (Option.some.inj hq).symm
      subst hq0
      decide)).1.trans (by decide)

/-- C3: in every fan-out of cf.go and domain.go, the size of the pre-allocated
result slice equals the count of the WaitGroup and the number of launched
goroutines; goroutine i performs exactly one assignment, to slot i, an index
in range; and under every completion order every slot is written exactly
once and the counter is zero when the join returns the results to the error
scan, whatever the outcomes of the probes. -/
theorem every_slot_written_once (W : World) (cfg : Config) (arg : String)
    (fc : FanOut × (List Nat → Option Outcome)) (hfc : fc ∈ fanOutCommands W cfg arg)
    (sched : List Nat) (hs : validSchedule fc.1.goroutines.length sched) :
    fc.1.size = fc.1.add ∧ fc.1.add = fc.1.goroutines.length ∧
    (∀ (i : Nat) (body : List Write), fc.1.goroutines[i]? = some body →
      i < fc.1.size ∧ ∃ v : sectionResult, body = [⟨i, v⟩]) ∧
    (fc.1.exec sched).written = sched ∧
    (∀ i, i < fc.1.size → (fc.1.exec sched).written.count i = 1) ∧
    (∀ i, i ∈ (fc.1.exec sched).written → i < fc.1.size) ∧
    (fc.1.exec sched).panicked = false ∧
    (fc.1.exec sched).counter = 0 ∧
    (∃ results, fc.1.Wait sched = some results ∧ results.length = fc.1.size) := by
  have hshape := fanOut_shape W cfg arg fc hfc
  obtain ⟨hexec, hwait, hlen⟩ := exec_of_mem W cfg arg fc hfc sched hs
  have hsize : fc.1.size = fc.1.declared.length := by
    conv_lhs => rw [hshape]
    rfl
  have hadd : fc.1.add = fc.1.declared.length := by
    conv_lhs => rw [hshape]
    rfl
  have hmem : ∀ i, i ∈ sched ↔ i < fc.1.goroutines.length := fun i => by
    rw [List.Perm.mem_iff hs, List.mem_range]
  refine ⟨by rw [hsize, hadd], by rw [hadd, hlen], ?_, ?_, ?_, ?_, ?_, ?_, ?_⟩
  · intro i body hb
    obtain ⟨hi, v, hv, -⟩ := goroutine_of_mem W cfg arg fc hfc i body hb
    exact ⟨by rw [hsize]; exact hi, v, hv⟩
  · rw [hexec]
  · intro i hi
    rw [hexec]
    simp only []
    rw [List.Perm.count_eq hs]
    apply List.count_eq_one_of_mem (List.nodup_range _)
    rw [List.mem_range, ← hlen, ← hsize]
    exact hi
  · intro i hi
    rw [hexec] at hi
    rw [hsize, hlen]
    exact (hmem i).1 hi
  · rw [hexec]
  · rw [hexec]
  · exact ⟨_, hwait, hsize.symm⟩

/-- C3, at a concrete input: in routesFiltered both file searches fail, both
goroutines take their early-return path, and with the second completing
first the slots are written in the order 1, 0, each once, before the join
returns. -/
theorem every_slot_written_once_witness :
    ((routesFilteredFanOut worldFindFails "admin").exec [1, 0]).written = [1, 0] ∧
      ((routesFilteredFanOut worldFindFails "admin").exec [1, 0]).written.count 0 = 1 ∧
      ((routesFilteredFanOut worldFindFails "admin").exec [1, 0]).counter = 0 ∧
      (routesFilteredFanOut worldFindFails "admin").size = 2 :=
  ⟨(every_slot_written_once worldFindFails cfgText "admin"
      (routesFilteredFanOut worldFindFails "admin",
        routesFiltered worldFindFails cfgText "admin")
      (by simp [fanOutCommands]) [1, 0] (by decide)).2.2.2.1,
   (every_slot_written_once worldFindFails cfgText "admin"
      (routesFilteredFanOut worldFindFails "admin",
        routesFiltered worldFindFails cfgText "admin")
      (by simp [fanOutCommands]) [1, 0] (by decide)).2.2.2.2.1 0 (by decide),
   (every_slot_written_once worldFindFails cfgText "admin"
      (routesFilteredFanOut worldFindFails "admin",
        routesFiltered worldFindFails cfgText "admin")
      (by simp [fanOutCommands]) [1, 0] (by decide)).2.2.2.2.2.2.2.1,
   by decide⟩

/-! ## The filtered commands of cf.go -/

/-- A text with something before and after two copies of `p` is not `p`. -/
theorem wrapped_ne (a b c p : String) (ha : 0 < a.length) : a ++ p ++ b ++ p ++ c ≠ p := by
  intro h
  have hl := congrArg String.length h
  simp only [String.length_append] at hl
  omega

theorem d1Pattern_ne (p : String) : d1Pattern p ≠ p :=
  wrapped_ne _ _ _ p (by decide)

theorem kvPattern_ne (p : String) : kvPattern p ≠ p :=
  wrapped_ne _ _ _ p (by decide)

theorem r2Pattern_ne (p : String) : r2Pattern p ≠ p :=
  wrapped_ne _ _ _ p (by decide)

theorem doPattern_ne (p : String) : doPattern p ≠ p :=
  wrapped_ne _ _ _ p (by decide)

/-- In structured mode the document of a filtered command carries the result
lines under "results" and their number under "count". -/
theorem filtered_render_json (W : World) (cfg : Config) (pattern : String)
    (fs : FilteredCommand) (hfs : fs ∈ filteredCommands W cfg pattern)
    (hj : cfg.JSONMode = true) (lines : List String) :
    ∃ data, fs.render lines = [.PrintJSON data] ∧
      ("results", .leaf (.strings lines)) ∈ data ∧
      ("count", .leaf (.int lines.length)) ∈ data := by
  simp only [filteredCommands, List.mem_cons, List.mem_singleton, List.not_mem_nil,
    or_false] at hfs
  rcases hfs with h | h | h | h
  · subst h
    simp only [cfD1FilteredRender, hj, if_true]
    exact ⟨_, rfl, by simp, by simp⟩
  · subst h
    simp only [cfKVFilteredRender, hj, if_true]
    exact ⟨_, rfl, by simp, by simp⟩
  · subst h
    simp only [cfR2FilteredRender, hj, if_true]
    exact ⟨_, rfl, by simp, by simp⟩
  · subst h
    simp only [cfDOFilteredRender, hj, if_true]
    exact ⟨_, rfl, by simp, by simp⟩

/-- The searches, the error and the output of a filtered command, by the
outcome of its composite search and of its token-only search. -/
theorem filtered_search_facts (W : World) (cfg : Config) (pattern : String)
    (fs : FilteredCommand) (hfs : fs ∈ filteredCommands W cfg pattern) :
    fs.run.searches.head? = some ⟨fs.composite, fs.glob⟩ ∧
    (⟨pattern, fs.glob⟩ ∈ fs.run.searches ↔ (W.RunRg fs.composite fs.glob).2 ≠ none) ∧
    fs.run.searches.count ⟨pattern, fs.glob⟩ ≤ 1 ∧
    ((W.RunRg fs.composite fs.glob).2 = none →
      fs.run.err = none ∧
      fs.run.out = fs.render (W.SplitLines (W.RunRg fs.composite fs.glob).1)) ∧
    ((W.RunRg fs.composite fs.glob).2 ≠ none → (W.RunRg pattern fs.glob).2 = none →
      fs.run.err = none ∧
      fs.run.out = fs.render (W.SplitLines (W.RunRg pattern fs.glob).1)) ∧
    (∀ e2, (W.RunRg fs.composite fs.glob).2 ≠ none → (W.RunRg pattern fs.glob).2 = some e2 →
      fs.run.err = some (.wrap (fs.label ++ " search failed: " ++ e2.Error) e2) ∧
      fs.run.out = []) := by
  simp only [filteredCommands, List.mem_cons, List.mem_singleton, List.not_mem_nil,
    or_false] at hfs
  rcases hfs with h | h | h | h
  · subst h
    have hne := d1Pattern_ne pattern
    have hne2 : pattern ≠ d1Pattern pattern := fun h => hne h.symm
    cases h1 : (W.RunRg (d1Pattern pattern)
        [SearchOption.WithGlob "*.{toml,ts,js,svelte,sql}"]).2 with
    | none =>
      simp [cfD1Filtered, h1, hne2, List.count_cons, cfD1FilteredRender]
    | some e1 =>
      cases h2 : (W.RunRg pattern [SearchOption.WithGlob "*.{toml,ts,js,svelte,sql}"]).2 with
      | none => simp [cfD1Filtered, h1, h2, hne2, List.count_cons, cfD1FilteredRender]
      | some e2 => simp [cfD1Filtered, h1, h2, hne2, List.count_cons, cfD1FilteredRender]
  · subst h
    have hne := kvPattern_ne pattern
    have hne2 : pattern ≠ kvPattern pattern := fun h => hne h.symm
    cases h1 : (W.RunRg (kvPattern pattern)
        [SearchOption.WithGlob "*.{toml,ts,js,svelte}"]).2 with
    | none =>
      simp [cfKVFiltered, h1, hne2, List.count_cons, cfKVFilteredRender]
    | some e1 =>
      cases h2 : (W.RunRg pattern [SearchOption.WithGlob "*.{toml,ts,js,svelte}"]).2 with
      | none => simp [cfKVFiltered, h1, h2, hne2, List.count_cons, cfKVFilteredRender]
      | some e2 => simp [cfKVFiltered, h1, h2, hne2, List.count_cons, cfKVFilteredRender]
  · subst h
    have hne := r2Pattern_ne pattern
    have hne2 : pattern ≠ r2Pattern pattern := fun h => hne h.symm
    cases h1 : (W.RunRg (r2Pattern pattern)
        [SearchOption.WithGlob "*.{toml,ts,js,svelte}"]).2 with
    | none =>
      simp [cfR2Filtered, h1, hne2, List.count_cons, cfR2FilteredRender]
    | some e1 =>
      cases h2 : (W.RunRg pattern [SearchOption.WithGlob "*.{toml,ts,js,svelte}"]).2 with
      | none => simp [cfR2Filtered, h1, h2, hne2, List.count_cons, cfR2FilteredRender]
      | some e2 => simp [cfR2Filtered, h1, h2, hne2, List.count_cons, cfR2FilteredRender]
  · subst h
    have hne := doPattern_ne pattern
    have hne2 : pattern ≠ doPattern pattern := fun h => hne h.symm
    cases h1 : (W.RunRg (doPattern pattern)
        [SearchOption.WithGlob "*.{toml,ts,js,svelte}"]).2 with
    | none =>
      simp [cfDOFiltered, h1, hne2, List.count_cons, cfDOFilteredRender]
    | some e1 =>
      cases h2 : (W.RunRg pattern [SearchOption.WithGlob "*.{toml,ts,js,svelte}"]).2 with
      | none => simp [cfDOFiltered, h1, h2, hne2, List.count_cons, cfDOFilteredRender]
      | some e2 => simp [cfDOFiltered, h1, h2, hne2, List.count_cons, cfDOFilteredRender]


/-- C10: in cfD1Filtered, cfKVFiltered, cfR2Filtered and cfDOFiltered, with
search.RunRg an arbitrary function: the first search is the composite one;
the token-only search with the same glob filter is invoked if and only if the
composite search returned an error, and at most once; if it succeeds, the
command does not fail and its result lines are SplitLines of the token-only
output; if it fails too, the command returns the error
"<D1|KV|R2|DO> search failed: " wrapping the error of the token-only search
and makes no output call. -/
theorem token_only_fallback (W : World) (cfg : Config) (pattern : String)
    (fs : FilteredCommand) (hfs : fs ∈ filteredCommands W cfg pattern) :
    fs.run.searches.head? = some ⟨fs.composite, fs.glob⟩ ∧
    (⟨pattern, fs.glob⟩ ∈ fs.run.searches ↔ (W.RunRg fs.composite fs.glob).2 ≠ none) ∧
    fs.run.searches.count ⟨pattern, fs.glob⟩ ≤ 1 ∧
    ((W.RunRg fs.composite fs.glob).2 = none →
      fs.run.err = none ∧
      fs.run.out = fs.render (W.SplitLines (W.RunRg fs.composite fs.glob).1)) ∧
    ((W.RunRg fs.composite fs.glob).2 ≠ none → (W.RunRg pattern fs.glob).2 = none →
      fs.run.err = none ∧
      fs.run.out = fs.render (W.SplitLines (W.RunRg pattern fs.glob).1)) ∧
    (∀ e2, (W.RunRg fs.composite fs.glob).2 ≠ none → (W.RunRg pattern fs.glob).2 = some e2 →
      fs.run.err = some (.wrap (fs.label ++ " search failed: " ++ e2.Error) e2) ∧
      fs.run.out = []) ∧
    (cfg.JSONMode = true → ∀ lines, ∃ data, fs.render lines = [.PrintJSON data] ∧
      ("results", .leaf (.strings lines)) ∈ data ∧
      ("count", .leaf (.int lines.length)) ∈ data) :=
  ⟨(filtered_search_facts W cfg pattern fs hfs).1,
   (filtered_search_facts W cfg pattern fs hfs).2.1,
   (filtered_search_facts W cfg pattern fs hfs).2.2.1,
   (filtered_search_facts W cfg pattern fs hfs).2.2.2.1,
   (filtered_search_facts W cfg pattern fs hfs).2.2.2.2.1,
   (filtered_search_facts W cfg pattern fs hfs).2.2.2.2.2,
   fun hj lines => filtered_render_json W cfg pattern fs hfs hj lines⟩

/-- C10, at concrete inputs: the tool rejects the composite pattern of
cfD1Filtered for the token `users` and accepts the token alone, and the
command succeeds with the one line of the token-only search; when the tool
fails on every call, cfDOFiltered returns "DO search failed: rg: not found"
and prints nothing. -/
theorem token_only_fallback_witness :
    ((cfD1Filtered worldNoParens cfgJSON "users").err = none ∧
        (cfD1Filtered worldNoParens cfgJSON "users").out =
          cfD1FilteredRender cfgJSON "users" ["src/a.ts:1:match"] ["src/a.ts:1:match"]) ∧
      ((cfDOFiltered worldRgDown cfgText "users").err =
          some (.wrap "DO search failed: rg: not found" (.leaf "rg: not found")) ∧
        (cfDOFiltered worldRgDown cfgText "users").out = []) :=
  ⟨(token_only_fallback worldNoParens cfgJSON "users"
      { composite := d1Pattern "users", glob := [.WithGlob "*.{toml,ts,js,svelte,sql}"],
        label := "D1", run := cfD1Filtered worldNoParens cfgJSON "users",
        render := fun lines => cfD1FilteredRender cfgJSON "users" lines
          (worldNoParens.SplitLines (worldNoParens.RunRg "users" [.WithGlob "*.sql"]).1) }
      (by simp [filteredCommands])).2.2.2.2.1 (by decide) (by decide),
   (token_only_fallback worldRgDown cfgText "users"
      { composite := doPattern "users", glob := [.WithGlob "*.{toml,ts,js,svelte}"],
        label := "DO", run := cfDOFiltered worldRgDown cfgText "users",
        render := fun lines => cfDOFilteredRender cfgText "users" lines
          (worldRgDown.SplitLines
            (worldRgDown.RunRg (classPattern "users") [.WithGlob "*.{ts,js}"]).1) }
      (by simp [filteredCommands])).2.2.2.2.2.1 (.leaf "rg: not found")
      (by decide) (by decide)⟩

/-! ## Structured mode and text mode of the cf commands -/

/-- An assignment `data[key] = v` with a key that the map does not have adds
an entry at the end. -/
theorem set_fresh (data : JSONMap) (key : String) (v : JSONValue)
    (h : key ∉ data.map Prod.fst) : data.set key v = data ++ [(key, v)] := by
  have hany : data.any (fun e => e.1 == key) = false := by
    rw [List.any_eq_false]
    intro e he hek
    apply h
    have : e.1 = key := by simpa using hek
    rw [← this]
    exact List.mem_map_of_mem _ he
  simp [JSONMap.set, hany]

/-- A loop of assignments with keys that are pairwise distinct and not in the
map adds one entry per assignment, in order. -/
theorem foldl_set_fresh (entries : List (String × JSONValue)) (data : JSONMap)
    (h : (data.map Prod.fst ++ entries.map Prod.fst).Nodup) :
    entries.foldl (fun d e => JSONMap.set d e.1 e.2) data = data ++ entries := by
  induction entries generalizing data with
  | nil => simp
  | cons e rest ih =>
    have hfresh : e.1 ∉ data.map Prod.fst := by
      intro hmem
      rw [List.nodup_append] at h
      exact h.2.2 hmem (by simp)
    simp only [List.foldl_cons]
    rw [set_fresh data e.1 e.2 hfresh, ih]
    · simp
    · simpa using h

/-- The structured-mode loop of the cf commands as a loop over entries. -/
theorem cfSectionsJSON_eq (command : String) (results : List sectionResult) :
    cfSectionsJSON command results =
      (results.map (fun r => (sectionKey r.title, cfSectionValue r))).foldl
        (fun d e => JSONMap.set d e.1 e.2) [("command", .leaf (.str command))] := by
  simp only [cfSectionsJSON, List.foldl_map, cfSectionValue]

/-- The structured-mode loop of the auth overview as a loop over entries. -/
theorem authJSON_eq (results : List sectionResult) :
    authJSON results =
      (results.map (fun r => (authKey r.title, JSONValue.leaf (.strings r.lines)))).foldl
        (fun d e => JSONMap.set d e.1 e.2) [("command", .leaf (.str "auth"))] := by
  simp only [authJSON, List.foldl_map, authKey]

/-- The structured-mode map of the cf commands when the keys are pairwise
distinct and none is "command": the entry "command" followed by one entry per
section, in order. -/
theorem cfSectionsJSON_fresh (command : String) (results : List sectionResult)
    (h : ("command" :: results.map (fun r => sectionKey r.title)).Nodup) :
    cfSectionsJSON command results =
      ("command", .leaf (.str command)) ::
        results.map (fun r => (sectionKey r.title, cfSectionValue r)) := by
  rw [cfSectionsJSON_eq, foldl_set_fresh]
  · rfl
  · simpa [List.map_map, Function.comp_def] using h

/-- The structured-mode map of the auth overview when the keys are pairwise
distinct and none is "command". -/
theorem authJSON_fresh (results : List sectionResult)
    (h : ("command" :: results.map (fun r => authKey r.title)).Nodup) :
    authJSON results =
      ("command", .leaf (.str "auth")) ::
        results.map (fun r => (authKey r.title, JSONValue.leaf (.strings r.lines))) := by
  rw [authJSON_eq, foldl_set_fresh]
  · rfl
  · simpa [List.map_map, Function.comp_def] using h

/-- What a command of `cfFullCommands` does under a valid schedule: the error
of the scan, or the structured document, or the major header followed by the
sections and by the tail. -/
theorem cfFull_run (W : World) (cfg : Config) (c : CfFull) (hc : c ∈ cfFullCommands W cfg)
    (sched : List Nat) (hs : validSchedule c.fan.goroutines.length sched) :
    c.run sched =
      some (match errorScan c.fan.declared with
        | some e => { out := [], err := some e }
        | none =>
          if cfg.JSONMode then
            { out := [.PrintJSON (cfSectionsJSON c.command c.fan.declared)], err := none }
          else
            { out := [.PrintMajorHeader c.header] ++
                (c.fan.declared.map cfSectionText).flatten ++ c.tail,
              err := none }) := by
  simp only [cfFullCommands, List.mem_cons, List.mem_singleton, List.not_mem_nil,
    or_false] at hc
  rcases hc with h | h | h | h | h
  · subst h
    have hw := (exec_of_mem W cfg "" (cfOverviewFanOut W, cfOverview W cfg)
      (by simp [fanOutCommands]) sched hs).2.1
    simp only [] at hw
    simp only [cfOverview, hw]
    cases errorScan (cfOverviewFanOut W).declared with
    | some e => rfl
    | none => cases cfg.JSONMode <;> simp
  · subst h
    have hw := (exec_of_mem W cfg "" (cfD1FullFanOut W, cfD1Full W cfg)
      (by simp [fanOutCommands]) sched hs).2.1
    simp only [] at hw
    simp only [cfD1Full, hw]
    cases errorScan (cfD1FullFanOut W).declared with
    | some e => rfl
    | none => cases cfg.JSONMode <;> simp
  · subst h
    have hw := (exec_of_mem W cfg "" (cfKVFullFanOut W, cfKVFull W cfg)
      (by simp [fanOutCommands]) sched hs).2.1
    simp only [] at hw
    simp only [cfKVFull, hw]
    cases errorScan (cfKVFullFanOut W).declared with
    | some e => rfl
    | none => cases cfg.JSONMode <;> simp
  · subst h
    have hw := (exec_of_mem W cfg "" (cfR2FullFanOut W, cfR2Full W cfg)
      (by simp [fanOutCommands]) sched hs).2.1
    simp only [] at hw
    simp only [cfR2Full, hw]
    cases errorScan (cfR2FullFanOut W).declared with
    | some e => rfl
    | none => cases cfg.JSONMode <;> simp
  · subst h
    have hw := (exec_of_mem W cfg "" (cfDOFullFanOut W, cfDOFull W cfg)
      (by simp [fanOutCommands]) sched hs).2.1
    simp only [] at hw
    simp only [cfDOFull, hw]
    cases errorScan (cfDOFullFanOut W).declared with
    | some e => rfl
    | none => cases cfg.JSONMode <;> simp

/-- The declared titles of the fan-outs whose structured mode derives its keys
from the titles. -/
theorem declared_titles (W : World) :
    (cfOverviewFanOut W).declared.map (fun r => r.title) =
        ["D1 Databases", "KV Namespaces", "R2 Buckets", "Durable Objects"] ∧
      (cfD1FullFanOut W).declared.map (fun r => r.title) =
        ["D1 Bindings", "Query Operations", "SQL Files", "Wrangler D1 Config"] ∧
      (cfKVFullFanOut W).declared.map (fun r => r.title) =
        ["KV Bindings", "KV Operations", "Wrangler KV Config"] ∧
      (cfR2FullFanOut W).declared.map (fun r => r.title) =
        ["R2 Bindings", "R2 Operations", "Wrangler R2 Config"] ∧
      (cfDOFullFanOut W).declared.map (fun r => r.title) =
        ["DO Class Definitions", "DO Files", "Stub Usage", "Wrangler DO Config"] ∧
      (authOverviewFanOut W).declared.map (fun r => r.title) =
        ["Auth Files", "Session Handling", "Token Operations", "Heartwood/GroveAuth"] :=
  ⟨rfl, rfl, rfl, rfl, rfl, rfl⟩

/-- The keys of a list of sections are the keys of its titles. -/
theorem keys_of_titles (key : String → String) (results : List sectionResult)
    (titles : List String) (h : results.map (fun r => r.title) = titles) :
    results.map (fun r => key r.title) = titles.map key := by
  rw [← h, List.map_map]
  rfl

/-- The keys of the six commands are pairwise distinct and none is "command". -/
theorem keys_fresh (W : World) (cfg : Config) (tk : TitleKeyed)
    (htk : tk ∈ titleKeyedCommands W cfg) :
    ("command" :: tk.fan.declared.map (fun r => tk.key r.title)).Nodup := by
  obtain ⟨h0, h1, h2, h3, h4, h5⟩ := declared_titles W
  simp only [titleKeyedCommands, cfFullCommands, List.map_cons, List.map_nil,
    List.cons_append, List.nil_append, List.mem_cons, List.mem_singleton, List.not_mem_nil,
    or_false] at htk
  rcases htk with h | h | h | h | h | h
  · subst h
    simp only []
    rw [keys_of_titles _ _ _ h0]
    decide
  · subst h
    simp only []
    rw [keys_of_titles _ _ _ h1]
    decide
  · subst h
    simp only []
    rw [keys_of_titles _ _ _ h2]
    decide
  · subst h
    simp only []
    rw [keys_of_titles _ _ _ h3]
    decide
  · subst h
    simp only []
    rw [keys_of_titles _ _ _ h4]
    decide
  · subst h
    simp only []
    rw [keys_of_titles _ _ _ h5]
    decide

/-- C13: for each command that derives its structured-mode keys from the
section titles (cfOverview, cfD1Full, cfKVFull, cfR2Full, cfDOFull and the
auth overview), the keys obtained by lower-casing each declared title and
replacing every space by `_` (and in auth every `/` by `_` as well) are
pairwise distinct and none of them is the reserved key "command"; so the
emitted map has the entry "command" and exactly one entry per declared probe,
and no assignment overwrites another. -/
theorem title_keys_distinct (W : World) (cfg : Config) (tk : TitleKeyed)
    (htk : tk ∈ titleKeyedCommands W cfg) :
    (tk.fan.declared.map (fun r => tk.key r.title)).Nodup ∧
    "command" ∉ tk.fan.declared.map (fun r => tk.key r.title) ∧
    (∀ t, tk.key t = ToLower (ReplaceAll t ' ' '_') ∨
      tk.key t = ReplaceAll (ToLower (ReplaceAll t ' ' '_')) '/' '_') ∧
    (∀ sched, validSchedule tk.fan.goroutines.length sched → cfg.JSONMode = true →
      errorScan tk.fan.declared = none →
      tk.run sched = some
        { out := tk.head ++ [.PrintJSON (("command", .leaf (.str tk.command)) ::
            tk.fan.declared.map (fun r => (tk.key r.title, tk.value r)))],
          err := none }) := by
  have hfresh := keys_fresh W cfg tk htk
  refine ⟨(List.nodup_cons.1 hfresh).2, (List.nodup_cons.1 hfresh).1, ?_, ?_⟩
  · simp only [titleKeyedCommands, List.mem_append, List.mem_map, List.mem_singleton] at htk
    rcases htk with ⟨c, -, h⟩ | h
    · subst h
      intro t
      exact Or.inl rfl
    · subst h
      intro t
      exact Or.inr rfl
  · intro sched hs hj hscan
    simp only [titleKeyedCommands, List.mem_append, List.mem_map, List.mem_singleton] at htk
    rcases htk with ⟨c, hc, h⟩ | h
    · subst h
      simp only [] at hs hscan hfresh ⊢
      rw [cfFull_run W cfg c hc sched hs, hscan]
      simp only [hj, if_true, List.nil_append]
      rw [cfSectionsJSON_fresh _ _ hfresh]
    · subst h
      simp only [] at hs hscan hfresh ⊢
      have hw := (exec_of_mem W cfg "" (authOverviewFanOut W, authCmd W cfg [])
        (by simp [fanOutCommands]) sched hs).2.1
      simp only [] at hw
      simp only [authCmd, hw, hscan, hj, if_true]
      rw [authJSON_fresh _ hfresh]

/-- C13, at a concrete input: cfDOFull in structured mode, the four probes
finding nothing; the document has the entry "command" and the four keys
derived from the titles. -/
theorem title_keys_distinct_witness :
    (cfDOFull worldOK cfgJSON [3, 1, 0, 2]).map (fun o => o.out) =
      some [.PrintJSON [
        ("command", .leaf (.str "cf do")),
        ("do_class_definitions", .map [("count", .int 0), ("results", .strings [])]),
        ("do_files", .map [("count", .int 0), ("results", .strings [])]),
        ("stub_usage", .map [("count", .int 0), ("results", .strings [])]),
        ("wrangler_do_config", .map [("count", .int 0), ("results", .strings [])])]] :=
  (congrArg (Option.map (fun o => o.out))
    ((title_keys_distinct worldOK cfgJSON
      { fan := cfDOFullFanOut worldOK, run := cfDOFull worldOK cfgJSON, head := [],
        command := "cf do", key := sectionKey, value := cfSectionValue }
      (by simp [titleKeyedCommands, cfFullCommands])).2.2.2 [3, 1, 0, 2]
      (by decide) (by decide) (by decide))).trans (by decide)

/-- The text of one section of the cf commands, by its number of lines: the
placeholder for no line; otherwise the first 25 lines, followed by the notice
when there are more than 25. -/
theorem cfSectionText_cases (r : sectionResult) :
    (r.lines.length = 0 →
      cfSectionText r = [.PrintSection r.title, .PrintNoResults (ToLower r.title)]) ∧
    (0 < r.lines.length → r.lines.length ≤ 25 →
      cfSectionText r =
        [.PrintSection r.title, .PrintRaw (Join (r.lines.take 25) "\n" ++ "\n")]) ∧
    (25 < r.lines.length →
      cfSectionText r =
        [.PrintSection r.title, .PrintRaw (Join (r.lines.take 25) "\n" ++ "\n"),
          .Printf "  ... and %d more" [.int (r.lines.length - 25 : Nat)]]) := by
  refine ⟨?_, ?_, ?_⟩
  · intro h
    simp [cfSectionText, h]
  · intro h1 h2
    have h3 : r.lines.length - 25 = 0 := by omega
    simp [cfSectionText, h1, TruncateResults, h3]
  · intro h
    have h1 : 0 < r.lines.length := by omega
    have h3 : 0 < r.lines.length - 25 := by omega
    simp [cfSectionText, h1, TruncateResults, h3]

/-- C14: with output.TruncateResults(lines, k) returning the first
min(k, len(lines)) lines in order together with max(0, len(lines) - k): for
every section of cfOverview with n lines, structured mode reports count = n
and results = all n lines in original order, while text mode shows the first
min(n, 25) lines with overflow max(0, n - 25); hence count = shown + overflow,
and overflow = 0 whenever n <= 25; a section of 42 lines gives 25 shown,
overflow 17, and in structured mode count 42 with all 42 lines. -/
theorem overview_counts (W : World) (cfg : Config) (sched : List Nat)
    (hs : validSchedule 4 sched) (hscan : errorScan (cfOverviewFanOut W).declared = none) :
    (cfg.JSONMode = true →
      cfOverview W cfg sched = some
        { out := [.PrintJSON (("command", .leaf (.str "cf")) ::
            (cfOverviewFanOut W).declared.map (fun r =>
              (sectionKey r.title,
                .map [("count", .int r.lines.length), ("results", .strings r.lines)])))],
          err := none }) ∧
    (cfg.JSONMode = false →
      cfOverview W cfg sched = some
        { out := [.PrintMajorHeader "Cloudflare Bindings Overview"] ++
            ((cfOverviewFanOut W).declared.map cfSectionText).flatten,
          err := none }) ∧
    (∀ r : sectionResult,
      (TruncateResults r.lines 25).1 = r.lines.take 25 ∧
      (TruncateResults r.lines 25).1.length = min r.lines.length 25 ∧
      (TruncateResults r.lines 25).2 = r.lines.length - 25 ∧
      (TruncateResults r.lines 25).1.length + (TruncateResults r.lines 25).2 = r.lines.length ∧
      (r.lines.length ≤ 25 → (TruncateResults r.lines 25).2 = 0) ∧
      (r.lines.length = 42 →
        (TruncateResults r.lines 25).1.length = 25 ∧ (TruncateResults r.lines 25).2 = 17) ∧
      (0 < r.lines.length → r.lines.length ≤ 25 →
        cfSectionText r =
          [.PrintSection r.title, .PrintRaw (Join (r.lines.take 25) "\n" ++ "\n")]) ∧
      (25 < r.lines.length →
        cfSectionText r =
          [.PrintSection r.title, .PrintRaw (Join (r.lines.take 25) "\n" ++ "\n"),
            .Printf "  ... and %d more" [.int (r.lines.length - 25 : Nat)]])) := by
  have hmem : (⟨cfOverviewFanOut W, cfOverview W cfg, "cf", "Cloudflare Bindings Overview",
      []⟩ : CfFull) ∈ cfFullCommands W cfg := List.mem_cons_self _ _
  have hrun := cfFull_run W cfg _ hmem sched hs
  simp only [hscan] at hrun
  have hfresh : ("command" ::
      (cfOverviewFanOut W).declared.map (fun r => sectionKey r.title)).Nodup := by
    rw [keys_of_titles _ _ _ (declared_titles W).1]
    decide
  refine ⟨?_, ?_, ?_⟩
  · intro hj
    rw [hrun]
    simp only [hj, if_true]
    rw [cfSectionsJSON_fresh _ _ hfresh]
    rfl
  · intro hj
    rw [hrun]
    simp [hj]
  · intro r
    refine ⟨rfl, ?_, rfl, ?_, ?_, ?_, (cfSectionText_cases r).2.1, (cfSectionText_cases r).2.2⟩
    · simp [TruncateResults, Nat.min_comm]
    · simp only [TruncateResults, List.length_take]
      omega
    · intro h
      simp only [TruncateResults]
      omega
    · intro h
      simp only [TruncateResults, List.length_take, h]
      decide

set_option maxRecDepth 100000 in
/-- C14, at a concrete input: the first section of cfOverview has 42 lines;
in text mode the fourth call is the notice with 17, after the major header,
the section header and the raw body. -/
theorem overview_counts_witness :
    ((cfOverviewFanOut world42).declared.getD 0 {}).lines.length = 42 ∧
      (cfOverview world42 cfgText [2, 0, 3, 1]).map (fun o => o.out.get? 3) =
        some (some (.Printf "  ... and %d more" [.int 17])) :=
  ⟨by decide,
   (congrArg (Option.map (fun o => o.out.get? 3))
      ((overview_counts world42 cfgText [2, 0, 3, 1] (by decide) (by decide)).2.1
        (by decide))).trans (by decide)⟩

/-- The summary block of cfDOFull is empty or is the section "Summary" with
one line of class names. -/
theorem doSummary_cases (classDefs : List String) :
    doSummary classDefs = [] ∨
      ∃ names, doSummary classDefs =
        [.PrintSection "Summary", .Printf "  DO classes: %s" [.str names]] := by
  simp only [doSummary]
  by_cases h1 : classDefs.length > 0
  · by_cases h2 : (classNames classDefs).length > 0
    · right
      exact ⟨Join (sortStrings (classNames classDefs)) ", ", by simp [h1, h2]⟩
    · left
      simp [h1, h2]
  · left
    simp [h1]

set_option maxRecDepth 100000 in
/-- C20, as the claim states it, fails: in text mode cfDOFull, with no failed
probe and a section of class definitions that yields the names `Alpha` and
`Zeta`, prints after the last section the section "Summary" with the line of
class names, so the output is not the major header followed by the sections
alone. -/
theorem summary_follows_sections :
    cfDOFull worldDO cfgText [0, 1, 2, 3] = some
      { out := [.PrintMajorHeader "Durable Objects Overview",
          .PrintSection "DO Class Definitions",
          .PrintRaw ("src/do/z.ts:3:export class Zeta extends DurableObject\n" ++
            "src/do/a.ts:1:export class Alpha extends DurableObject\n" ++
            "src/do/y.ts:9:class Zeta implements DurableObject\n" ++
            "src/do/n.ts:2:// implements DurableObject as a class\n"),
          .PrintSection "DO Files", .PrintNoResults "do files",
          .PrintSection "Stub Usage", .PrintNoResults "stub usage",
          .PrintSection "Wrangler DO Config", .PrintNoResults "wrangler do config",
          .PrintSection "Summary",
          .Printf "  DO classes: %s" [.str "Alpha, Zeta"]],
        err := none } ∧
      (cfDOFull worldDO cfgText [0, 1, 2, 3]).map (fun o => o.out) ≠
        some ([.PrintMajorHeader "Durable Objects Overview"] ++
          ((cfDOFullFanOut worldDO).declared.map cfSectionText).flatten) := by
  decide

/-- C20, amended: in text mode, for cfOverview, cfD1Full, cfKVFull, cfR2Full
and cfDOFull with no failed probe, the output is the major header followed,
for each section in declared order, by the section header and then exactly
one of: the placeholder PrintNoResults(lower-cased title) when the section
has zero lines (no raw body, no overflow notice), or the raw body of its
shown lines when it has at least one line, followed by the overflow notice
when it has more than 25; a probe with zero lines and no error renders the
placeholder, never a bare section.  In cfOverview, cfD1Full, cfKVFull and
cfR2Full nothing follows the sections; in cfDOFull they are followed by
nothing or by the section "Summary" with the one line of class names. -/
theorem cf_text_sections (W : World) (cfg : Config) (c : CfFull)
    (hc : c ∈ cfFullCommands W cfg) (sched : List Nat)
    (hs : validSchedule c.fan.goroutines.length sched)
    (hscan : errorScan c.fan.declared = none) (hj : cfg.JSONMode = false) :
    c.run sched = some
      { out := [.PrintMajorHeader c.header] ++
          (c.fan.declared.map cfSectionText).flatten ++ c.tail,
        err := none } ∧
    (c.command ≠ "cf do" → c.tail = []) ∧
    (c.tail = [] ∨
      ∃ names, c.tail = [.PrintSection "Summary", .Printf "  DO classes: %s" [.str names]]) ∧
    (∀ r : sectionResult,
      (r.lines.length = 0 →
        cfSectionText r = [.PrintSection r.title, .PrintNoResults (ToLower r.title)]) ∧
      (0 < r.lines.length → r.lines.length ≤ 25 →
        cfSectionText r =
          [.PrintSection r.title, .PrintRaw (Join (r.lines.take 25) "\n" ++ "\n")]) ∧
      (25 < r.lines.length →
        cfSectionText r =
          [.PrintSection r.title, .PrintRaw (Join (r.lines.take 25) "\n" ++ "\n"),
            .Printf "  ... and %d more" [.int (r.lines.length - 25 : Nat)]])) := by
  have hrun := cfFull_run W cfg c hc sched hs
  simp only [hscan, hj] at hrun
  refine ⟨by rw [hrun]; simp, ?_, ?_, cfSectionText_cases⟩
  · simp only [cfFullCommands, List.mem_cons, List.mem_singleton, List.not_mem_nil,
      or_false] at hc
    rcases hc with h | h | h | h | h
    all_goals subst h
    all_goals simp
  · simp only [cfFullCommands, List.mem_cons, List.mem_singleton, List.not_mem_nil,
      or_false] at hc
    rcases hc with h | h | h | h | h
    · subst h
      exact Or.inl rfl
    · subst h
      exact Or.inl rfl
    · subst h
      exact Or.inl rfl
    · subst h
      exact Or.inl rfl
    · subst h
      exact doSummary_cases _

set_option maxRecDepth 100000 in
/-- C20, amended, at a concrete input: cfOverview in text mode, the D1 probe
finding 42 lines and the other probes nothing: the major header, the D1
section with the raw body of its first 25 lines and the notice for the other
17, then for each other section its header and the placeholder. -/
theorem cf_text_sections_witness :
    cfOverview world42 cfgText [1, 3, 2, 0] = some
      { out := [.PrintMajorHeader "Cloudflare Bindings Overview",
          .PrintSection "D1 Databases",
          .PrintRaw (Join ((List.range 25).map
            (fun i => "src/a.ts:" ++ String.mk (Nat.toDigits 10 (i + 1)))) "\n" ++ "\n"),
          .Printf "  ... and %d more" [.int 17],
          .PrintSection "KV Namespaces", .PrintNoResults "kv namespaces",
          .PrintSection "R2 Buckets", .PrintNoResults "r2 buckets",
          .PrintSection "Durable Objects", .PrintNoResults "durable objects"],
        err := none } :=
  ((cf_text_sections world42 cfgText
      ⟨cfOverviewFanOut world42, cfOverview world42 cfgText, "cf",
        "Cloudflare Bindings Overview", []⟩
      (by simp [cfFullCommands]) [1, 3, 2, 0] (by decide) (by decide) (by decide)).1).trans
    (by decide)

/-! ## Fallback and discarded errors -/

/-- C11, as the claim states it, fails: the tool rejects the composite pattern
of the Svelte 4 Stores probe of `store users` and would accept the token
`users` alone with the same glob, and the command returns the error of the
composite search: the probe does not retry. -/
theorem store_probe_does_not_retry :
    (worldNoParens.RunRg (svelte4Pattern "users") [.WithGlob "*.{ts,js,svelte}"]).2 =
        some (.leaf "rg: regex parse error") ∧
      (worldNoParens.RunRg "users" [.WithGlob "*.{ts,js,svelte}"]).2 = none ∧
      (storeCmd worldNoParens cfgText ["users"] [0, 1]).map Outcome.err =
        some (some (.wrap "search failed in Svelte 4 Stores: rg: regex parse error"
          (.leaf "rg: regex parse error"))) := by
  decide

/-- C11, amended: the four filtered commands of cf.go retry once with the
token-only pattern when their composite search fails, before any error is
surfaced; the two probes of `store [name]` (Svelte 4 Stores and Svelte 5
Runes), whose patterns have the same either-order shape, make the composite
search only: its error is the error of the probe, and the command returns it
as "search failed in <title>: ..." whatever the token-only search would
give. -/
theorem fallback_only_in_filtered (W : World) (cfg : Config) (name : String)
    (sched : List Nat) (hs : validSchedule 2 sched) :
    (∀ fs ∈ filteredCommands W cfg name,
      (⟨name, fs.glob⟩ ∈ fs.run.searches ↔ (W.RunRg fs.composite fs.glob).2 ≠ none) ∧
      fs.run.searches.count ⟨name, fs.glob⟩ ≤ 1 ∧
      ((W.RunRg fs.composite fs.glob).2 ≠ none → (W.RunRg name fs.glob).2 = none →
        fs.run.err = none)) ∧
    (storeNamedFanOut W name).declared =
      [rgProbe W "Svelte 4 Stores" (svelte4Pattern name) [.WithGlob "*.{ts,js,svelte}"],
       rgProbe W "Svelte 5 Runes" (svelte5Pattern name) [.WithGlob "*.{ts,js,svelte}"]] ∧
    (∀ e, (W.RunRg (svelte4Pattern name) [.WithGlob "*.{ts,js,svelte}"]).2 = some e →
      (storeCmd W cfg [name] sched).map Outcome.err =
        some (some (.wrap ("search failed in Svelte 4 Stores: " ++ e.Error) e))) ∧
    (∀ e, (W.RunRg (svelte4Pattern name) [.WithGlob "*.{ts,js,svelte}"]).2 = none →
      (W.RunRg (svelte5Pattern name) [.WithGlob "*.{ts,js,svelte}"]).2 = some e →
      (storeCmd W cfg [name] sched).map Outcome.err =
        some (some (.wrap ("search failed in Svelte 5 Runes: " ++ e.Error) e))) := by
  have hmem : (storeNamedFanOut W name, storeCmd W cfg [name]) ∈ fanOutCommands W cfg name := by
    simp [fanOutCommands]
  have hw := (exec_of_mem W cfg name _ hmem sched hs).2.1
  have hd : (storeNamedFanOut W name).declared =
      [rgProbe W "Svelte 4 Stores" (svelte4Pattern name) [.WithGlob "*.{ts,js,svelte}"],
       rgProbe W "Svelte 5 Runes" (svelte5Pattern name) [.WithGlob "*.{ts,js,svelte}"]] := rfl
  simp only [] at hw
  rw [hd] at hw
  refine ⟨?_, hd, ?_, ?_⟩
  · intro fs hfs
    have h := filtered_search_facts W cfg name fs hfs
    exact ⟨h.2.1, h.2.2.1, fun h1 h2 => (h.2.2.2.2.1 h1 h2).1⟩
  · intro e he
    apply command_returns_scan_error W cfg name _ hmem sched _ _ hw
    simp [errorScan, rgProbe, he]
  · intro e h4 he
    apply command_returns_scan_error W cfg name _ hmem sched _ _ hw
    simp [errorScan, rgProbe, he, h4]

/-- C11, amended, at a concrete input: with a tool that fails on every call,
`store users` returns the error of the Svelte 4 Stores probe. -/
theorem fallback_only_in_filtered_witness :
    (storeCmd worldRgDown cfgJSON ["users"] [1, 0]).map Outcome.err =
      some (some (.wrap "search failed in Svelte 4 Stores: rg: not found"
        (.leaf "rg: not found"))) :=
  ((fallback_only_in_filtered worldRgDown cfgJSON "users" [1, 0] (by decide)).2.2.1
    (.leaf "rg: not found") (by decide)).trans (by decide)

set_option maxRecDepth 100000 in
/-- C12, as the claim states it, fails: for the token `orders` the
schema-reference search of cfD1Filtered and the class-definition search of
cfDOFiltered fail in one world and succeed without a match in the other, and
the commands do the same in both worlds, in text mode and in structured
mode. -/
theorem failed_auxiliary_search_is_conflated :
    ((worldAuxFails.RunRg "orders" [.WithGlob "*.sql"]).2 = some (.leaf "rg: exit status 2") ∧
        worldOK.RunRg "orders" [.WithGlob "*.sql"] = ("", none) ∧
        cfD1Filtered worldAuxFails cfgText "orders" = cfD1Filtered worldOK cfgText "orders" ∧
        cfD1Filtered worldAuxFails cfgJSON "orders" = cfD1Filtered worldOK cfgJSON "orders") ∧
      ((worldAuxFails.RunRg (classPattern "orders") [.WithGlob "*.{ts,js}"]).2 =
          some (.leaf "rg: exit status 2") ∧
        worldOK.RunRg (classPattern "orders") [.WithGlob "*.{ts,js}"] = ("", none) ∧
        cfDOFiltered worldAuxFails cfgText "orders" = cfDOFiltered worldOK cfgText "orders" ∧
        cfDOFiltered worldAuxFails cfgJSON "orders" = cfDOFiltered worldOK cfgJSON "orders") := by
  decide

/-- A list of one option with another glob is another list. -/
theorem glob_ne (a b : String) (h : a ≠ b) :
    [SearchOption.WithGlob a] ≠ [SearchOption.WithGlob b] := by
  intro hab
  apply h
  simpa using hab

/-- C12, amended: in cfD1Filtered and cfDOFiltered a failure of the main
search (the composite search and then the token-only search both failing) is
not conflated with "found nothing": the command returns an error and makes
no output call, and whenever it returns no error it makes an output call;
the error of the schema-reference search (cfD1Filtered) and of the
class-definition search (cfDOFiltered) is discarded, so a call that fails
leads to the same command outcome as a successful call with the same
output. -/
theorem auxiliary_search_error_discarded (W : World) (cfg : Config) (pattern : String)
    (e : Option GoError) :
    (((cfD1Filtered W cfg pattern).err ≠ none ↔
        ((W.RunRg (d1Pattern pattern) [.WithGlob "*.{toml,ts,js,svelte,sql}"]).2 ≠ none ∧
          (W.RunRg pattern [.WithGlob "*.{toml,ts,js,svelte,sql}"]).2 ≠ none)) ∧
      ((cfD1Filtered W cfg pattern).err ≠ none → (cfD1Filtered W cfg pattern).out = []) ∧
      ((cfD1Filtered W cfg pattern).err = none → (cfD1Filtered W cfg pattern).out ≠ []) ∧
      cfD1Filtered (W.withError ⟨pattern, [.WithGlob "*.sql"]⟩ e) cfg pattern =
        cfD1Filtered W cfg pattern) ∧
    (((cfDOFiltered W cfg pattern).err ≠ none ↔
        ((W.RunRg (doPattern pattern) [.WithGlob "*.{toml,ts,js,svelte}"]).2 ≠ none ∧
          (W.RunRg pattern [.WithGlob "*.{toml,ts,js,svelte}"]).2 ≠ none)) ∧
      ((cfDOFiltered W cfg pattern).err ≠ none → (cfDOFiltered W cfg pattern).out = []) ∧
      ((cfDOFiltered W cfg pattern).err = none → (cfDOFiltered W cfg pattern).out ≠ []) ∧
      cfDOFiltered (W.withError ⟨classPattern pattern, [.WithGlob "*.{ts,js}"]⟩ e) cfg pattern =
        cfDOFiltered W cfg pattern) := by
  have hg1 : [SearchOption.WithGlob "*.{toml,ts,js,svelte,sql}"] ≠ [SearchOption.WithGlob "*.sql"] :=
    glob_ne _ _ (by decide)
  have hg2 : [SearchOption.WithGlob "*.{toml,ts,js,svelte}"] ≠ [SearchOption.WithGlob "*.{ts,js}"] :=
    glob_ne _ _ (by decide)
  refine ⟨⟨?_, ?_, ?_, ?_⟩, ⟨?_, ?_, ?_, ?_⟩⟩
  · cases h1 : (W.RunRg (d1Pattern pattern) [.WithGlob "*.{toml,ts,js,svelte,sql}"]).2 with
    | none => simp [cfD1Filtered, h1]
    | some e1 =>
      cases h2 : (W.RunRg pattern [.WithGlob "*.{toml,ts,js,svelte,sql}"]).2 with
      | none => simp [cfD1Filtered, h1, h2]
      | some e2 => simp [cfD1Filtered, h1, h2]
  · cases h1 : (W.RunRg (d1Pattern pattern) [.WithGlob "*.{toml,ts,js,svelte,sql}"]).2 with
    | none => simp [cfD1Filtered, h1]
    | some e1 =>
      cases h2 : (W.RunRg pattern [.WithGlob "*.{toml,ts,js,svelte,sql}"]).2 with
      | none => simp [cfD1Filtered, h1, h2]
      | some e2 => simp [cfD1Filtered, h1, h2]
  · have hr : ∀ l s, cfD1FilteredRender cfg pattern l s ≠ [] := by
      intro l s
      simp only [cfD1FilteredRender]
      cases cfg.JSONMode <;> simp
    cases h1 : (W.RunRg (d1Pattern pattern) [.WithGlob "*.{toml,ts,js,svelte,sql}"]).2 with
    | none => simp [cfD1Filtered, h1, hr]
    | some e1 =>
      cases h2 : (W.RunRg pattern [.WithGlob "*.{toml,ts,js,svelte,sql}"]).2 with
      | none => simp [cfD1Filtered, h1, h2, hr]
      | some e2 => simp [cfD1Filtered, h1, h2]
  · simp [cfD1Filtered, World.withError, hg1]
  · cases h1 : (W.RunRg (doPattern pattern) [.WithGlob "*.{toml,ts,js,svelte}"]).2 with
    | none => simp [cfDOFiltered, h1]
    | some e1 =>
      cases h2 : (W.RunRg pattern [.WithGlob "*.{toml,ts,js,svelte}"]).2 with
      | none => simp [cfDOFiltered, h1, h2]
      | some e2 => simp [cfDOFiltered, h1, h2]
  · cases h1 : (W.RunRg (doPattern pattern) [.WithGlob "*.{toml,ts,js,svelte}"]).2 with
    | none => simp [cfDOFiltered, h1]
    | some e1 =>
      cases h2 : (W.RunRg pattern [.WithGlob "*.{toml,ts,js,svelte}"]).2 with
      | none => simp [cfDOFiltered, h1, h2]
      | some e2 => simp [cfDOFiltered, h1, h2]
  · have hr : ∀ l s, cfDOFilteredRender cfg pattern l s ≠ [] := by
      intro l s
      simp only [cfDOFilteredRender]
      cases cfg.JSONMode <;> simp
    cases h1 : (W.RunRg (doPattern pattern) [.WithGlob "*.{toml,ts,js,svelte}"]).2 with
    | none => simp [cfDOFiltered, h1, hr]
    | some e1 =>
      cases h2 : (W.RunRg pattern [.WithGlob "*.{toml,ts,js,svelte}"]).2 with
      | none => simp [cfDOFiltered, h1, h2, hr]
      | some e2 => simp [cfDOFiltered, h1, h2]
  · simp [cfDOFiltered, World.withError, hg2]

/-- C12, amended, at a concrete input: making the schema-reference search of
cfD1Filtered fail in a world where it succeeds changes nothing. -/
theorem auxiliary_search_error_discarded_witness :
    cfD1Filtered (worldOK.withError ⟨"users", [.WithGlob "*.sql"]⟩
        (some (.leaf "rg: exit status 2"))) cfgText "users" =
      cfD1Filtered worldOK cfgText "users" :=
  (auxiliary_search_error_discarded worldOK cfgText "users"
    (some (.leaf "rg: exit status 2"))).1.2.2.2

/-! ## The structured document of the fan-out commands -/

/-- What a command with fixed keys does in structured mode when no probe
failed: the section header printed first, then the document. -/
theorem fixedKey_run (W : World) (cfg : Config) (arg : String) (fk : FixedKeyed)
    (hfk : fk ∈ fixedKeyCommands W cfg arg) (sched : List Nat)
    (hs : validSchedule fk.fan.goroutines.length sched)
    (hscan : errorScan fk.fan.declared = none) (hj : cfg.JSONMode = true) :
    fk.run sched = some
      { out := fk.head ++ [.PrintJSON (fixedKeyDocument fk.fixed fk.keys fk.fan.declared)],
        err := none } := by
  simp only [fixedKeyCommands, List.mem_cons, List.mem_singleton, List.not_mem_nil,
    or_false] at hfk
  rcases hfk with h | h | h | h | h | h | h | h
  · subst h
    obtain ⟨v0, h0, -, -⟩ := routesFilteredBody_single W arg 0 "Page Routes" "**/+page.svelte"
    obtain ⟨v1, h1, -, -⟩ := routesFilteredBody_single W arg 1 "API Routes" "**/+server.ts"
    have hd : (routesFilteredFanOut W arg).declared = [v0, v1] := by
      simp only [routesFilteredFanOut, FanOut.declared, h0, h1]
      rfl
    have hw := (exec_of_mem W cfg arg (routesFilteredFanOut W arg, routesFiltered W cfg arg)
      (by simp [fanOutCommands]) sched hs).2.1
    simp only [] at hw hscan ⊢
    rw [hd] at hw hscan ⊢
    simp only [routesFiltered, hw, hscan, hj, if_true]
    rfl
  · subst h
    have hw := (exec_of_mem W cfg arg (routesOverviewFanOut W, routesOverview W cfg)
      (by simp [fanOutCommands]) sched hs).2.1
    simp only [] at hw hscan ⊢
    simp only [routesOverview, hw, hscan, hj, if_true]
    rfl
  · subst h
    have hw := (exec_of_mem W cfg arg (storeNamedFanOut W arg, storeCmd W cfg [arg])
      (by simp [fanOutCommands]) sched hs).2.1
    simp only [] at hw hscan ⊢
    simp only [storeCmd, hw, hscan, hj, if_true]
    rfl
  · subst h
    have hw := (exec_of_mem W cfg arg (storeOverviewFanOut W, storeCmd W cfg [])
      (by simp [fanOutCommands]) sched hs).2.1
    simp only [] at hw hscan ⊢
    simp only [storeCmd, hw, hscan, hj, if_true]
    rfl
  · subst h
    have hw := (exec_of_mem W cfg arg (typeNamedFanOut W arg, typeCmd W cfg [arg])
      (by simp [fanOutCommands]) sched hs).2.1
    simp only [] at hw hscan ⊢
    simp only [typeCmd, hw, hscan, hj, if_true]
    rfl
  · subst h
    have hw := (exec_of_mem W cfg arg (typeOverviewFanOut W, typeCmd W cfg [])
      (by simp [fanOutCommands]) sched hs).2.1
    simp only [] at hw hscan ⊢
    simp only [typeCmd, hw, hscan, hj, if_true]
    rfl
  · subst h
    have hw := (exec_of_mem W cfg arg (exportNamedFanOut W arg, exportCmd W cfg [arg])
      (by simp [fanOutCommands]) sched hs).2.1
    simp only [] at hw hscan ⊢
    simp only [exportCmd, hw, hscan, hj, if_true]
    rfl
  · subst h
    have hw := (exec_of_mem W cfg arg (exportOverviewFanOut W, exportCmd W cfg [])
      (by simp [fanOutCommands]) sched hs).2.1
    simp only [] at hw hscan ⊢
    simp only [exportCmd, hw, hscan, hj, if_true]
    rfl

set_option maxRecDepth 100000 in
/-- C15, as the claim states it, fails: in structured mode `store user` emits
the section "Svelte 4 Stores", whose derived key is "svelte_4_stores", under
the key "v4_stores", and the value is the list of lines itself, not an object
with a count. -/
theorem store_document_has_fixed_keys :
    sectionKey "Svelte 4 Stores" = "svelte_4_stores" ∧
      (storeCmd worldOneLine cfgJSON ["user"] [0, 1]).map (fun o => o.out) =
        some [.PrintSection "Svelte stores/state matching: user",
          .PrintJSON [
            ("command", .leaf (.str "store")),
            ("name", .leaf (.str "user")),
            ("v4_stores", .leaf (.strings
              ["src/stores/user.ts:3:export const user = writable(null)"])),
            ("v5_runes", .leaf (.strings
              ["src/stores/user.ts:3:export const user = writable(null)"]))]] := by
  decide

/-- C15, amended: in structured mode with no failed probe, the five cf
commands emit each section under the key derived from its title
(lower-cased, spaces replaced by `_`) with an object carrying the count of
its lines and the full line list; the auth overview emits each section under
the derived key (every `/` replaced by `_` as well) with the full line list
itself as value; routesFiltered, routesOverview, store, type and export emit
each section under a key written in the command with the full line list
itself as value; routesGuards emits the lines of its two sections under
"server_auth" and "auth_hooks".  No value is truncated. -/
theorem structured_documents (W : World) (cfg : Config) (arg : String)
    (hj : cfg.JSONMode = true) :
    (∀ c ∈ cfFullCommands W cfg, ∀ sched, validSchedule c.fan.goroutines.length sched →
      errorScan c.fan.declared = none →
      c.run sched = some
        { out := [.PrintJSON (("command", .leaf (.str c.command)) ::
            c.fan.declared.map (fun r =>
              (ToLower (ReplaceAll r.title ' ' '_'),
                .map [("count", .int r.lines.length), ("results", .strings r.lines)])))],
          err := none }) ∧
    (∀ sched, validSchedule 4 sched → errorScan (authOverviewFanOut W).declared = none →
      authCmd W cfg [] sched = some
        { out := [.PrintSection "Authentication Code",
            .PrintJSON (("command", .leaf (.str "auth")) ::
              (authOverviewFanOut W).declared.map (fun r =>
                (ReplaceAll (ToLower (ReplaceAll r.title ' ' '_')) '/' '_',
                  .leaf (.strings r.lines))))],
          err := none }) ∧
    (∀ fk ∈ fixedKeyCommands W cfg arg, ∀ sched,
      validSchedule fk.fan.goroutines.length sched → errorScan fk.fan.declared = none →
      fk.keys.length = fk.fan.declared.length ∧
      fk.run sched = some
        { out := fk.head ++ [.PrintJSON (fk.fixed ++
            (fk.keys.zip fk.fan.declared).map (fun kr => (kr.1, .leaf (.strings kr.2.lines))))],
          err := none }) ∧
    (∀ sched, validSchedule 2 sched → errorScan (routesGuardsFanOut W).declared = none →
      (W.FindFilesByGlob ["**/+page.server.ts"]).2 = none →
      routesGuards W cfg sched = some
        { out := [.PrintSection "Route Guards (Auth/Redirect)", .PrintJSON [
            ("command", .leaf (.str "routes")),
            ("mode", .leaf (.str "guards")),
            ("server_auth", .leaf (.strings
              (rgProbe W "Server Load Functions with Auth"
                r"(redirect|session|auth|locals\.user|locals\.session)"
                [.WithGlob "**/+page.server.ts", .WithGlob "**/+layout.server.ts"]).lines)),
            ("auth_hooks", .leaf (.strings
              (rgProbe W "Auth Hooks (hooks.server.ts)" r"(handle|auth|session|redirect)"
                [.WithGlob "**/hooks.server.ts"]).lines)),
            ("protected_routes", .leaf (.strings
              (protectedRoutes W cfg (W.FindFilesByGlob ["**/+page.server.ts"]).1)))]],
          err := none }) := by
  refine ⟨?_, ?_, ?_, ?_⟩
  · intro c hc sched hs hscan
    have htk : (⟨c.fan, c.run, [], c.command, sectionKey, cfSectionValue⟩ : TitleKeyed) ∈
        titleKeyedCommands W cfg :=
      List.mem_append_left _ (List.mem_map_of_mem _ hc)
    have hfresh := keys_fresh W cfg _ htk
    simp only [] at hfresh
    rw [cfFull_run W cfg c hc sched hs, hscan]
    simp only [hj, if_true]
    rw [cfSectionsJSON_fresh _ _ hfresh]
    rfl
  · intro sched hs hscan
    have htk : (⟨authOverviewFanOut W, authCmd W cfg [],
        [.PrintSection "Authentication Code"], "auth", authKey,
        fun r => .leaf (.strings r.lines)⟩ : TitleKeyed) ∈ titleKeyedCommands W cfg :=
      List.mem_append_right _ (List.mem_singleton_self _)
    have hfresh := keys_fresh W cfg _ htk
    simp only [] at hfresh
    have hw := (exec_of_mem W cfg "" (authOverviewFanOut W, authCmd W cfg [])
      (by simp [fanOutCommands]) sched hs).2.1
    simp only [] at hw
    simp only [authCmd, hw, hscan, hj, if_true]
    rw [authJSON_fresh _ hfresh]
    rfl
  · intro fk hfk sched hs hscan
    refine ⟨?_, fixedKey_run W cfg arg fk hfk sched hs hscan hj⟩
    have hlen : fk.fan.declared.length = fk.fan.goroutines.length := by
      simp only [fixedKeyCommands, List.mem_cons, List.mem_singleton, List.not_mem_nil,
        or_false] at hfk
      rcases hfk with h | h | h | h | h | h | h | h
      · subst h
        exact (exec_of_mem W cfg arg (routesFilteredFanOut W arg, routesFiltered W cfg arg)
          (by simp [fanOutCommands]) sched hs).2.2
      all_goals subst h
      all_goals rfl
    rw [hlen]
    simp only [fixedKeyCommands, List.mem_cons, List.mem_singleton, List.not_mem_nil,
      or_false] at hfk
    rcases hfk with h | h | h | h | h | h | h | h
    all_goals subst h
    all_goals rfl
  · intro sched hs hscan hfound
    have hw := (exec_of_mem W cfg "" (routesGuardsFanOut W, routesGuards W cfg)
      (by simp [fanOutCommands]) sched hs).2.1
    simp only [] at hw
    simp only [routesGuards, hw, hscan, hfound, hj, if_true]
    rfl

/-- C15, amended, at a concrete input: `type` without a name in structured
mode, every search printing one line. -/
theorem structured_documents_witness :
    (typeCmd worldOneLine cfgJSON [] [2, 0, 1]).map (fun o => o.out) =
      some [.PrintSection "TypeScript Types",
        .PrintJSON [
          ("command", .leaf (.str "type")),
          ("type_definitions", .leaf (.strings
            ["src/stores/user.ts:3:export const user = writable(null)"])),
          ("enums", .leaf (.strings
            ["src/stores/user.ts:3:export const user = writable(null)"])),
          ("type_files", .leaf (.strings ["src/stores/user.ts"]))]] :=
  (congrArg (Option.map (fun o => o.out))
    (((structured_documents worldOneLine cfgJSON "" (by decide)).2.2.1
      ⟨typeOverviewFanOut worldOneLine, typeCmd worldOneLine cfgJSON [],
        [.PrintSection "TypeScript Types"], [("command", .leaf (.str "type"))],
        ["type_definitions", "enums", "type_files"]⟩
      (by simp [fixedKeyCommands]) [2, 0, 1] (by decide) (by decide)).2)).trans (by decide)

/-! ## Output calls of every command -/

@[simp] theorem countJSON_nil : countJSON [] = 0 := rfl

@[simp] theorem countJSON_append (a b : List OutCall) :
    countJSON (a ++ b) = countJSON a + countJSON b := by
  induction a with
  | nil => simp
  | cons c rest ih =>
    cases c <;> simp [countJSON, ih]
    omega

theorem countJSON_ite (p : Prop) [Decidable p] (a b : List OutCall) :
    countJSON (if p then a else b) = if p then countJSON a else countJSON b := by
  split <;> rfl

theorem countJSON_flatten_map {α : Type} (f : α → List OutCall) (l : List α)
    (h : ∀ x, countJSON (f x) = 0) : countJSON (l.map f).flatten = 0 := by
  induction l with
  | nil => rfl
  | cons x rest ih => simp [h x, ih]

theorem countJSON_map {α : Type} (f : α → OutCall) (l : List α)
    (h : ∀ x, countJSON [f x] = 0) : countJSON (l.map f) = 0 := by
  induction l with
  | nil => rfl
  | cons x rest ih =>
    have hx := h x
    rw [List.map_cons]
    cases hfx : f x <;> simp [countJSON, ih, hfx] at hx ⊢

theorem countJSON_cfSectionText (r : sectionResult) : countJSON (cfSectionText r) = 0 := by
  simp only [cfSectionText]
  split <;> simp [countJSON, countJSON_ite]

theorem countJSON_filteredText (lines : List String) (what : String) :
    countJSON (filteredText lines what) = 0 := by
  simp only [filteredText]
  split <;> simp [countJSON, countJSON_ite]

theorem countJSON_doSummary (classDefs : List String) : countJSON (doSummary classDefs) = 0 := by
  simp only [doSummary]
  split
  · split <;> simp [countJSON]
  · rfl

theorem countJSON_routesOverviewSection (r : sectionResult) :
    countJSON (routesOverviewSection r) = 0 := by
  simp only [routesOverviewSection]
  split <;> simp [countJSON, countJSON_ite]

theorem countJSON_limitedSections (results : List sectionResult) (limits : List Nat) :
    countJSON (limitedSections results limits) = 0 := by
  simp only [limitedSections]
  apply countJSON_flatten_map
  intro x
  split <;> simp [countJSON, countJSON_ite]

theorem countJSON_limitedSectionsWithNotice (results : List sectionResult)
    (limits : List Nat) : countJSON (limitedSectionsWithNotice results limits) = 0 := by
  simp only [limitedSectionsWithNotice]
  apply countJSON_flatten_map
  intro x
  split <;> simp [countJSON, countJSON_ite]


theorem shaped_err (cfg : Config) (head : List OutCall) (e : GoError) (s : List RgCall) :
    Shaped cfg head { out := head, err := some e, searches := s } :=
  ⟨fun _ => rfl, fun h => absurd h (by simp), fun h => absurd h (by simp)⟩

theorem shaped_json (cfg : Config) (head : List OutCall) (d : JSONMap) (s : List RgCall)
    (hj : cfg.JSONMode = true) :
    Shaped cfg head { out := head ++ [.PrintJSON d], err := none, searches := s } :=
  ⟨fun h => absurd rfl h, fun _ _ => ⟨d, rfl⟩, fun _ h => absurd hj (by simp [h])⟩

theorem shaped_text (cfg : Config) (head t : List OutCall) (s : List RgCall)
    (hj : ¬ cfg.JSONMode = true) (ht : countJSON t = 0) :
    Shaped cfg head { out := head ++ t, err := none, searches := s } :=
  ⟨fun h => absurd rfl h, fun _ h => absurd h hj, fun _ _ => ⟨t, rfl, ht⟩⟩

theorem shaped_cfOverview (W : World) (cfg : Config) (sched : List Nat)
    (o : Outcome) (h : cfOverview W cfg sched = some o) :
    Shaped cfg [] o := by
  simp only [cfOverview] at h
  split at h
  · cases h
  · split at h
    · cases h
      exact shaped_err _ _ _ _
    · split at h
      · cases h
        exact shaped_json _ _ _ _ ‹_›
      · cases h
        refine shaped_text _ _ _ _ ‹_› ?_
        simp [countJSON, countJSON_ite, countJSON_cfSectionText, countJSON_filteredText, countJSON_doSummary, countJSON_routesOverviewSection, countJSON_limitedSections, countJSON_limitedSectionsWithNotice, countJSON_flatten_map]

theorem shaped_cfD1Full (W : World) (cfg : Config) (sched : List Nat)
    (o : Outcome) (h : cfD1Full W cfg sched = some o) :
    Shaped cfg [] o := by
  simp only [cfD1Full] at h
  split at h
  · cases h
  · split at h
    · cases h
      exact shaped_err _ _ _ _
    · split at h
      · cases h
        exact shaped_json _ _ _ _ ‹_›
      · cases h
        refine shaped_text _ _ _ _ ‹_› ?_
        simp [countJSON, countJSON_ite, countJSON_cfSectionText, countJSON_filteredText, countJSON_doSummary, countJSON_routesOverviewSection, countJSON_limitedSections, countJSON_limitedSectionsWithNotice, countJSON_flatten_map]

theorem shaped_cfKVFull (W : World) (cfg : Config) (sched : List Nat)
    (o : Outcome) (h : cfKVFull W cfg sched = some o) :
    Shaped cfg [] o := by
  simp only [cfKVFull] at h
  split at h
  · cases h
  · split at h
    · cases h
      exact shaped_err _ _ _ _
    · split at h
      · cases h
        exact shaped_json _ _ _ _ ‹_›
      · cases h
        refine shaped_text _ _ _ _ ‹_› ?_
        simp [countJSON, countJSON_ite, countJSON_cfSectionText, countJSON_filteredText, countJSON_doSummary, countJSON_routesOverviewSection, countJSON_limitedSections, countJSON_limitedSectionsWithNotice, countJSON_flatten_map]

theorem shaped_cfR2Full (W : World) (cfg : Config) (sched : List Nat)
    (o : Outcome) (h : cfR2Full W cfg sched = some o) :
    Shaped cfg [] o := by
  simp only [cfR2Full] at h
  split at h
  · cases h
  · split at h
    · cases h
      exact shaped_err _ _ _ _
    · split at h
      · cases h
        exact shaped_json _ _ _ _ ‹_›
      · cases h
        refine shaped_text _ _ _ _ ‹_› ?_
        simp [countJSON, countJSON_ite, countJSON_cfSectionText, countJSON_filteredText, countJSON_doSummary, countJSON_routesOverviewSection, countJSON_limitedSections, countJSON_limitedSectionsWithNotice, countJSON_flatten_map]

theorem shaped_cfDOFull (W : World) (cfg : Config) (sched : List Nat)
    (o : Outcome) (h : cfDOFull W cfg sched = some o) :
    Shaped cfg [] o := by
  simp only [cfDOFull] at h
  split at h
  · cases h
  · split at h
    · cases h
      exact shaped_err _ _ _ _
    · split at h
      · cases h
        exact shaped_json _ _ _ _ ‹_›
      · cases h
        refine shaped_text _ _ _ _ ‹_› ?_
        simp [countJSON, countJSON_ite, countJSON_cfSectionText, countJSON_filteredText, countJSON_doSummary, countJSON_routesOverviewSection, countJSON_limitedSections, countJSON_limitedSectionsWithNotice, countJSON_flatten_map]

theorem shaped_routesFiltered (W : World) (cfg : Config) (arg : String) (sched : List Nat)
    (o : Outcome) (h : routesFiltered W cfg arg sched = some o) :
    Shaped cfg [.PrintSection ("SvelteKit routes matching: " ++ arg)] o := by
  simp only [routesFiltered] at h
  split at h
  · cases h
  · split at h
    · cases h
      exact shaped_err _ _ _ _
    · split at h
      · cases h
        exact shaped_json _ _ _ _ ‹_›
      · cases h
        refine shaped_text _ _ _ _ ‹_› ?_
        simp [countJSON, countJSON_ite, countJSON_cfSectionText, countJSON_filteredText, countJSON_doSummary, countJSON_routesOverviewSection, countJSON_limitedSections, countJSON_limitedSectionsWithNotice, countJSON_flatten_map]

theorem shaped_routesOverview (W : World) (cfg : Config) (sched : List Nat)
    (o : Outcome) (h : routesOverview W cfg sched = some o) :
    Shaped cfg [.PrintSection "SvelteKit Routes"] o := by
  simp only [routesOverview] at h
  split at h
  · cases h
  · split at h
    · cases h
      exact shaped_err _ _ _ _
    · split at h
      · cases h
        exact shaped_json _ _ _ _ ‹_›
      · cases h
        refine shaped_text _ _ _ _ ‹_› ?_
        simp [countJSON, countJSON_ite, countJSON_cfSectionText, countJSON_filteredText, countJSON_doSummary, countJSON_routesOverviewSection, countJSON_limitedSections, countJSON_limitedSectionsWithNotice, countJSON_flatten_map]

theorem shaped_storeNamed (W : World) (cfg : Config) (arg : String) (sched : List Nat)
    (o : Outcome) (h : storeCmd W cfg [arg] sched = some o) :
    Shaped cfg [.PrintSection ("Svelte stores/state matching: " ++ arg)] o := by
  simp only [storeCmd] at h
  split at h
  · cases h
  · split at h
    · cases h
      exact shaped_err _ _ _ _
    · split at h
      · cases h
        exact shaped_json _ _ _ _ ‹_›
      · cases h
        refine shaped_text _ _ _ _ ‹_› ?_
        simp [countJSON, countJSON_ite, countJSON_cfSectionText, countJSON_filteredText, countJSON_doSummary, countJSON_routesOverviewSection, countJSON_limitedSections, countJSON_limitedSectionsWithNotice, countJSON_flatten_map]

theorem shaped_storeOverview (W : World) (cfg : Config) (sched : List Nat)
    (o : Outcome) (h : storeCmd W cfg [] sched = some o) :
    Shaped cfg [.PrintSection "Svelte Stores & Reactive State"] o := by
  simp only [storeCmd] at h
  split at h
  · cases h
  · split at h
    · cases h
      exact shaped_err _ _ _ _
    · split at h
      · cases h
        exact shaped_json _ _ _ _ ‹_›
      · cases h
        refine shaped_text _ _ _ _ ‹_› ?_
        simp [countJSON, countJSON_ite, countJSON_cfSectionText, countJSON_filteredText, countJSON_doSummary, countJSON_routesOverviewSection, countJSON_limitedSections, countJSON_limitedSectionsWithNotice, countJSON_flatten_map]

theorem shaped_typeNamed (W : World) (cfg : Config) (arg : String) (sched : List Nat)
    (o : Outcome) (h : typeCmd W cfg [arg] sched = some o) :
    Shaped cfg [.PrintSection ("Finding type: " ++ arg)] o := by
  simp only [typeCmd] at h
  split at h
  · cases h
  · split at h
    · cases h
      exact shaped_err _ _ _ _
    · split at h
      · cases h
        exact shaped_json _ _ _ _ ‹_›
      · cases h
        refine shaped_text _ _ _ _ ‹_› ?_
        simp [countJSON, countJSON_ite, countJSON_cfSectionText, countJSON_filteredText, countJSON_doSummary, countJSON_routesOverviewSection, countJSON_limitedSections, countJSON_limitedSectionsWithNotice, countJSON_flatten_map]

theorem shaped_typeOverview (W : World) (cfg : Config) (sched : List Nat)
    (o : Outcome) (h : typeCmd W cfg [] sched = some o) :
    Shaped cfg [.PrintSection "TypeScript Types"] o := by
  simp only [typeCmd] at h
  split at h
  · cases h
  · split at h
    · cases h
      exact shaped_err _ _ _ _
    · split at h
      · cases h
        exact shaped_json _ _ _ _ ‹_›
      · cases h
        refine shaped_text _ _ _ _ ‹_› ?_
        simp [countJSON, countJSON_ite, countJSON_cfSectionText, countJSON_filteredText, countJSON_doSummary, countJSON_routesOverviewSection, countJSON_limitedSections, countJSON_limitedSectionsWithNotice, countJSON_flatten_map]

theorem shaped_exportNamed (W : World) (cfg : Config) (arg : String) (sched : List Nat)
    (o : Outcome) (h : exportCmd W cfg [arg] sched = some o) :
    Shaped cfg [.PrintSection ("Exports matching: " ++ arg)] o := by
  simp only [exportCmd] at h
  split at h
  · cases h
  · split at h
    · cases h
      exact shaped_err _ _ _ _
    · split at h
      · cases h
        exact shaped_json _ _ _ _ ‹_›
      · cases h
        refine shaped_text _ _ _ _ ‹_› ?_
        simp [countJSON, countJSON_ite, countJSON_cfSectionText, countJSON_filteredText, countJSON_doSummary, countJSON_routesOverviewSection, countJSON_limitedSections, countJSON_limitedSectionsWithNotice, countJSON_flatten_map]

theorem shaped_exportOverview (W : World) (cfg : Config) (sched : List Nat)
    (o : Outcome) (h : exportCmd W cfg [] sched = some o) :
    Shaped cfg [.PrintSection "Module Exports"] o := by
  simp only [exportCmd] at h
  split at h
  · cases h
  · split at h
    · cases h
      exact shaped_err _ _ _ _
    · split at h
      · cases h
        exact shaped_json _ _ _ _ ‹_›
      · cases h
        refine shaped_text _ _ _ _ ‹_› ?_
        simp [countJSON, countJSON_ite, countJSON_cfSectionText, countJSON_filteredText, countJSON_doSummary, countJSON_routesOverviewSection, countJSON_limitedSections, countJSON_limitedSectionsWithNotice, countJSON_flatten_map]

theorem shaped_authOverview (W : World) (cfg : Config) (sched : List Nat)
    (o : Outcome) (h : authCmd W cfg [] sched = some o) :
    Shaped cfg [.PrintSection "Authentication Code"] o := by
  simp only [authCmd] at h
  split at h
  · cases h
  · split at h
    · cases h
      exact shaped_err _ _ _ _
    · split at h
      · cases h
        exact shaped_json _ _ _ _ ‹_›
      · cases h
        refine shaped_text _ _ _ _ ‹_› ?_
        simp [countJSON, countJSON_ite, countJSON_cfSectionText, countJSON_filteredText, countJSON_doSummary, countJSON_routesOverviewSection, countJSON_limitedSections, countJSON_limitedSectionsWithNotice, countJSON_flatten_map]


theorem shaped_routesGuards (W : World) (cfg : Config) (sched : List Nat)
    (o : Outcome) (h : routesGuards W cfg sched = some o) :
    Shaped cfg [.PrintSection "Route Guards (Auth/Redirect)"] o := by
  simp only [routesGuards] at h
  split at h
  · cases h
  · split at h
    · cases h
      exact shaped_err _ _ _ _
    · split at h
      · cases h
        exact shaped_err _ _ _ _
      · split at h
        · cases h
          exact shaped_json _ _ _ _ ‹_›
        · cases h
          refine shaped_text _ _ _ _ ‹_› ?_
          simp [countJSON, countJSON_ite, countJSON_cfSectionText, countJSON_filteredText, countJSON_doSummary, countJSON_routesOverviewSection, countJSON_limitedSections, countJSON_limitedSectionsWithNotice, countJSON_flatten_map, countJSON_map]

theorem shaped_cfD1Filtered (W : World) (cfg : Config) (arg : String) :
    Shaped cfg [] (cfD1Filtered W cfg arg) := by
  simp only [cfD1Filtered, cfD1FilteredRender]
  split
  · exact shaped_err _ _ _ _
  · split
    · exact shaped_json _ [] _ _ ‹_›
    · refine shaped_text _ [] _ _ ‹_› ?_
      simp [countJSON, countJSON_ite, countJSON_cfSectionText, countJSON_filteredText, countJSON_doSummary, countJSON_routesOverviewSection, countJSON_limitedSections, countJSON_limitedSectionsWithNotice, countJSON_flatten_map, countJSON_map]

theorem shaped_cfKVFiltered (W : World) (cfg : Config) (arg : String) :
    Shaped cfg [] (cfKVFiltered W cfg arg) := by
  simp only [cfKVFiltered, cfKVFilteredRender]
  split
  · exact shaped_err _ _ _ _
  · split
    · exact shaped_json _ [] _ _ ‹_›
    · refine shaped_text _ [] _ _ ‹_› ?_
      simp [countJSON, countJSON_ite, countJSON_cfSectionText, countJSON_filteredText, countJSON_doSummary, countJSON_routesOverviewSection, countJSON_limitedSections, countJSON_limitedSectionsWithNotice, countJSON_flatten_map, countJSON_map]

theorem shaped_cfR2Filtered (W : World) (cfg : Config) (arg : String) :
    Shaped cfg [] (cfR2Filtered W cfg arg) := by
  simp only [cfR2Filtered, cfR2FilteredRender]
  split
  · exact shaped_err _ _ _ _
  · split
    · exact shaped_json _ [] _ _ ‹_›
    · refine shaped_text _ [] _ _ ‹_› ?_
      simp [countJSON, countJSON_ite, countJSON_cfSectionText, countJSON_filteredText, countJSON_doSummary, countJSON_routesOverviewSection, countJSON_limitedSections, countJSON_limitedSectionsWithNotice, countJSON_flatten_map, countJSON_map]

theorem shaped_cfDOFiltered (W : World) (cfg : Config) (arg : String) :
    Shaped cfg [] (cfDOFiltered W cfg arg) := by
  simp only [cfDOFiltered, cfDOFilteredRender]
  split
  · exact shaped_err _ _ _ _
  · split
    · exact shaped_json _ [] _ _ ‹_›
    · refine shaped_text _ [] _ _ ‹_› ?_
      simp [countJSON, countJSON_ite, countJSON_cfSectionText, countJSON_filteredText, countJSON_doSummary, countJSON_routesOverviewSection, countJSON_limitedSections, countJSON_limitedSectionsWithNotice, countJSON_flatten_map, countJSON_map]

theorem shaped_dbNamed (W : World) (cfg : Config) (arg : String) :
    Shaped cfg [.PrintSection ("Database queries for: " ++ arg)] (dbCmd W cfg [arg]) := by
  simp only [dbCmd]
  split
  · exact shaped_err _ _ _ _
  · split
    · exact shaped_json _ _ _ _ ‹_›
    · refine shaped_text _ _ _ _ ‹_› ?_
      simp [countJSON, countJSON_ite, countJSON_cfSectionText, countJSON_filteredText, countJSON_doSummary, countJSON_routesOverviewSection, countJSON_limitedSections, countJSON_limitedSectionsWithNotice, countJSON_flatten_map, countJSON_map]

theorem shaped_dbOverview (W : World) (cfg : Config) :
    Shaped cfg [.PrintSection "Database Queries"] (dbCmd W cfg []) := by
  simp only [dbCmd]
  split
  · exact shaped_err _ _ _ _
  · split
    · exact shaped_json _ _ _ _ ‹_›
    · refine shaped_text _ _ _ _ ‹_› ?_
      simp [countJSON, countJSON_ite, countJSON_cfSectionText, countJSON_filteredText, countJSON_doSummary, countJSON_routesOverviewSection, countJSON_limitedSections, countJSON_limitedSectionsWithNotice, countJSON_flatten_map, countJSON_map]

theorem shaped_glassNamed (W : World) (cfg : Config) (arg : String) :
    Shaped cfg [.PrintSection ("Glass components with variant: " ++ arg)] (glassCmd W cfg [arg]) := by
  simp only [glassCmd]
  split
  · exact shaped_err _ _ _ _
  · split
    · exact shaped_json _ _ _ _ ‹_›
    · refine shaped_text _ _ _ _ ‹_› ?_
      simp [countJSON, countJSON_ite, countJSON_cfSectionText, countJSON_filteredText, countJSON_doSummary, countJSON_routesOverviewSection, countJSON_limitedSections, countJSON_limitedSectionsWithNotice, countJSON_flatten_map, countJSON_map]

theorem shaped_glassOverview (W : World) (cfg : Config) :
    Shaped cfg [.PrintSection "Glass Component Usage"] (glassCmd W cfg []) := by
  simp only [glassCmd]
  split
  · exact shaped_err _ _ _ _
  · split
    · exact shaped_json _ _ _ _ ‹_›
    · refine shaped_text _ _ _ _ ‹_› ?_
      simp [countJSON, countJSON_ite, countJSON_cfSectionText, countJSON_filteredText, countJSON_doSummary, countJSON_routesOverviewSection, countJSON_limitedSections, countJSON_limitedSectionsWithNotice, countJSON_flatten_map, countJSON_map]

theorem shaped_authNamed (W : World) (cfg : Config) (arg : String) (sched : List Nat)
    (o : Outcome) (h : authCmd W cfg [arg] sched = some o) :
    Shaped cfg [.PrintSection ("Auth code related to: " ++ arg)] o := by
  simp only [authCmd] at h
  split at h
  · cases h
    exact shaped_err _ _ _ _
  · split at h
    · cases h
      exact shaped_json _ _ _ _ ‹_›
    · cases h
      refine shaped_text _ _ _ _ ‹_› ?_
      simp [countJSON, countJSON_ite, countJSON_cfSectionText, countJSON_filteredText, countJSON_doSummary, countJSON_routesOverviewSection, countJSON_limitedSections, countJSON_limitedSectionsWithNotice, countJSON_flatten_map, countJSON_map]

/-- The outcome of every command function has the form `Shaped` for the
calls it makes before its first search. -/
theorem command_shape (W : World) (cfg : Config) (arg : String) (c : Command)
    (hc : c ∈ allCommands W cfg arg) (sched : List Nat) (o : Outcome)
    (h : c.run sched = some o) : Shaped cfg c.head o := by
  simp only [allCommands, List.mem_cons, List.mem_singleton, List.not_mem_nil,
    or_false] at hc
  rcases hc with h1 | h1 | h1 | h1 | h1 | h1 | h1 | h1 | h1 | h1 | h1 | h1 | h1 | h1 | h1 | h1 | h1 | h1 | h1 | h1 | h1 | h1 | h1 | h1
  all_goals subst h1
  all_goals simp only [] at h ⊢
  · exact shaped_cfOverview W cfg sched o h
  · cases h
    exact shaped_cfD1Filtered W cfg arg
  · exact shaped_cfD1Full W cfg sched o h
  · cases h
    exact shaped_cfKVFiltered W cfg arg
  · exact shaped_cfKVFull W cfg sched o h
  · cases h
    exact shaped_cfR2Filtered W cfg arg
  · exact shaped_cfR2Full W cfg sched o h
  · cases h
    exact shaped_cfDOFiltered W cfg arg
  · exact shaped_cfDOFull W cfg sched o h
  · exact shaped_routesGuards W cfg sched o h
  · exact shaped_routesFiltered W cfg arg sched o h
  · exact shaped_routesOverview W cfg sched o h
  · cases h
    exact shaped_dbNamed W cfg arg
  · cases h
    exact shaped_dbOverview W cfg
  · cases h
    exact shaped_glassNamed W cfg arg
  · cases h
    exact shaped_glassOverview W cfg
  · exact shaped_storeNamed W cfg arg sched o h
  · exact shaped_storeOverview W cfg sched o h
  · exact shaped_typeNamed W cfg arg sched o h
  · exact shaped_typeOverview W cfg sched o h
  · exact shaped_exportNamed W cfg arg sched o h
  · exact shaped_exportOverview W cfg sched o h
  · exact shaped_authNamed W cfg arg sched o h
  · exact shaped_authOverview W cfg sched o h

/-- Every command function returns: a command without fan-out always, a
command with a fan-out once all its goroutines have completed. -/
theorem command_total (W : World) (cfg : Config) (arg : String) (c : Command)
    (hc : c ∈ allCommands W cfg arg) (sched : List Nat)
    (hs : validSchedule c.goroutines sched) : (c.run sched).isSome = true := by
  simp only [allCommands, List.mem_cons, List.mem_singleton, List.not_mem_nil,
    or_false] at hc
  rcases hc with h1 | h1 | h1 | h1 | h1 | h1 | h1 | h1 | h1 | h1 | h1 | h1 | h1 | h1 | h1 | h1 | h1 | h1 | h1 | h1 | h1 | h1 | h1 | h1
  all_goals subst h1
  all_goals simp only [] at hs ⊢
  · exact command_returns W cfg arg (cfOverviewFanOut W, cfOverview W cfg) (by simp [fanOutCommands]) sched _
      (exec_of_mem W cfg arg (cfOverviewFanOut W, cfOverview W cfg) (by simp [fanOutCommands]) sched hs).2.1
  · rfl
  · exact command_returns W cfg arg (cfD1FullFanOut W, cfD1Full W cfg) (by simp [fanOutCommands]) sched _
      (exec_of_mem W cfg arg (cfD1FullFanOut W, cfD1Full W cfg) (by simp [fanOutCommands]) sched hs).2.1
  · rfl
  · exact command_returns W cfg arg (cfKVFullFanOut W, cfKVFull W cfg) (by simp [fanOutCommands]) sched _
      (exec_of_mem W cfg arg (cfKVFullFanOut W, cfKVFull W cfg) (by simp [fanOutCommands]) sched hs).2.1
  · rfl
  · exact command_returns W cfg arg (cfR2FullFanOut W, cfR2Full W cfg) (by simp [fanOutCommands]) sched _
      (exec_of_mem W cfg arg (cfR2FullFanOut W, cfR2Full W cfg) (by simp [fanOutCommands]) sched hs).2.1
  · rfl
  · exact command_returns W cfg arg (cfDOFullFanOut W, cfDOFull W cfg) (by simp [fanOutCommands]) sched _
      (exec_of_mem W cfg arg (cfDOFullFanOut W, cfDOFull W cfg) (by simp [fanOutCommands]) sched hs).2.1
  · exact command_returns W cfg arg (routesGuardsFanOut W, routesGuards W cfg) (by simp [fanOutCommands]) sched _
      (exec_of_mem W cfg arg (routesGuardsFanOut W, routesGuards W cfg) (by simp [fanOutCommands]) sched hs).2.1
  · exact command_returns W cfg arg (routesFilteredFanOut W arg, routesFiltered W cfg arg) (by simp [fanOutCommands]) sched _
      (exec_of_mem W cfg arg (routesFilteredFanOut W arg, routesFiltered W cfg arg) (by simp [fanOutCommands]) sched hs).2.1
  · exact command_returns W cfg arg (routesOverviewFanOut W, routesOverview W cfg) (by simp [fanOutCommands]) sched _
      (exec_of_mem W cfg arg (routesOverviewFanOut W, routesOverview W cfg) (by simp [fanOutCommands]) sched hs).2.1
  · rfl
  · rfl
  · rfl
  · rfl
  · exact command_returns W cfg arg (storeNamedFanOut W arg, storeCmd W cfg [arg]) (by simp [fanOutCommands]) sched _
      (exec_of_mem W cfg arg (storeNamedFanOut W arg, storeCmd W cfg [arg]) (by simp [fanOutCommands]) sched hs).2.1
  · exact command_returns W cfg arg (storeOverviewFanOut W, storeCmd W cfg []) (by simp [fanOutCommands]) sched _
      (exec_of_mem W cfg arg (storeOverviewFanOut W, storeCmd W cfg []) (by simp [fanOutCommands]) sched hs).2.1
  · exact command_returns W cfg arg (typeNamedFanOut W arg, typeCmd W cfg [arg]) (by simp [fanOutCommands]) sched _
      (exec_of_mem W cfg arg (typeNamedFanOut W arg, typeCmd W cfg [arg]) (by simp [fanOutCommands]) sched hs).2.1
  · exact command_returns W cfg arg (typeOverviewFanOut W, typeCmd W cfg []) (by simp [fanOutCommands]) sched _
      (exec_of_mem W cfg arg (typeOverviewFanOut W, typeCmd W cfg []) (by simp [fanOutCommands]) sched hs).2.1
  · exact command_returns W cfg arg (exportNamedFanOut W arg, exportCmd W cfg [arg]) (by simp [fanOutCommands]) sched _
      (exec_of_mem W cfg arg (exportNamedFanOut W arg, exportCmd W cfg [arg]) (by simp [fanOutCommands]) sched hs).2.1
  · exact command_returns W cfg arg (exportOverviewFanOut W, exportCmd W cfg []) (by simp [fanOutCommands]) sched _
      (exec_of_mem W cfg arg (exportOverviewFanOut W, exportCmd W cfg []) (by simp [fanOutCommands]) sched hs).2.1
  · simp only [authCmd]
    repeat' split
    all_goals rfl
  · exact command_returns W cfg arg (authOverviewFanOut W, authCmd W cfg []) (by simp [fanOutCommands]) sched _
      (exec_of_mem W cfg arg (authOverviewFanOut W, authCmd W cfg []) (by simp [fanOutCommands]) sched hs).2.1

/-- The calls that a command makes before its first search: none in cf.go,
one section header in domain.go. -/
theorem command_head (W : World) (cfg : Config) (arg : String) (c : Command)
    (hc : c ∈ allCommands W cfg arg) :
    (c.file = "cf.go" ∧ c.head = []) ∨
      (c.file = "domain.go" ∧ ∃ title, c.head = [.PrintSection title]) := by
  simp only [allCommands, List.mem_cons, List.mem_singleton, List.not_mem_nil,
    or_false] at hc
  rcases hc with h1 | h1 | h1 | h1 | h1 | h1 | h1 | h1 | h1 | h1 | h1 | h1 | h1 | h1 | h1 | h1 | h1 | h1 | h1 | h1 | h1 | h1 | h1 | h1
  all_goals subst h1
  all_goals first
    | exact Or.inl ⟨rfl, rfl⟩
    | exact Or.inr ⟨rfl, _, rfl⟩

/-- Every command with a fan-out is one of the command functions. -/
theorem fanOut_in_all (W : World) (cfg : Config) (arg : String)
    (fc : FanOut × (List Nat → Option Outcome)) (hfc : fc ∈ fanOutCommands W cfg arg) :
    ∃ c ∈ allCommands W cfg arg, c.run = fc.2 ∧ c.goroutines = fc.1.goroutines.length := by
  simp only [fanOutCommands, List.mem_cons, List.mem_singleton, List.not_mem_nil,
    or_false] at hfc
  rcases hfc with h1 | h1 | h1 | h1 | h1 | h1 | h1 | h1 | h1 | h1 | h1 | h1 | h1 | h1 | h1
  all_goals subst h1
  · exact ⟨⟨"cf.go", 4, [], cfOverview W cfg⟩, by simp [allCommands], rfl, rfl⟩
  · exact ⟨⟨"cf.go", 4, [], cfD1Full W cfg⟩, by simp [allCommands], rfl, rfl⟩
  · exact ⟨⟨"cf.go", 3, [], cfKVFull W cfg⟩, by simp [allCommands], rfl, rfl⟩
  · exact ⟨⟨"cf.go", 3, [], cfR2Full W cfg⟩, by simp [allCommands], rfl, rfl⟩
  · exact ⟨⟨"cf.go", 4, [], cfDOFull W cfg⟩, by simp [allCommands], rfl, rfl⟩
  · exact ⟨⟨"domain.go", 2, [.PrintSection "Route Guards (Auth/Redirect)"], routesGuards W cfg⟩, by simp [allCommands], rfl, rfl⟩
  · exact ⟨⟨"domain.go", 2, [.PrintSection ("SvelteKit routes matching: " ++ arg)], routesFiltered W cfg arg⟩, by simp [allCommands], rfl, rfl⟩
  · exact ⟨⟨"domain.go", 4, [.PrintSection "SvelteKit Routes"], routesOverview W cfg⟩, by simp [allCommands], rfl, rfl⟩
  · exact ⟨⟨"domain.go", 2, [.PrintSection ("Svelte stores/state matching: " ++ arg)], storeCmd W cfg [arg]⟩, by simp [allCommands], rfl, rfl⟩
  · exact ⟨⟨"domain.go", 3, [.PrintSection "Svelte Stores & Reactive State"], storeCmd W cfg []⟩, by simp [allCommands], rfl, rfl⟩
  · exact ⟨⟨"domain.go", 2, [.PrintSection ("Finding type: " ++ arg)], typeCmd W cfg [arg]⟩, by simp [allCommands], rfl, rfl⟩
  · exact ⟨⟨"domain.go", 3, [.PrintSection "TypeScript Types"], typeCmd W cfg []⟩, by simp [allCommands], rfl, rfl⟩
  · exact ⟨⟨"domain.go", 2, [.PrintSection ("Exports matching: " ++ arg)], exportCmd W cfg [arg]⟩, by simp [allCommands], rfl, rfl⟩
  · exact ⟨⟨"domain.go", 3, [.PrintSection "Module Exports"], exportCmd W cfg []⟩, by simp [allCommands], rfl, rfl⟩
  · exact ⟨⟨"domain.go", 4, [.PrintSection "Authentication Code"], authCmd W cfg []⟩, by simp [allCommands], rfl, rfl⟩

/-- The calls made before the first search are not `PrintJSON` calls. -/
theorem countJSON_head (W : World) (cfg : Config) (arg : String) (c : Command)
    (hc : c ∈ allCommands W cfg arg) : countJSON c.head = 0 := by
  rcases command_head W cfg arg c hc with ⟨-, h⟩ | ⟨-, title, h⟩
  · rw [h]
    rfl
  · rw [h]
    rfl

/-- The number of `PrintJSON` calls of an outcome of the form `Shaped`. -/
theorem countJSON_shaped (cfg : Config) (head : List OutCall) (o : Outcome)
    (hh : countJSON head = 0) (hs : Shaped cfg head o) :
    (o.err ≠ none → countJSON o.out = 0) ∧ countJSON o.out ≤ 1 ∧
      (0 < countJSON o.out → o.err = none) ∧
      (cfg.JSONMode = false → countJSON o.out = 0) := by
  obtain ⟨h1, h2, h3⟩ := hs
  cases herr : o.err with
  | some e =>
    have hout := h1 (by simp [herr])
    simp [hout, hh]
  | none =>
    cases hj : cfg.JSONMode with
    | true =>
      obtain ⟨d, hd⟩ := h2 herr hj
      simp [hd, hh, countJSON]
    | false =>
      obtain ⟨t, ht, htc⟩ := h3 herr hj
      simp [ht, hh, htc]

/-- C16: for every command function of cf.go and domain.go and every outcome
of its searches: if the function returns an error then output.PrintJSON was
not called during the invocation; PrintJSON is called at most once per
invocation; when it is called the function returns nil, and in a command
with a fan-out the error scan over the joined results has found no failed
probe. -/
theorem print_json_only_on_success (W : World) (cfg : Config) (arg : String) :
    (∀ c ∈ allCommands W cfg arg, ∀ sched, validSchedule c.goroutines sched →
      ∃ o, c.run sched = some o ∧
        (o.err ≠ none → countJSON o.out = 0) ∧
        countJSON o.out ≤ 1 ∧
        (0 < countJSON o.out → o.err = none)) ∧
    (∀ fc ∈ fanOutCommands W cfg arg, ∀ sched,
      validSchedule fc.1.goroutines.length sched →
      ∃ o, fc.2 sched = some o ∧ fc.1.Wait sched = some fc.1.declared ∧
        (0 < countJSON o.out → errorScan fc.1.declared = none ∧ o.err = none)) := by
  have part1 : ∀ c ∈ allCommands W cfg arg, ∀ sched, validSchedule c.goroutines sched →
      ∃ o, c.run sched = some o ∧
        (o.err ≠ none → countJSON o.out = 0) ∧
        countJSON o.out ≤ 1 ∧
        (0 < countJSON o.out → o.err = none) := by
    intro c hc sched hs
    obtain ⟨o, ho⟩ := Option.isSome_iff_exists.1 (command_total W cfg arg c hc sched hs)
    have hsh := countJSON_shaped cfg c.head o (countJSON_head W cfg arg c hc)
      (command_shape W cfg arg c hc sched o ho)
    exact ⟨o, ho, hsh.1, hsh.2.1, hsh.2.2.1⟩
  refine ⟨part1, ?_⟩
  intro fc hfc sched hs
  obtain ⟨c, hc, hrun, hn⟩ := fanOut_in_all W cfg arg fc hfc
  obtain ⟨o, ho, h1, -, h3⟩ := part1 c hc sched (by rw [hn]; exact hs)
  have hw := (exec_of_mem W cfg arg fc hfc sched hs).2.1
  rw [hrun] at ho
  refine ⟨o, ho, hw, ?_⟩
  intro hpos
  refine ⟨?_, h3 hpos⟩
  cases hscan : errorScan fc.1.declared with
  | none => rfl
  | some e =>
    have herr := command_returns_scan_error W cfg arg fc hfc sched _ e hw hscan
    rw [ho] at herr
    have he : o.err = some e := by simpa using herr
    have := h1 (by simp [he])
    omega

/-- C16, at a concrete input: cfOverview in structured mode with a failing KV
probe. -/
theorem print_json_only_on_success_witness :
    ∃ o, cfOverview worldKVFails cfgJSON [2, 0, 3, 1] = some o ∧
      (o.err ≠ none → countJSON o.out = 0) ∧
      countJSON o.out ≤ 1 ∧
      (0 < countJSON o.out → o.err = none) :=
  (print_json_only_on_success worldKVFails cfgJSON "").1
    ⟨"cf.go", 4, [], cfOverview worldKVFails cfgJSON⟩ (by simp [allCommands])
    [2, 0, 3, 1] (by decide)

/-- The composite pattern of the specification, written out. -/
theorem composite_eq (t K : String) :
    composite t K = "(" ++ (t ++ ((").*(" ++ K ++ ")|(" ++ K ++ ").*(") ++ (t ++ ")"))) := by
  have h : ∀ X : String, ")" ++ ("|" ++ ("(" ++ X)) = ")|(" ++ X := by
    intro X
    rw [← String.append_assoc, ← String.append_assoc]
    rfl
  simp only [composite, alternative, String.append_assoc, h]

/-- C21: for every token t, the composite pattern built by cfD1Filtered,
cfKVFiltered, cfR2Filtered and cfDOFiltered, which is the pattern of the first
search of the command, is exactly "(" + t + ").*(" + K + ")|(" + K + ").*(" +
t + ")", where K is the keyword alternation of the command, the same string
on both sides of the top-level "|"; t is interpolated unchanged in both
positions, and the two alternatives differ only by swapping token and keyword
group. -/
theorem composite_patterns (W : World) (cfg : Config) (t : String) :
    d1Pattern t =
        composite t
          r"\bD1\b|d1_databases|\.prepare\b|\.exec\b|\.all\b|\.first\b|\.run\b|\.batch\b" ∧
      kvPattern t =
        composite t
          r"\bKV\b|KVNamespace|kv_namespaces|\.get\s*\(|\.put\s*\(|\.delete\s*\(|\.list\s*\(" ∧
      r2Pattern t =
        composite t
          r"\bR2\b|R2Bucket|r2_buckets|\.put\s*\(|\.get\s*\(|\.delete\s*\(|\.list\s*\(" ∧
      doPattern t =
        composite t
          r"\bDurableObject\b|DurableObjectNamespace|DurableObjectStub|durable_objects" ∧
      (∀ a b, composite a b = alternative a b ++ "|" ++ alternative b a) ∧
      (∀ a b, alternative a b = "(" ++ a ++ ").*(" ++ b ++ ")") ∧
      (filteredCommands W cfg t).map (fun fs => fs.composite) =
        [d1Pattern t, kvPattern t, r2Pattern t, doPattern t] ∧
      (filteredCommands W cfg t).map (fun fs => fs.run.searches.head?.map RgCall.pattern) =
        [some (d1Pattern t), some (kvPattern t), some (r2Pattern t), some (doPattern t)] := by
  refine ⟨?_, ?_, ?_, ?_, fun _ _ => rfl, fun _ _ => rfl, rfl, ?_⟩
  · rw [composite_eq]
    simp only [d1Pattern, String.append_assoc]
    rfl
  · rw [composite_eq]
    simp only [kvPattern, String.append_assoc]
    rfl
  · rw [composite_eq]
    simp only [r2Pattern, String.append_assoc]
    rfl
  · rw [composite_eq]
    simp only [doPattern, String.append_assoc]
    rfl
  · have h := fun fs hfs => (filtered_search_facts W cfg t fs hfs).1
    simp only [filteredCommands, List.mem_cons, List.mem_singleton, List.not_mem_nil,
      or_false, forall_eq_or_imp, forall_eq] at h
    obtain ⟨h1, h2, h3, h4⟩ := h
    simp only [filteredCommands, List.map_cons, List.map_nil, h1, h2, h3, h4, Option.map]

/-! ## The filter of `auth [aspect]` -/

/-- The inner loop of the filter appends the line once when its lower-cased
text contains one of the keywords still to try, and leaves `filtered` as it
is otherwise. -/
theorem authInner_eq (filtered : List String) (line lower : String) (kws : List String) :
    authInner filtered line lower kws =
      if kws.any (fun kw => Contains lower kw) then filtered ++ [line] else filtered := by
  induction kws with
  | nil => rfl
  | cons kw rest ih =>
    simp only [authInner, List.any_cons]
    by_cases h : Contains lower kw = true
    · simp [h]
    · simp [h, ih]

/-- The filter loop of `auth [aspect]` keeps the lines whose lower-cased text
contains a keyword. -/
theorem authFilter_eq_filter (lines : List String) :
    authFilter lines =
      lines.filter (fun line => authKeywords.any (fun kw => Contains (ToLower line) kw)) := by
  simp only [authFilter, authInner_eq]
  have h := foldl_append_if
    (fun line : String => authKeywords.any (fun kw => Contains (ToLower line) kw) = true)
    lines []
  simp only [List.nil_append, Bool.decide_eq_true] at h
  exact h

/-- What `auth [aspect]` does in structured mode when the search succeeds. -/
theorem authNamed_json (W : World) (cfg : Config) (aspect : String) (sched : List Nat)
    (hj : cfg.JSONMode = true)
    (hok : (W.RunRg aspect [.WithGlob "*.{ts,js,svelte}"]).2 = none) :
    authCmd W cfg [aspect] sched = some
      { out := [.PrintSection ("Auth code related to: " ++ aspect),
          .PrintJSON [
            ("command", .leaf (.str "auth")),
            ("aspect", .leaf (.str aspect)),
            ("count", .leaf (.int
              (authFilter (W.SplitLines
                (W.RunRg aspect [.WithGlob "*.{ts,js,svelte}"]).1)).length)),
            ("results", .leaf (.strings
              (authFilter (W.SplitLines
                (W.RunRg aspect [.WithGlob "*.{ts,js,svelte}"]).1))))]],
        err := none,
        searches := [⟨aspect, [.WithGlob "*.{ts,js,svelte}"]⟩] } := by
  simp [authCmd, hok, hj]

/-- C22: in `auth [aspect]`, the filtered list is the order-preserving sublist
of the lines of the search consisting of exactly those lines whose
lower-cased text (strings.ToLower, every code point mapped by
unicode.ToLower) contains at least one of the nine auth keywords (auth,
session, token, login, logout, user, credential, oauth, jwt); a line that
matches, be it several keywords, is included once per occurrence in the
input, never duplicated, and the structured-mode count equals the length of
this filtered list. -/
theorem auth_filter_sublist (W : World) (cfg : Config) (aspect : String) (sched : List Nat)
    (lines : List String) :
    authKeywords =
        ["auth", "session", "token", "login", "logout", "user", "credential", "oauth",
          "jwt"] ∧
      (authFilter lines).Sublist lines ∧
      authFilter lines =
        lines.filter (fun line =>
          decide (∃ kw ∈ authKeywords, kw.data <:+: (ToLower line).data)) ∧
      (∀ line, line ∈ authFilter lines ↔
        line ∈ lines ∧ ∃ kw ∈ authKeywords, kw.data <:+: (ToLower line).data) ∧
      (∀ line, (∃ kw ∈ authKeywords, kw.data <:+: (ToLower line).data) →
        (authFilter lines).count line = lines.count line) ∧
      (∀ line, (¬ ∃ kw ∈ authKeywords, kw.data <:+: (ToLower line).data) →
        (authFilter lines).count line = 0) ∧
      (∀ (filtered : List String) (line : String),
        (∃ kw ∈ authKeywords, kw.data <:+: (ToLower line).data) →
        authInner filtered line (ToLower line) authKeywords = filtered ++ [line]) ∧
      (∀ (filtered : List String) (line : String),
        (¬ ∃ kw ∈ authKeywords, kw.data <:+: (ToLower line).data) →
        authInner filtered line (ToLower line) authKeywords = filtered) ∧
      (cfg.JSONMode = true → (W.RunRg aspect [.WithGlob "*.{ts,js,svelte}"]).2 = none →
        ∃ o filtered, authCmd W cfg [aspect] sched = some o ∧ o.err = none ∧
          filtered = authFilter (W.SplitLines
            (W.RunRg aspect [.WithGlob "*.{ts,js,svelte}"]).1) ∧
          o.out = [.PrintSection ("Auth code related to: " ++ aspect),
            .PrintJSON [
              ("command", .leaf (.str "auth")),
              ("aspect", .leaf (.str aspect)),
              ("count", .leaf (.int filtered.length)),
              ("results", .leaf (.strings filtered))]]) := by
  have hany : ∀ line : String,
      authKeywords.any (fun kw => Contains (ToLower line) kw) = true ↔
        ∃ kw ∈ authKeywords, kw.data <:+: (ToLower line).data := by
    intro line
    simp only [List.any_eq_true, Contains, decide_eq_true_eq]
  refine ⟨rfl, ?_, ?_, ?_, ?_, ?_, ?_, ?_, ?_⟩
  · rw [authFilter_eq_filter]
    exact List.filter_sublist _
  · rw [authFilter_eq_filter]
    apply List.filter_congr
    intro line _
    by_cases h : ∃ kw ∈ authKeywords, kw.data <:+: (ToLower line).data
    · rw [(hany line).2 h]
      exact (decide_eq_true h).symm
    · have h2 : authKeywords.any (fun kw => Contains (ToLower line) kw) = false := by
        cases hb : authKeywords.any (fun kw => Contains (ToLower line) kw) with
        | false => rfl
        | true => exact absurd ((hany line).1 hb) h
      rw [h2]
      exact (decide_eq_false h).symm
  · intro line
    rw [authFilter_eq_filter, List.mem_filter, hany]
  · intro line hm
    rw [authFilter_eq_filter, List.count_filter]
    exact (hany line).2 hm
  · intro line hm
    rw [authFilter_eq_filter]
    apply List.count_eq_zero_of_not_mem
    intro hmem
    exact hm ((hany line).1 (List.mem_filter.1 hmem).2)
  · intro filtered line hm
    rw [authInner_eq, (hany line).2 hm]
    rfl
  · intro filtered line hm
    rw [authInner_eq]
    have h2 : authKeywords.any (fun kw => Contains (ToLower line) kw) = false := by
      cases hb : authKeywords.any (fun kw => Contains (ToLower line) kw) with
      | false => rfl
      | true => exact absurd ((hany line).1 hb) hm
    rw [h2]
    rfl
  · intro hj hok
    exact ⟨_, _, authNamed_json W cfg aspect sched hj hok, rfl, rfl, rfl⟩

set_option maxRecDepth 1000000 in
/-- C22, at a concrete input: in structured mode the search prints six lines.
The line with `TOKEN` in capitals, the line `to\u212Aen` with the Kelvin
sign, the line `LOG\u0130N` with the dotted capital I and the line with both
`Session` and `user` are kept, each once and in order; the line `plain text`
and the line `TO\u0136EN`, whose lower-cased text holds no keyword, are
dropped; the document reports count 4. -/
theorem auth_filter_sublist_witness :
    (ToLower "src/c.ts:3:to\u212Aen" = "src/c.ts:3:token" ∧
      ToLower "src/d.ts:4:LOG\u0130N" = "src/d.ts:4:login" ∧
      ToLower "src/f.ts:6:TO\u0136EN" = "src/f.ts:6:to\u0137en") ∧
    ∃ o filtered, authCmd worldAuth cfgJSON ["auth"] [] = some o ∧ o.err = none ∧
      filtered = ["src/a.ts:1:const TOKEN = 1", "src/c.ts:3:to\u212Aen",
        "src/d.ts:4:LOG\u0130N", "src/e.ts:5:Session of the user"] ∧
      o.out = [.PrintSection "Auth code related to: auth",
        .PrintJSON [
          ("command", .leaf (.str "auth")),
          ("aspect", .leaf (.str "auth")),
          ("count", .leaf (.int filtered.length)),
          ("results", .leaf (.strings filtered))]] :=
  ⟨by decide,
   Exists.elim
    ((auth_filter_sublist worldAuth cfgJSON "auth" [] []).2.2.2.2.2.2.2.2
      (by decide) (by decide))
    (fun o h => Exists.elim h
      (fun filtered hf =>
        ⟨o, filtered, hf.1, hf.2.1, hf.2.2.1.trans (by decide), hf.2.2.2⟩))⟩

/-! ## The summary of cfDOFull -/

/-- The name recorded by the inner loop of the summary: the token that
follows the first token "class" that has a successor. -/
theorem classNameOf_iff : ∀ (parts : List String) (n : String),
    classNameOf parts = some n ↔
      ∃ i, parts[i]? = some "class" ∧ parts[i + 1]? = some n ∧
        ∀ j, j < i → ¬ (parts[j]? = some "class" ∧ j + 1 < parts.length)
  | [], n => by simp [classNameOf]
  | [p], n => by simp [classNameOf]
  | p :: q :: rest, n => by
    have ih := classNameOf_iff (q :: rest) n
    by_cases hp : p = "class"
    · simp only [classNameOf, hp, if_true, Option.some.injEq]
      constructor
      · intro h
        exact ⟨0, rfl, by simp [h], fun j hj => absurd hj (Nat.not_lt_zero j)⟩
      · rintro ⟨i, -, h2, h3⟩
        cases i with
        | zero => simpa using h2
        | succ k =>
          exact absurd ⟨rfl, by simp⟩ (h3 0 (Nat.succ_pos k))
    · simp only [classNameOf, hp, if_false]
      rw [ih]
      constructor
      · rintro ⟨i, h1, h2, h3⟩
        refine ⟨i + 1, by simpa using h1, by simpa using h2, ?_⟩
        intro j hj
        cases j with
        | zero =>
          intro hcon
          exact hp (by simpa using hcon.1)
        | succ k =>
          intro hcon
          exact h3 k (by omega) ⟨by simpa using hcon.1, by simpa using hcon.2⟩
      · rintro ⟨i, h1, h2, h3⟩
        cases i with
        | zero => exact absurd (by simpa using h1) hp
        | succ k =>
          refine ⟨k, by simpa using h1, by simpa using h2, ?_⟩
          intro j hj hcon
          exact h3 (j + 1) (by omega) ⟨by simpa using hcon.1, by simpa using hcon.2⟩

/-- The outer loop of the summary, from any set of names collected so far:
no name is recorded twice, and the names are those collected so far and
those that the lines yield. -/
theorem classNames_fold (l : List String) : ∀ acc : List String, acc.Nodup →
    (l.foldl
      (fun names line =>
        match classNameOf (Fields line) with
        | some n => if n ∈ names then names else names ++ [n]
        | none => names) acc).Nodup ∧
    ∀ n, n ∈ l.foldl
      (fun names line =>
        match classNameOf (Fields line) with
        | some n => if n ∈ names then names else names ++ [n]
        | none => names) acc ↔
      n ∈ acc ∨ ∃ line ∈ l, classNameOf (Fields line) = some n := by
  induction l with
  | nil =>
    intro acc hacc
    exact ⟨hacc, fun n => by simp⟩
  | cons line rest ih =>
    intro acc hacc
    simp only [List.foldl_cons]
    cases hc : classNameOf (Fields line) with
    | none =>
      obtain ⟨h1, h2⟩ := ih acc hacc
      refine ⟨h1, fun n => ?_⟩
      rw [h2 n]
      simp [hc]
    | some m =>
      by_cases hm : m ∈ acc
      · simp only [hm, if_true]
        obtain ⟨h1, h2⟩ := ih acc hacc
        refine ⟨h1, fun n => ?_⟩
        rw [h2 n]
        constructor
        · rintro (h | ⟨x, hx, hx2⟩)
          · exact Or.inl h
          · exact Or.inr ⟨x, List.mem_cons_of_mem _ hx, hx2⟩
        · rintro (h | ⟨x, hx, hx2⟩)
          · exact Or.inl h
          · rcases List.mem_cons.1 hx with h | h
            · subst h
              rw [hc] at hx2
              cases hx2
              exact Or.inl hm
            · exact Or.inr ⟨x, h, hx2⟩
      · simp only [hm, if_false]
        have hnd : (acc ++ [m]).Nodup := by
          rw [List.nodup_append]
          exact ⟨hacc, List.nodup_singleton m, by
            intro a ha hb
            rw [List.mem_singleton] at hb
            subst hb
            exact hm ha⟩
        obtain ⟨h1, h2⟩ := ih (acc ++ [m]) hnd
        refine ⟨h1, fun n => ?_⟩
        rw [h2 n]
        constructor
        · rintro (h | ⟨x, hx, hx2⟩)
          · rcases List.mem_append.1 h with h | h
            · exact Or.inl h
            · rw [List.mem_singleton] at h
              subst h
              exact Or.inr ⟨line, List.mem_cons_self _ _, hc⟩
          · exact Or.inr ⟨x, List.mem_cons_of_mem _ hx, hx2⟩
        · rintro (h | ⟨x, hx, hx2⟩)
          · exact Or.inl (List.mem_append_left _ h)
          · rcases List.mem_cons.1 hx with h | h
            · subst h
              rw [hc] at hx2
              cases hx2
              exact Or.inl (List.mem_append_right _ (List.mem_singleton_self _))
            · exact Or.inr ⟨x, h, hx2⟩

/-- The keys of the map `classNames` after the loop. -/
theorem classNames_spec (classDefs : List String) :
    (classNames classDefs).Nodup ∧
      ∀ n, n ∈ classNames classDefs ↔
        ∃ line ∈ classDefs, classNameOf (Fields line) = some n := by
  obtain ⟨h1, h2⟩ := classNames_fold classDefs [] List.nodup_nil
  exact ⟨h1, fun n => by
    have := h2 n
    simpa [classNames] using this⟩

/-- The slice left by `sort.Strings` on distinct strings: the same strings, in
strictly ascending order. -/
theorem sortStrings_spec (l : List String) (hnd : l.Nodup) :
    (sortStrings l).Pairwise (fun a b => a.data < b.data) ∧
      (sortStrings l).Nodup ∧ ∀ n, n ∈ sortStrings l ↔ n ∈ l := by
  have hperm : (sortStrings l).Perm l := List.perm_insertionSort strLe l
  haveI : IsTotal String strLe := ⟨fun a b => le_total a.data b.data⟩
  haveI : IsTrans String strLe := ⟨fun a b c h1 h2 => le_trans (α := List Char) h1 h2⟩
  have hsorted : (sortStrings l).Pairwise strLe := List.sorted_insertionSort strLe l
  have hnd2 : (sortStrings l).Nodup := hperm.nodup_iff.2 hnd
  refine ⟨?_, hnd2, fun n => hperm.mem_iff⟩
  have hboth := hsorted.and hnd2
  refine hboth.imp ?_
  intro a b hab
  exact lt_of_le_of_ne hab.1 (fun h => hab.2 (String.ext h))

/-- The summary block of cfDOFull, by the sorted names. -/
theorem doSummary_eq (classDefs : List String) :
    doSummary classDefs =
      if sortStrings (classNames classDefs) = [] then []
      else [.PrintSection "Summary",
        .Printf "  DO classes: %s" [.str (Join (sortStrings (classNames classDefs)) ", ")]] := by
  have hperm : (sortStrings (classNames classDefs)).Perm (classNames classDefs) :=
    List.perm_insertionSort strLe _
  have hiff : sortStrings (classNames classDefs) = [] ↔ classNames classDefs = [] := by
    constructor
    · intro h
      rw [h] at hperm
      exact List.Perm.eq_nil hperm.symm
    · intro h
      rw [h]
      rfl
  simp only [doSummary]
  by_cases h0 : classDefs.length > 0
  · by_cases h1 : (classNames classDefs).length > 0
    · have hne : classNames classDefs ≠ [] := List.ne_nil_of_length_pos h1
      have hne2 : ¬ sortStrings (classNames classDefs) = [] := fun h => hne (hiff.1 h)
      simp [h0, h1, hne2]
    · have he : classNames classDefs = [] := by
        cases hc : classNames classDefs with
        | nil => rfl
        | cons a b =>
          rw [hc] at h1
          simp at h1
      simp [h0, he, sortStrings]
  · have he : classDefs = [] := by
      cases hc : classDefs with
      | nil => rfl
      | cons a b =>
        rw [hc] at h0
        simp at h0
    subst he
    simp [classNames, sortStrings]

/-- C23: in cfDOFull text mode, the Summary line lists class names in strictly
ascending lexicographic order with no duplicates, and the listed set is
exactly the set of whitespace-delimited tokens that immediately follow the
first token equal to "class" that has a successor on each line of the
"DO Class Definitions" section; the Summary is omitted when no line yields
such a token. -/
theorem summary_class_names (W : World) (cfg : Config) (sched : List Nat)
    (classDefs : List String) :
    (∃ sorted : List String,
      sorted.Pairwise (fun a b => a.data < b.data) ∧ sorted.Nodup ∧
      (∀ n, n ∈ sorted ↔
        ∃ line ∈ classDefs, ∃ i,
          (Fields line)[i]? = some "class" ∧ (Fields line)[i + 1]? = some n ∧
            ∀ j, j < i → ¬ ((Fields line)[j]? = some "class" ∧ j + 1 < (Fields line).length)) ∧
      doSummary classDefs =
        if sorted = [] then []
        else [.PrintSection "Summary",
          .Printf "  DO classes: %s" [.str (Join sorted ", ")]]) ∧
    (validSchedule 4 sched → cfg.JSONMode = false →
      errorScan (cfDOFullFanOut W).declared = none →
      ((cfDOFullFanOut W).declared.getD 0 {}).title = "DO Class Definitions" ∧
      cfDOFull W cfg sched = some
        { out := [.PrintMajorHeader "Durable Objects Overview"] ++
            ((cfDOFullFanOut W).declared.map cfSectionText).flatten ++
            doSummary ((cfDOFullFanOut W).declared.getD 0 {}).lines,
          err := none }) := by
  constructor
  · obtain ⟨hnd, hmem⟩ := classNames_spec classDefs
    obtain ⟨hs1, hs2, hs3⟩ := sortStrings_spec (classNames classDefs) hnd
    refine ⟨sortStrings (classNames classDefs), hs1, hs2, ?_, doSummary_eq classDefs⟩
    intro n
    rw [hs3, hmem]
    constructor
    · rintro ⟨line, hl, hc⟩
      exact ⟨line, hl, (classNameOf_iff _ _).1 hc⟩
    · rintro ⟨line, hl, hc⟩
      exact ⟨line, hl, (classNameOf_iff _ _).2 hc⟩
  · intro hs hj hscan
    refine ⟨rfl, ?_⟩
    have hrun := cfFull_run W cfg
      ⟨cfDOFullFanOut W, cfDOFull W cfg, "cf do", "Durable Objects Overview",
        doSummary ((cfDOFullFanOut W).declared.getD 0 {}).lines⟩
      (by simp [cfFullCommands]) sched hs
    simp only [] at hrun
    rw [hscan] at hrun
    simpa [hj] using hrun

set_option maxRecDepth 100000 in
/-- C23, at a concrete input: the section of class definitions has four lines,
two with the class `Zeta`, one with `Alpha` and one in which "class" is the
last token; the summary lists `Alpha, Zeta`. -/
theorem summary_class_names_witness :
    cfDOFull worldDO cfgText [2, 0, 3, 1] = some
      { out := [.PrintMajorHeader "Durable Objects Overview"] ++
          ((cfDOFullFanOut worldDO).declared.map cfSectionText).flatten ++
          [.PrintSection "Summary", .Printf "  DO classes: %s" [.str "Alpha, Zeta"]],
        err := none } :=
  ((summary_class_names worldDO cfgText [2, 0, 3, 1] []).2
    (by decide) (by decide) (by decide)).2.trans (by decide)

/-! ## The method `Lines` -/

theorem intercalate_go_data (s : String) : ∀ (l : List String) (acc : String),
    (String.intercalate.go acc s l).data =
      acc.data ++ (l.map (fun a => s.data ++ a.data)).flatten
  | [], acc => by simp [String.intercalate.go]
  | a :: rest, acc => by
    simp [String.intercalate.go, intercalate_go_data s rest, String.data_append]

theorem joinChars_cons (rest : List (List Char)) : ∀ p : List Char,
    joinChars (p :: rest) = p ++ (rest.map (fun q => '\n' :: q)).flatten := by
  induction rest with
  | nil => intro p; simp [joinChars]
  | cons q rest ih => intro p; simp [joinChars, ih q]

/-- The characters of `strings.Join(elems, "\n")`. -/
theorem Join_data (elems : List String) :
    (Join elems "\n").data = joinChars (elems.map String.data) := by
  cases elems with
  | nil => rfl
  | cons a rest =>
    simp only [Join, String.intercalate, intercalate_go_data, List.map_cons, joinChars_cons,
      List.map_map]
    rfl

theorem splitChars_ne_nil (cs : List Char) : splitChars cs ≠ [] := by
  cases cs with
  | nil => simp [splitChars]
  | cons c cs =>
    simp only [splitChars]
    split
    · simp
    · split <;> simp

theorem splitChars_cons_of_ne (c : Char) (cs : List Char) (h : c ≠ '\n') :
    ∃ p ps, splitChars cs = p :: ps ∧ splitChars (c :: cs) = (c :: p) :: ps := by
  cases hs : splitChars cs with
  | nil => exact absurd hs (splitChars_ne_nil cs)
  | cons p ps => exact ⟨p, ps, rfl, by simp [splitChars, h, hs]⟩

theorem splitChars_cons_newline (cs : List Char) :
    splitChars ('\n' :: cs) = [] :: splitChars cs := by
  simp [splitChars]

/-- No piece of the split holds a newline. -/
theorem splitChars_no_newline : ∀ (cs : List Char), ∀ p ∈ splitChars cs, '\n' ∉ p
  | [], p, hp => by
    simp [splitChars] at hp
    subst hp
    simp
  | c :: cs, p, hp => by
    have ih := splitChars_no_newline cs
    by_cases hc : c = '\n'
    · subst hc
      rw [splitChars_cons_newline] at hp
      rcases List.mem_cons.1 hp with h | h
      · subst h
        simp
      · exact ih p h
    · obtain ⟨q, qs, h1, h2⟩ := splitChars_cons_of_ne c cs hc
      rw [h2] at hp
      rw [h1] at ih
      rcases List.mem_cons.1 hp with h | h
      · subst h
        intro hmem
        rcases List.mem_cons.1 hmem with h3 | h3
        · exact hc h3.symm
        · exact ih q (List.mem_cons_self _ _) h3
      · exact ih p (List.mem_cons_of_mem _ h)

/-- The split has one piece more than the text has newlines. -/
theorem splitChars_length : ∀ cs : List Char,
    (splitChars cs).length = cs.count '\n' + 1
  | [] => by simp [splitChars]
  | c :: cs => by
    have ih := splitChars_length cs
    by_cases hc : c = '\n'
    · subst hc
      rw [splitChars_cons_newline]
      simp [ih]
    · obtain ⟨q, qs, h1, h2⟩ := splitChars_cons_of_ne c cs hc
      rw [h1] at ih
      rw [h2, List.count_cons_of_ne (fun h => hc h.symm)]
      simpa using ih

theorem splitChars_of_no_newline : ∀ p : List Char, '\n' ∉ p → splitChars p = [p]
  | [], _ => by simp [splitChars]
  | c :: cs, h => by
    have hc : c ≠ '\n' := fun e => h (by simp [e])
    have ih := splitChars_of_no_newline cs (fun e => h (List.mem_cons_of_mem _ e))
    simp [splitChars, hc, ih]

theorem splitChars_append_newline (rest : List Char) : ∀ p : List Char, '\n' ∉ p →
    splitChars (p ++ '\n' :: rest) = p :: splitChars rest
  | [], _ => by simp [splitChars]
  | c :: cs, h => by
    have hc : c ≠ '\n' := fun e => h (by simp [e])
    have ih := splitChars_append_newline rest cs (fun e => h (List.mem_cons_of_mem _ e))
    simp [splitChars, hc, ih]

/-- Splitting the join of pieces without newline gives the pieces back. -/
theorem splitChars_joinChars : ∀ ps : List (List Char), ps ≠ [] →
    (∀ p ∈ ps, '\n' ∉ p) → splitChars (joinChars ps) = ps
  | [], h, _ => absurd rfl h
  | [p], _, h => by
    simp only [joinChars]
    exact splitChars_of_no_newline p (h p (List.mem_cons_self _ _))
  | p :: q :: rest, _, h => by
    simp only [joinChars]
    rw [splitChars_append_newline _ p (h p (List.mem_cons_self _ _)),
      splitChars_joinChars (q :: rest) (by simp) (fun x hx => h x (List.mem_cons_of_mem _ hx))]

/-- A character that is not a newline at the end of the text ends the last
piece of the split. -/
theorem splitChars_snoc (d : Char) (hd : d ≠ '\n') : ∀ xs : List Char,
    ∃ ps q, splitChars (xs ++ [d]) = ps ++ [q ++ [d]]
  | [] => ⟨[], [], by simp [splitChars, hd]⟩
  | c :: xs => by
    obtain ⟨ps, q, ih⟩ := splitChars_snoc d hd xs
    by_cases hc : c = '\n'
    · subst hc
      refine ⟨[] :: ps, q, ?_⟩
      simp [splitChars, ih]
    · cases ps with
      | nil =>
        refine ⟨[], c :: q, ?_⟩
        simp [splitChars, hc, ih]
      | cons p ps =>
        refine ⟨(c :: p) :: ps, q, ?_⟩
        simp [splitChars, hc, ih]

theorem isSpace_newline : isSpace '\n' = true := by decide

/-- The trimmed text begins with no white space. -/
theorem trimSpaceChars_head (cs : List Char) (c : Char)
    (h : (trimSpaceChars cs).head? = some c) : isSpace c = false := by
  have hpre : trimSpaceChars cs <+: cs.dropWhile isSpace := by
    simp only [trimSpaceChars]
    rw [← List.reverse_suffix, List.reverse_reverse]
    exact List.dropWhile_suffix _
  obtain ⟨w, hw⟩ := hpre
  have h2 : (cs.dropWhile isSpace).head? = some c := by
    rw [← hw, List.head?_append, h]
    rfl
  have h3 := List.head?_dropWhile_not isSpace cs
  rw [h2] at h3
  exact h3

/-- The trimmed text ends with no white space. -/
theorem trimSpaceChars_last (cs : List Char) (d : Char)
    (h : (trimSpaceChars cs).getLast? = some d) : isSpace d = false := by
  simp only [trimSpaceChars, List.getLast?_reverse] at h
  have h3 := List.head?_dropWhile_not isSpace (cs.dropWhile isSpace).reverse
  rw [h] at h3
  exact h3

theorem dropWhile_of_head (p : Char → Bool) (cs : List Char)
    (h : ∀ c, cs.head? = some c → p c = false) : cs.dropWhile p = cs := by
  cases cs with
  | nil => rfl
  | cons c rest => simp [List.dropWhile, h c rfl]

/-- A text without white space at either end is its own trimmed text. -/
theorem trimSpaceChars_of_ends (cs : List Char)
    (hh : ∀ c, cs.head? = some c → isSpace c = false)
    (hl : ∀ d, cs.getLast? = some d → isSpace d = false) : trimSpaceChars cs = cs := by
  simp only [trimSpaceChars]
  rw [dropWhile_of_head isSpace cs hh,
    dropWhile_of_head isSpace cs.reverse (by rw [List.head?_reverse]; exact hl),
    List.reverse_reverse]

/-- The trimmed text is empty exactly for a text of white space only. -/
theorem trimSpaceChars_eq_nil (cs : List Char) :
    trimSpaceChars cs = [] ↔ ∀ c ∈ cs, isSpace c = true := by
  simp only [trimSpaceChars, List.reverse_eq_nil_iff, List.dropWhile_eq_nil_iff,
    List.mem_reverse]
  constructor
  · intro h
    have hnil : cs.dropWhile isSpace = [] := by
      cases hd : cs.dropWhile isSpace with
      | nil => rfl
      | cons c rest =>
        have h3 := List.head?_dropWhile_not isSpace cs
        rw [hd] at h3 h
        have := h c (List.mem_cons_self _ _)
        simp only [List.head?_cons] at h3
        rw [this] at h3
        exact absurd h3 (by simp)
    exact List.dropWhile_eq_nil_iff.1 hnil
  · intro h x hx
    exact h x ((List.dropWhile_sublist isSpace).subset hx)

theorem trimSpaceChars_sublist (cs : List Char) : (trimSpaceChars cs).Sublist cs := by
  simp only [trimSpaceChars]
  have h1 : ((cs.dropWhile isSpace).reverse.dropWhile isSpace).Sublist
      (cs.dropWhile isSpace).reverse := List.dropWhile_sublist _
  have h2 := h1.reverse
  rw [List.reverse_reverse] at h2
  exact h2.trans (List.dropWhile_sublist _)

/-- The method `Lines` by its characters. -/
theorem Lines_eq_linesChars (r : Result) :
    r.Lines = (linesChars r.Stdout.data).map String.mk := by
  simp only [Result.Lines, linesChars, Split, TrimSpace]
  rw [foldl_append_if (fun l : String => l ≠ ""), List.nil_append, List.filter_map]
  congr 1
  apply List.filter_congr
  intro p _
  simp only [Function.comp, ne_eq, decide_not, Bool.not_eq_eq_eq_not, Bool.not_not]
  cases p <;> simp [String.ext_iff]

theorem linesChars_ne_nil (cs : List Char) : ∀ p ∈ linesChars cs, p ≠ [] := by
  intro p hp
  simpa using (List.mem_filter.1 hp).2

theorem linesChars_no_newline (cs : List Char) : ∀ p ∈ linesChars cs, '\n' ∉ p := by
  intro p hp
  exact splitChars_no_newline _ p (List.mem_filter.1 hp).1

theorem linesChars_nil_of_trim (cs : List Char) (h : trimSpaceChars cs = []) :
    linesChars cs = [] := by
  simp [linesChars, h, splitChars]

/-- The first line begins with the first character of the trimmed text. -/
theorem linesChars_head (cs : List Char) (c : Char)
    (h : (trimSpaceChars cs).head? = some c) :
    ∃ p rest, linesChars cs = (c :: p) :: rest := by
  have hc : c ≠ '\n' := by
    intro e
    have := trimSpaceChars_head cs c h
    rw [e, isSpace_newline] at this
    exact absurd this (by simp)
  cases ht : trimSpaceChars cs with
  | nil => rw [ht] at h; exact absurd h (by simp)
  | cons c2 t =>
    rw [ht] at h
    simp only [List.head?_cons, Option.some.injEq] at h
    subst h
    obtain ⟨q, qs, -, h2⟩ := splitChars_cons_of_ne c2 t hc
    exact ⟨q, qs.filter (fun p => decide (p ≠ [])), by simp [linesChars, ht, h2]⟩

/-- The empty text has no lines. -/
theorem linesChars_eq_nil (cs : List Char) :
    linesChars cs = [] ↔ ∀ c ∈ cs, isSpace c = true := by
  rw [← trimSpaceChars_eq_nil]
  constructor
  · intro h
    cases ht : (trimSpaceChars cs).head? with
    | none => simpa using ht
    | some c =>
      obtain ⟨p, rest, hp⟩ := linesChars_head cs c ht
      rw [hp] at h
      exact absurd h (by simp)
  · exact linesChars_nil_of_trim cs

theorem joinChars_head (p : List Char) (c : Char) (rest : List (List Char)) :
    (joinChars ((c :: p) :: rest)).head? = some c := by
  rw [joinChars_cons]
  rfl

theorem joinChars_snoc_last (q : List Char) (d : Char) : ∀ ps : List (List Char),
    (joinChars (ps ++ [q ++ [d]])).getLast? = some d
  | [] => by simp [joinChars]
  | [p] => by
    simp only [List.singleton_append, joinChars]
    rw [List.getLast?_append_of_ne_nil _ (by simp)]
    have e : '\n' :: (q ++ [d]) = ('\n' :: q) ++ [d] := rfl
    rw [e, List.getLast?_concat]
  | p :: p2 :: ps => by
    have ih := joinChars_snoc_last q d (p2 :: ps)
    simp only [List.cons_append, joinChars] at ih ⊢
    have hne : joinChars (p2 :: (ps ++ [q ++ [d]])) ≠ [] := by
      intro e
      rw [e] at ih
      exact absurd ih (by simp)
    rw [List.getLast?_append_of_ne_nil _ (by simp)]
    cases hj : joinChars (p2 :: (ps ++ [q ++ [d]])) with
    | nil => exact absurd hj hne
    | cons a b =>
      rw [hj] at ih
      rw [List.getLast?_cons_cons]
      exact ih

/-- The last line ends with the last character of the trimmed text. -/
theorem linesChars_last (cs : List Char) (d : Char)
    (h : (trimSpaceChars cs).getLast? = some d) :
    ∃ ps q, linesChars cs = ps ++ [q ++ [d]] := by
  have hd : d ≠ '\n' := by
    intro e
    have := trimSpaceChars_last cs d h
    rw [e, isSpace_newline] at this
    exact absurd this (by simp)
  have hsnoc := List.dropLast_append_getLast? d (by simpa using h)
  obtain ⟨ps, q, hps⟩ := splitChars_snoc d hd (trimSpaceChars cs).dropLast
  rw [hsnoc] at hps
  refine ⟨ps.filter (fun p => decide (p ≠ [])), q, ?_⟩
  simp [linesChars, hps, List.filter_append]

/-- The lines of a text are the lines of their own join. -/
theorem linesChars_joinChars (cs : List Char) :
    linesChars (joinChars (linesChars cs)) = linesChars cs := by
  cases ht : (trimSpaceChars cs).head? with
  | none =>
    have hnil : trimSpaceChars cs = [] := by simpa using ht
    rw [linesChars_nil_of_trim cs hnil]
    rfl
  | some c =>
    obtain ⟨p, rest, hp⟩ := linesChars_head cs c ht
    have hc := trimSpaceChars_head cs c ht
    cases hl : (trimSpaceChars cs).getLast? with
    | none =>
      have hnil : trimSpaceChars cs = [] := by simpa using hl
      rw [hnil] at ht
      exact absurd ht (by simp)
    | some d =>
      obtain ⟨ps, q, hq⟩ := linesChars_last cs d hl
      have hd := trimSpaceChars_last cs d hl
      have htrim : trimSpaceChars (joinChars (linesChars cs)) = joinChars (linesChars cs) := by
        apply trimSpaceChars_of_ends
        · intro x hx
          rw [hp, joinChars_head] at hx
          cases hx
          exact hc
        · intro x hx
          rw [hq, joinChars_snoc_last] at hx
          cases hx
          exact hd
      have hne : linesChars cs ≠ [] := by
        rw [hp]
        simp
      have hsplit := splitChars_joinChars (linesChars cs) hne (linesChars_no_newline cs)
      have hkeep : (linesChars cs).filter (fun p => decide (p ≠ [])) = linesChars cs := by
        rw [List.filter_eq_self]
        intro x hx
        simpa using linesChars_ne_nil cs x hx
      conv_lhs => rw [linesChars, htrim, hsplit, hkeep]

/-- C24: Result.Lines is stable under re-joining: for every Stdout, joining
the lines with "\n" and taking Lines of the joined text returns the same
list, Lines(join("\n", Lines(s))) = Lines(s). -/
theorem Lines_rejoin_stable (r : Result) (stderr : String) (code : Int) :
    Result.Lines { Stdout := Join r.Lines "\n", Stderr := stderr, ExitCode := code } =
      r.Lines := by
  rw [Lines_eq_linesChars, Lines_eq_linesChars r]
  simp only [Join_data, List.map_map]
  have hid : (String.data ∘ String.mk) = id := by
    funext p
    rfl
  rw [hid, List.map_id, linesChars_joinChars]

/-- C25: for every Result, no element of Lines() is the empty string and no
element contains a newline character; Lines() is the empty list if and only
if Stdout consists only of white space (the empty Stdout included), and its
length never exceeds one plus the number of newline characters in Stdout. -/
theorem Lines_invariants (r : Result) :
    (∀ l ∈ r.Lines, l ≠ "") ∧
      (∀ l ∈ r.Lines, '\n' ∉ l.data) ∧
      (r.Lines = [] ↔ ∀ c ∈ r.Stdout.data, isSpace c = true) ∧
      r.Lines.length ≤ 1 + r.Stdout.data.count '\n' := by
  rw [Lines_eq_linesChars]
  refine ⟨?_, ?_, ?_, ?_⟩
  · intro l hl
    obtain ⟨p, hp, rfl⟩ := List.mem_map.1 hl
    intro e
    exact linesChars_ne_nil _ p hp (by simpa [String.ext_iff] using e)
  · intro l hl
    obtain ⟨p, hp, rfl⟩ := List.mem_map.1 hl
    exact linesChars_no_newline _ p hp
  · rw [List.map_eq_nil_iff, linesChars_eq_nil]
  · rw [List.length_map]
    have h1 : (linesChars r.Stdout.data).length ≤
        (splitChars (trimSpaceChars r.Stdout.data)).length := List.length_filter_le _ _
    rw [splitChars_length] at h1
    have h2 := (trimSpaceChars_sublist r.Stdout.data).count_le '\n'
    omega

end Grove
